import Mathlib

/-!
Verification development for a lab-report extraction engine.

The program under study converts page texts of scanned medical lab reports
into tabular records.  Its algorithmic core consists of
  * two ordered normalization tables (panel names, component names) looked
    up by trying regex patterns in table order,
  * three source-format strategies (Kaiser "KPA", Monument "MHB",
    Rapid City "RCB"), each an ordered cascade of row regexes applied to
    page text, with continuation-line repair for split reference ranges,
  * a per-document assembler that fills missing panel names and dates from
    document-level and filename-level fallbacks.

This file gives a shallow embedding of that code:
  * Python string primitives are modelled on ASCII data
    (strip/split/upper/title/replace/…),
  * regular expressions are modelled by a small backtracking engine whose
    priority order (alternation order, greedy/lazy repetition) follows
    Python's `re` module; every pattern of the source is transcribed into
    the engine's abstract syntax, with the original pattern text quoted in
    the accompanying comment,
  * each extraction function is translated statement by statement.

Conventions for the embedding:
  * character classes are modelled over ASCII: `[A-Z]` under IGNORECASE
    becomes `Char.isAlpha`, `\s` becomes the Python whitespace set,
    `\d` becomes `Char.isDigit`; inputs considered by the theorems are
    ASCII so this agrees with CPython,
  * Python's `re.match` is the engine anchored at position 0, `re.search`
    tries ascending start positions, `re.finditer` repeatedly searches
    from the end of the previous match,
  * capture groups are numbered in order of their opening parenthesis as
    CPython numbers them; groups of the source that are never read back
    are transcribed as plain subexpressions, which does not change
    matching behaviour.
-/

set_option maxHeartbeats 16000000
set_option maxRecDepth 2000000

namespace LabSpec

/-! ## Python string primitives (ASCII model) -/

/-- Python whitespace for `str.strip`, `str.split()` and the regex class
`\s`: space, tab, newline, carriage return, vertical tab, form feed. -/
def isPySpace (c : Char) : Bool :=
  c = ' ' || c = '\t' || c = '\n' || c = '\r' || c = Char.ofNat 11 || c = Char.ofNat 12

/-- Leading-whitespace removal on a character list. -/
def dropWs (l : List Char) : List Char := l.dropWhile isPySpace

/-- Python `str.strip()` with no argument: remove leading and trailing
whitespace. -/
def pyStrip (s : String) : String :=
  ⟨((s.data.dropWhile isPySpace).reverse.dropWhile isPySpace).reverse⟩

/-- Python `str.split()` with no argument: split on runs of whitespace,
discarding empty pieces. -/
def pySplitWs (l : List Char) : List (List Char) :=
  match l with
  | [] => []
  | c :: rest =>
    if isPySpace c then pySplitWs rest
    else
      match pySplitWs rest with
      | [] => [[c]]
      | w :: ws => if isPySpace (rest.headD ' ') then [c] :: w :: ws else (c :: w) :: ws

/-- Python `' '.join(s.split())`: collapse internal whitespace runs to a
single space and strip the ends.  This is `normalize_test_name` of the
source's base class. -/
def pyCollapse (s : String) : String :=
  ⟨(pySplitWs s.data).intersperse [' '] |>.flatten⟩

/-- Python `str.upper()` (ASCII model). -/
def pyUpper (s : String) : String := ⟨s.data.map Char.toUpper⟩

/-- Python `str.isupper()` (ASCII model): at least one cased character and
no lowercase cased character. -/
def pyIsUpper (s : String) : Bool :=
  s.data.any Char.isAlpha && !(s.data.any Char.isLower)

/-- Helper for `pyTitle`: `prev` records whether the previous character was
alphabetic. -/
def pyTitleAux : Bool → List Char → List Char
  | _, [] => []
  | prev, c :: rest =>
    if c.isAlpha then
      (if prev then c.toLower else c.toUpper) :: pyTitleAux true rest
    else
      c :: pyTitleAux false rest

/-- Python `str.title()` (ASCII model): capitalize the first letter of each
maximal run of letters, lowercase the rest of the run. -/
def pyTitle (s : String) : String := ⟨pyTitleAux false s.data⟩

/-- Does `l` start with `p`? -/
def startsWithL : List Char → List Char → Bool
  | [], _ => true
  | _ :: _, [] => false
  | p :: ps, c :: cs => p = c && startsWithL ps cs

/-- Does `l` contain `p` as a contiguous sublist? -/
def containsSub (p : List Char) : List Char → Bool
  | [] => startsWithL p []
  | c :: cs => startsWithL p (c :: cs) || containsSub p cs

/-- Python `sub in s` for strings. -/
def pyContains (s sub : String) : Bool := containsSub sub.data s.data

/-- Python `str.replace(old, new)` with nonempty `old`, on lists: replace
every non-overlapping occurrence, scanning left to right.  The head of the
pattern is passed separately so that the pattern is provably nonempty. -/
def replaceL (p0 : Char) (ps rep : List Char) : Nat → List Char → List Char
  | 0, l => l
  | _ + 1, [] => []
  | fuel + 1, c :: rest =>
    if startsWithL (p0 :: ps) (c :: rest) then
      rep ++ replaceL p0 ps rep fuel (rest.drop ps.length)
    else c :: replaceL p0 ps rep fuel rest

/-- Python `str.replace(old, new)` for a nonempty `old`.  The fuel only has
to reach the subject's length for the scan to be exhaustive. -/
def pyReplace (s old new : String) : String :=
  match old.data with
  | [] => s
  | p0 :: ps => ⟨replaceL p0 ps new.data (s.data.length + 1) s.data⟩

/-- Python `str.split(sep)` for a nonempty separator: split at each
non-overlapping occurrence, scanning left to right. -/
def splitSepAux (sep : List Char) : Nat → List Char → List Char → List (List Char)
  | 0, acc, l => [acc.reverse ++ l]
  | _ + 1, acc, [] => [acc.reverse]
  | fuel + 1, acc, c :: l =>
    if startsWithL sep (c :: l) then
      acc.reverse :: splitSepAux sep fuel [] ((c :: l).drop sep.length)
    else splitSepAux sep fuel (c :: acc) l

/-- Python `str.split(sep)` on strings (nonempty `sep`). -/
def pySplitSep (sep s : String) : List String :=
  (splitSepAux sep.data (s.data.length + 1) [] s.data).map (fun l => ⟨l⟩)

/-- Python `sep.join(parts)`. -/
def pyJoin (sep : String) : List String → String
  | [] => ""
  | [x] => x
  | x :: xs => x ++ sep ++ pyJoin sep xs

/-- Python's `or` between an optional string (a variable that may still be
`None`) and a string: first operand if it is truthy. -/
def pyOrStr (a : Option String) (b : String) : String :=
  match a with
  | some s => if s = "" then b else s
  | none => b

/-- Python truthiness of an optional-string variable. -/
def truthy (a : Option String) : Bool :=
  match a with
  | some s => s ≠ ""
  | none => false

/-! ## Regex engine

A small backtracking matcher.  Repetition is restricted to character
classes, which is all the source's patterns use; its priority order
(alternation tries the left branch first, greedy repetition consumes as
much as possible first, lazy repetition as little as possible) is that of
CPython's `re`. -/

/-- Abstract syntax of the regexes the source uses.  `cls` matches one
character of a class; `star`/repetition apply only to classes; `grp`
records a numbered capture. -/
inductive RE where
  | eps
  | cls (p : Char → Bool)
  | star (lazy : Bool) (p : Char → Bool)
  | seq (a b : RE)
  | alt (a b : RE)
  | opt (lazy : Bool) (a : RE)
  | grp (n : Nat) (a : RE)
  | bol
  | eol

/-- `p+` (greedy or lazy): one mandatory character then a star. -/
def RE.plus1 (lazy : Bool) (p : Char → Bool) : RE := .seq (.cls p) (.star lazy p)

/-- Sequence of a list of regexes. -/
def REseq : List RE → RE
  | [] => .eps
  | [r] => r
  | r :: rs => .seq r (REseq rs)

/-- Case-sensitive literal character. -/
def chC (c : Char) : Char → Bool := fun x => x = c

/-- Case-insensitive literal character (ASCII fold, matching CPython's
behaviour on ASCII patterns under `re.IGNORECASE`). -/
def chI (c : Char) : Char → Bool := fun x => x.toLower = c.toLower

/-- Case-sensitive literal string. -/
def litS (s : String) : RE := REseq (s.data.map (fun c => RE.cls (chC c)))

/-- Case-insensitive literal string. -/
def litI (s : String) : RE := REseq (s.data.map (fun c => RE.cls (chI c)))

/-- An exact count `p{2}` of a class. -/
def rep2 (p : Char → Bool) : RE := .seq (.cls p) (.cls p)

/-- An exact count `p{4}` of a class. -/
def rep4 (p : Char → Bool) : RE := .seq (rep2 p) (rep2 p)

/-- Captured groups: group number paired with captured text, most recently
completed first. -/
abbrev Caps := List (Nat × String)

/-- Substring of the subject text from position `a` (inclusive) to `b`
(exclusive). -/
def sliceStr (text : List Char) (a b : Nat) : String := ⟨(text.drop a).take (b - a)⟩

/-- Result of a successful match attempt: end position and captures. -/
abbrev MRes := Nat × Caps

/-- Greedy class repetition with continuation `k`: consume as many
class characters as possible, backtracking to fewer on failure of `k`. -/
def starG (p : Char → Bool) (text : List Char) (k : Nat → Caps → Option MRes) :
    Nat → Nat → Caps → Option MRes
  | 0, pos, caps => k pos caps
  | fuel + 1, pos, caps =>
    if pos < text.length && p (text.getD pos ' ') then
      match starG p text k fuel (pos + 1) caps with
      | some r => some r
      | none => k pos caps
    else k pos caps

/-- Lazy class repetition with continuation `k`: try `k` first, consume a
class character only on failure. -/
def starL (p : Char → Bool) (text : List Char) (k : Nat → Caps → Option MRes) :
    Nat → Nat → Caps → Option MRes
  | 0, pos, caps => k pos caps
  | fuel + 1, pos, caps =>
    match k pos caps with
    | some r => some r
    | none =>
      if pos < text.length && p (text.getD pos ' ') then starL p text k fuel (pos + 1) caps
      else none

/-- The backtracking matcher in continuation-passing style.  `ml` is the
`re.MULTILINE` flag, which affects `bol` and `eol`.  Without `ml`, `$`
accepts the end of the text or a position just before a final newline,
as in CPython. -/
def matchCore (text : List Char) (ml : Bool) :
    RE → Nat → Caps → (Nat → Caps → Option MRes) → Option MRes
  | .eps, pos, caps, k => k pos caps
  | .cls p, pos, caps, k =>
    if pos < text.length && p (text.getD pos ' ') then k (pos + 1) caps else none
  | .star lz p, pos, caps, k =>
    if lz then starL p text k (text.length - pos) pos caps
    else starG p text k (text.length - pos) pos caps
  | .seq a b, pos, caps, k =>
    matchCore text ml a pos caps (fun p c => matchCore text ml b p c k)
  | .alt a b, pos, caps, k =>
    match matchCore text ml a pos caps k with
    | some r => some r
    | none => matchCore text ml b pos caps k
  | .opt lz a, pos, caps, k =>
    if lz then
      match k pos caps with
      | some r => some r
      | none => matchCore text ml a pos caps k
    else
      match matchCore text ml a pos caps k with
      | some r => some r
      | none => k pos caps
  | .grp n a, pos, caps, k =>
    matchCore text ml a pos caps (fun p c => k p ((n, sliceStr text pos p) :: c))
  | .bol, pos, caps, k =>
    if pos = 0 then k pos caps
    else if ml && decide (pos - 1 < text.length) && (text.getD (pos - 1) ' ' = '\n') then
      k pos caps
    else none
  | .eol, pos, caps, k =>
    if pos = text.length then k pos caps
    else if pos < text.length && (text.getD pos ' ' = '\n')
        && (ml || decide (pos = text.length - 1)) then
      k pos caps
    else none

/-- Attempt a match of `re` at a fixed position (the substance of Python's
`re.match` when `pos = 0`). -/
def reMatchAt (re : RE) (text : List Char) (ml : Bool) (pos : Nat) : Option MRes :=
  matchCore text ml re pos [] (fun p c => some (p, c))

/-- First capture with the given group number, or `None`. -/
def capLookup (caps : Caps) (n : Nat) : Option String :=
  match caps with
  | [] => none
  | (m, s) :: rest => if m = n then some s else capLookup rest n

/-- Python `match.group(n)` for a group the pattern always binds on
success; unset groups read as the empty string at the lookup sites that
guard for it. -/
def capStr (caps : Caps) (n : Nat) : String := (capLookup caps n).getD ""

/-- Python `re.match(pattern, s, flags)`: anchored at position 0, returns
end position and captures. -/
def pyMatch (re : RE) (s : String) (ml : Bool) : Option MRes :=
  reMatchAt re s.data ml 0

/-- Search for the leftmost match whose start is `≥ pos`: ascending start
positions, as `re.search`.  The fuel argument only has to reach
`text.length + 1 - pos` for the scan to be exhaustive. -/
def searchFrom (re : RE) (text : List Char) (ml : Bool) :
    Nat → Nat → Option (Nat × MRes)
  | 0, _ => none
  | fuel + 1, pos =>
    match reMatchAt re text ml pos with
    | some r => some (pos, r)
    | none => if pos < text.length then searchFrom re text ml fuel (pos + 1) else none

/-- Python `re.search(pattern, s, flags)`: start position, end position and
captures of the leftmost match. -/
def pySearch (re : RE) (s : String) (ml : Bool) : Option (Nat × MRes) :=
  searchFrom re s.data ml (s.data.length + 1) 0

/-- One entry produced by `re.finditer`: match start, match end, captures. -/
structure FMatch where
  start : Nat
  stop : Nat
  caps : Caps
  deriving Repr, DecidableEq

/-- Worker for `pyFindIter`, searching from `pos` with enough fuel to scan
the text; after a match the scan resumes at its end (one past its start for
an empty match, as CPython). -/
def findIterAux (re : RE) (text : List Char) (ml : Bool) :
    Nat → Nat → List FMatch
  | 0, _ => []
  | fuel + 1, pos =>
    if pos ≤ text.length then
      match searchFrom re text ml (text.length + 1 - pos) pos with
      | some (s, (e, caps)) =>
        ⟨s, e, caps⟩ :: findIterAux re text ml fuel (if s < e then e else s + 1)
      | none => []
    else []

/-- Python `re.finditer(pattern, s, flags)`: successive non-overlapping
matches, leftmost first. -/
def pyFindIter (re : RE) (s : String) (ml : Bool) : List FMatch :=
  findIterAux re s.data ml (s.data.length + 1) 0

/-- Worker for `pySub`; `acc`-free structural version: returns the
replaced text from `pos` on. -/
def pySubAux (re : RE) (rep : List Char) (text : List Char) (ml : Bool) :
    Nat → Nat → List Char
  | 0, pos => text.drop pos
  | fuel + 1, pos =>
    if pos ≤ text.length then
      match searchFrom re text ml (text.length + 1 - pos) pos with
      | some (s, (e, _)) =>
        if pos ≤ s ∧ s < e then
          ((text.drop pos).take (s - pos)) ++ rep ++ pySubAux re rep text ml fuel e
        else ((text.drop pos).take (s + 1 - pos)) ++ pySubAux re rep text ml fuel (s + 1)
      | none => text.drop pos
    else text.drop pos

/-- Python `re.sub(pattern, rep, s)` for a pattern that cannot match the
empty string (every use in the source is of that kind). -/
def pySub (re : RE) (rep : String) (s : String) : String :=
  ⟨pySubAux re rep.data s.data false (s.data.length + 1) 0⟩

/-! ## Character classes used by the source's patterns -/

/-- The regex class `\s`. -/
def wsC : Char → Bool := isPySpace

/-- The regex class `\d` (ASCII model). -/
def digC : Char → Bool := Char.isDigit

/-- The classes `[a-zA-Z]`, and `[A-Z]` under IGNORECASE (ASCII model). -/
def alphaC : Char → Bool := Char.isAlpha

/-- The class `[A-Z0-9]` under IGNORECASE, and `[a-zA-Z0-9]`. -/
def alnumC (c : Char) : Bool := c.isAlpha || c.isDigit

/-- The class `[A-Z]` in a case-sensitive pattern. -/
def upperC : Char → Bool := Char.isUpper

/-- The regex `.` without DOTALL: any character except a newline. -/
def dotC (c : Char) : Bool := c ≠ '\n'

/-- The regex `.` under DOTALL: any character. -/
def allC (_ : Char) : Bool := true

/-- The apostrophe character, used by the `WBC'S` component pattern. -/
def apoCh : Char := Char.ofNat 39

/-! ## Shared extraction helpers of `FacilityConfig` (base_config.py) -/

/-- The canonical output row, `LabResult` of base_config.py. -/
structure LabResult where
  source : String := ""
  facility : String := ""
  panel_name : String := ""
  component : String := ""
  test_date : String := ""
  value : String := ""
  ref_range : String := ""
  unit : String := ""
  flag : String := ""
  page_marker : String := ""
  result_type : String := "Chemistry"
  narrative : String := ""
  deriving Repr, DecidableEq

/-- The named group `date` of the header-date patterns; it is group 1 in
each of them. -/
def dateGrp : Nat := 1

/-- Transcription of `\d{2}/\d{2}/\d{4}`. -/
def dateRE : RE :=
  REseq [rep2 digC, .cls (chC '/'), rep2 digC, .cls (chC '/'), rep4 digC]

/-- `FacilityConfig.extract_date`: `re.search(date_pattern, text,
re.IGNORECASE)`, returning the named group `date` (present in every
config's pattern) or the empty string. -/
def extractDate (re : RE) (text : String) : String :=
  match pySearch re text false with
  | some (_, (_, caps)) => capStr caps dateGrp
  | none => ""

/-- `FacilityConfig.extract_page_marker`: `re.search(page_marker_pattern,
text, re.MULTILINE)`, returning `match.group(0).strip()` or the empty
string. -/
def extractMarker (re : RE) (text : String) : String :=
  match pySearch re text true with
  | some (s, (e, _)) => pyStrip (sliceStr text.data s e)
  | none => ""

/-! ## Normalization tables (base_config.py)

Each canonical label maps to a list of regex patterns tried with
`re.search(pattern, name, re.IGNORECASE)`.  The tables are Python dict
literals; `COMPONENT_MAPPINGS` repeats three keys (`'Monocytes %'`,
`'Immature Granulocytes %'`, `'Urine pH'`), and a Python dict literal
keeps the position of a repeated key's first occurrence with the value of
its last occurrence.  `_SRC` lists below transcribe the literals entry by
entry in source order; `pyDictEval` applies the dict-literal semantics. -/

/-- Dict-literal evaluation: first occurrence fixes the position of a key,
the last occurrence fixes its value. -/
def pyDictEval (l : List (String × List RE)) : List (String × List RE) :=
  l.foldl
    (fun acc kv =>
      if acc.any (fun p => p.1 = kv.1) then
        acc.map (fun p => if p.1 = kv.1 then (p.1, kv.2) else p)
      else acc ++ [kv])
    []

/-- `PANEL_MAPPINGS` of base_config.py, entry by entry.  The original
pattern string is quoted next to each transcription. -/
def PANEL_MAPPINGS_SRC : List (String × List RE) := [
  ("Comprehensive Metabolic Panel (CMP)", [
    REseq [litI "Comprehensive", .star false wsC, litI "Metabolic"],
    .seq .bol (litI "CMP"),
    litI "ABNORMAL_COMPREHENSIVE_METABOLIC"]),
  ("Complete Blood Count (CBC)", [
    .seq .bol (litI "CBC"),
    litI "ABNORMAL_CBC"]),
  ("Lipid Panel", [
    REseq [litI "Lipid", .star false wsC, litI "Panel"]]),
  ("Thyroid Stimulating Hormone (TSH)", [
    .seq .bol (litI "TSH")]),
  ("Urinalysis (UA)", [
    litI "LABS-UA",
    litI "URINALYSIS"]),
  ("Iron Panel", [
    litI "LABS-IRON"]),
  ("Vitamin B12 and Folate", [
    REseq [litI "Vitamin", .star false wsC, litI "B12", .star false wsC,
           litI "and", .star false wsC, litI "Folate"]]),
  ("Vitamin B12 (Cobalamin)", [
    REseq [litI "VITAMIN", .star false wsC, litI "B12"]]),
  ("Serum Protein Electrophoresis (SPEP)", [
    REseq [litI "PROTEIN", .star false wsC, litI "ELECTROPHORESIS"]]),
  ("Parathyroid Hormone (PTH)", [
    .seq .bol (litI "PTH")]),
  ("Hemoglobin A1c (HbA1c)", [
    .seq .bol (litI "A1C")])]

/-- The `'WBC\'S'` literal of the WBC pattern. -/
def wbcS : String := "WBC" ++ apoCh.toString ++ "S"

/-- The `RATIO` literal of the second RDW pattern. -/
def ratioLit : String := "RATI" ++ "O"

/-- `COMPONENT_MAPPINGS` of base_config.py, entry by entry in literal
order, including the three repeated keys. -/
def COMPONENT_MAPPINGS_SRC : List (String × List RE) := [
  -- 'Albumin': ^ALB(UMIN)?(\s+SPEP)?$
  ("Albumin", [REseq [.bol, litI "ALB", .opt false (litI "UMIN"),
    .opt false (.seq (RE.plus1 false wsC) (litI "SPEP")), .eol]]),
  -- 'Alkaline Phosphatase (ALP)': ^AL(KP|KALINE)(\s+Phosphatase)?$
  ("Alkaline Phosphatase (ALP)", [REseq [.bol, litI "AL",
    .alt (litI "KP") (litI "KALINE"),
    .opt false (.seq (RE.plus1 false wsC) (litI "Phosphatase")), .eol]]),
  -- 'Alanine Aminotransferase (ALT)': ^ALT(\s+\(SGPT\))?.*$ and ^ALT.*$
  ("Alanine Aminotransferase (ALT)", [
    REseq [.bol, litI "ALT",
      .opt false (REseq [RE.plus1 false wsC, .cls (chC '('), litI "SGPT", .cls (chC ')')]),
      .star false dotC, .eol],
    REseq [.bol, litI "ALT", .star false dotC, .eol]]),
  -- 'Aspartate Aminotransferase (AST)': ^AST.*$
  ("Aspartate Aminotransferase (AST)", [
    REseq [.bol, litI "AST", .star false dotC, .eol]]),
  -- 'Basophils Absolute': ^BASO\s*#$
  ("Basophils Absolute", [REseq [.bol, litI "BASO", .star false wsC, .cls (chC '#'), .eol]]),
  -- 'Basophils %': ^BASO(PHILS)?\s*%?,?$
  ("Basophils %", [REseq [.bol, litI "BASO", .opt false (litI "PHILS"), .star false wsC,
    .opt false (.cls (chC '%')), .opt false (.cls (chC ',')), .eol]]),
  -- 'Total Bilirubin': ^(TBIL|BILIRUBIN,\s*TOTAL|Total\s+Bilirubin)$
  ("Total Bilirubin", [REseq [.bol,
    .alt (litI "TBIL") (.alt
      (REseq [litI "BILIRUBIN,", .star false wsC, litI "TOTAL"])
      (REseq [litI "Total", RE.plus1 false wsC, litI "Bilirubin"])), .eol]]),
  -- 'Blood Urea Nitrogen (BUN)': ^BUN(\s+\d+)?$
  ("Blood Urea Nitrogen (BUN)", [REseq [.bol, litI "BUN",
    .opt false (.seq (RE.plus1 false wsC) (RE.plus1 false digC)), .eol]]),
  -- 'Calcium': ^(CA|CALCIUM)$
  ("Calcium", [REseq [.bol, .alt (litI "CA") (litI "CALCIUM"), .eol]]),
  -- 'Chloride': ^(CHLORIDE|Cl-)$
  ("Chloride", [REseq [.bol, .alt (litI "CHLORIDE") (litI "Cl-"), .eol]]),
  -- 'Total Cholesterol': ^(CHOL(ESTEROL)?)$
  ("Total Cholesterol", [REseq [.bol, litI "CHOL", .opt false (litI "ESTEROL"), .eol]]),
  -- 'Carbon Dioxide (CO2)': ^CO2$
  ("Carbon Dioxide (CO2)", [REseq [.bol, litI "CO2", .eol]]),
  -- 'Calcium, Corrected': ^(CORR\s+CA|Corrected\s+Calcium)$
  ("Calcium, Corrected", [REseq [.bol,
    .alt (REseq [litI "CORR", RE.plus1 false wsC, litI "CA"])
         (REseq [litI "Corrected", RE.plus1 false wsC, litI "Calcium"]), .eol]]),
  -- 'Creatinine': ^(CREA|CREATININE)$
  ("Creatinine", [REseq [.bol, .alt (litI "CREA") (litI "CREATININE"), .eol]]),
  -- 'Creatinine, Urine 24H': ^Creatinine,\s*24H\s*Ur$
  ("Creatinine, Urine 24H", [REseq [.bol, litI "Creatinine,", .star false wsC,
    litI "24H", .star false wsC, litI "Ur", .eol]]),
  -- 'Estimated Average Glucose (eAG)': ^EAG$
  ("Estimated Average Glucose (eAG)", [REseq [.bol, litI "EAG", .eol]]),
  -- 'Eosinophils Absolute': ^EOS\s*#$
  ("Eosinophils Absolute", [REseq [.bol, litI "EOS", .star false wsC, .cls (chC '#'), .eol]]),
  -- 'Eosinophils %': ^EOS(INOPHILS)?\s*%?,?$
  ("Eosinophils %", [REseq [.bol, litI "EOS", .opt false (litI "INOPHILS"), .star false wsC,
    .opt false (.cls (chC '%')), .opt false (.cls (chC ',')), .eol]]),
  -- 'Iron (Fe)': ^FE$
  ("Iron (Fe)", [REseq [.bol, litI "FE", .eol]]),
  -- 'Folate': ^FOLAT$
  ("Folate", [REseq [.bol, litI "FOLAT", .eol]]),
  -- 'Glucose': ^GLU(COSE)?(,\s*RANDOM)?$
  ("Glucose", [REseq [.bol, litI "GLU", .opt false (litI "COSE"),
    .opt false (REseq [.cls (chC ','), .star false wsC, litI "RANDOM"]), .eol]]),
  -- 'Hematocrit (Hct)': ^(HCT|HEMATOCRIT)(,\s*AUTO)?$
  ("Hematocrit (Hct)", [REseq [.bol, .alt (litI "HCT") (litI "HEMATOCRIT"),
    .opt false (REseq [.cls (chC ','), .star false wsC, litI "AUTO"]), .eol]]),
  -- 'HDL Cholesterol': ^d?HDL$
  ("HDL Cholesterol", [REseq [.bol, .opt false (.cls (chI 'd')), litI "HDL", .eol]]),
  -- 'Hemoglobin (Hgb)': ^HGB|Hemoglobin$
  ("Hemoglobin (Hgb)", [.alt (.seq .bol (litI "HGB")) (.seq (litI "Hemoglobin") .eol)]),
  -- 'Immature Granulocytes Absolute': ^IG\s*#$
  ("Immature Granulocytes Absolute", [REseq [.bol, litI "IG", .star false wsC,
    .cls (chC '#'), .eol]]),
  -- 'Immature Granulocytes %' (first occurrence): ^IMMATURE\s+GRAN\s*%$
  ("Immature Granulocytes %", [REseq [.bol, litI "IMMATURE", RE.plus1 false wsC,
    litI "GRAN", .star false wsC, .cls (chC '%'), .eol]]),
  -- 'Calcium, Ionized': ^IONIZED\s+CALCIUM$
  ("Calcium, Ionized", [REseq [.bol, litI "IONIZED", RE.plus1 false wsC,
    litI "CALCIUM", .eol]]),
  -- 'Potassium': ^(K\+|POTASSIUM)$
  ("Potassium", [REseq [.bol, .alt (.seq (litI "K") (.cls (chC '+'))) (litI "POTASSIUM"), .eol]]),
  -- 'LDL Cholesterol': ^LDL(\s+(DIRECT|CALCULATED))?$
  ("LDL Cholesterol", [REseq [.bol, litI "LDL",
    .opt false (.seq (RE.plus1 false wsC) (.alt (litI "DIRECT") (litI "CALCULATED"))), .eol]]),
  -- 'Lymphocytes Absolute': ^LYMPH\s*#$
  ("Lymphocytes Absolute", [REseq [.bol, litI "LYMPH", .star false wsC, .cls (chC '#'), .eol]]),
  -- 'Lymphocytes %': ^LYMPH(OCYTES)?\s*%?,?$
  ("Lymphocytes %", [REseq [.bol, litI "LYMPH", .opt false (litI "OCYTES"), .star false wsC,
    .opt false (.cls (chC '%')), .opt false (.cls (chC ',')), .eol]]),
  -- 'Mean Corpuscular Hemoglobin (MCH)': ^MCH$
  ("Mean Corpuscular Hemoglobin (MCH)", [REseq [.bol, litI "MCH", .eol]]),
  -- 'Mean Corpuscular Hemoglobin Concentration (MCHC)': ^MCHC$
  ("Mean Corpuscular Hemoglobin Concentration (MCHC)", [REseq [.bol, litI "MCHC", .eol]]),
  -- 'Mean Corpuscular Volume (MCV)': ^MCV$
  ("Mean Corpuscular Volume (MCV)", [REseq [.bol, litI "MCV", .eol]]),
  -- 'Monocytes Absolute': ^MONO\s*#$
  ("Monocytes Absolute", [REseq [.bol, litI "MONO", .star false wsC, .cls (chC '#'), .eol]]),
  -- 'Monocytes %' (first occurrence): ^MONO(CYTES)?\s*%?,?$
  ("Monocytes %", [REseq [.bol, litI "MONO", .opt false (litI "CYTES"), .star false wsC,
    .opt false (.cls (chC '%')), .opt false (.cls (chC ',')), .eol]]),
  -- 'Mean Platelet Volume (MPV)': ^MPV$
  ("Mean Platelet Volume (MPV)", [REseq [.bol, litI "MPV", .eol]]),
  -- 'Sodium': ^(NA\+|SODIUM)$
  ("Sodium", [REseq [.bol, .alt (.seq (litI "NA") (.cls (chC '+'))) (litI "SODIUM"), .eol]]),
  -- 'Neutrophils Absolute': ^NEUT\s*#$
  ("Neutrophils Absolute", [REseq [.bol, litI "NEUT", .star false wsC, .cls (chC '#'), .eol]]),
  -- 'Neutrophils %': ^NEUT(ROPHILS)?\s*%?,?$
  ("Neutrophils %", [REseq [.bol, litI "NEUT", .opt false (litI "ROPHILS"), .star false wsC,
    .opt false (.cls (chC '%')), .opt false (.cls (chC ',')), .eol]]),
  -- 'Platelet Count': ^(PLT|PLATELETS(,\s*AUTOMATED)?)$
  ("Platelet Count", [REseq [.bol,
    .alt (litI "PLT") (.seq (litI "PLATELETS")
      (.opt false (REseq [.cls (chC ','), .star false wsC, litI "AUTOMATED"]))), .eol]]),
  -- 'Total Protein': ^(TP|TOTAL\s+PROTEIN|PROTEIN\s+TOTAL)$
  ("Total Protein", [REseq [.bol,
    .alt (litI "TP") (.alt
      (REseq [litI "TOTAL", RE.plus1 false wsC, litI "PROTEIN"])
      (REseq [litI "PROTEIN", RE.plus1 false wsC, litI "TOTAL"])), .eol]]),
  -- 'Parathyroid Hormone (PTH), Intact': ^PTH(\s+INTACT)?$
  ("Parathyroid Hormone (PTH), Intact", [REseq [.bol, litI "PTH",
    .opt false (.seq (RE.plus1 false wsC) (litI "INTACT")), .eol]]),
  -- 'Red Blood Cell Count (RBC)': ^RBC(,\s*AUTO)?$
  ("Red Blood Cell Count (RBC)", [REseq [.bol, litI "RBC",
    .opt false (REseq [.cls (chC ','), .star false wsC, litI "AUTO"]), .eol]]),
  -- 'Red Cell Distribution Width (RDW)': ^RDW(,\s*BLOOD)?.*$ and ^RDW,\s*RATIO.*$
  ("Red Cell Distribution Width (RDW)", [
    REseq [.bol, litI "RDW",
      .opt false (REseq [.cls (chC ','), .star false wsC, litI "BLOOD"]),
      .star false dotC, .eol],
    REseq [.bol, litI "RDW,", .star false wsC, litI ratioLit, .star false dotC, .eol]]),
  -- 'Total Iron Binding Capacity (TIBC)': ^TIBC$
  ("Total Iron Binding Capacity (TIBC)", [REseq [.bol, litI "TIBC", .eol]]),
  -- 'Triglycerides': ^TRIG(LYCERIDE)?$
  ("Triglycerides", [REseq [.bol, litI "TRIG", .opt false (litI "LYCERIDE"), .eol]]),
  -- 'Thyroid Stimulating Hormone (TSH)': ^TSH$
  ("Thyroid Stimulating Hormone (TSH)", [REseq [.bol, litI "TSH", .eol]]),
  -- 'Vitamin B12': ^VIT(AMIN)?\s*B12$
  ("Vitamin B12", [REseq [.bol, litI "VIT", .opt false (litI "AMIN"), .star false wsC,
    litI "B12", .eol]]),
  -- 'White Blood Cell Count (WBC)': ^(WBC|WBC\'S)(,?\s*AUTO)?$
  ("White Blood Cell Count (WBC)", [REseq [.bol,
    .alt (litI "WBC") (litI wbcS),
    .opt false (REseq [.opt false (.cls (chC ',')), .star false wsC, litI "AUTO"]), .eol]]),
  -- 'Hemoglobin A1c (HbA1c)': ^(d%A1c|A1C)$
  ("Hemoglobin A1c (HbA1c)", [REseq [.bol, .alt (litI "d%A1c") (litI "A1C"), .eol]]),
  -- 'Anion Gap': ^Anion\s+Gap$
  ("Anion Gap", [REseq [.bol, litI "Anion", RE.plus1 false wsC, litI "Gap", .eol]]),
  -- 'Lipase': ^Lipase$
  ("Lipase", [REseq [.bol, litI "Lipase", .eol]]),
  -- 'Magnesium': ^Magnesium$
  ("Magnesium", [REseq [.bol, litI "Magnesium", .eol]]),
  -- 'Phosphorus': ^Phosphorus$
  ("Phosphorus", [REseq [.bol, litI "Phosphorus", .eol]]),
  -- 'Urine pH' (first occurrence): ^(F\s+)?U\s+PH|PH,\s+UA$
  ("Urine pH", [.alt
    (REseq [.bol, .opt false (.seq (.cls (chI 'F')) (RE.plus1 false wsC)),
      litI "U", RE.plus1 false wsC, litI "PH"])
    (REseq [litI "PH,", RE.plus1 false wsC, litI "UA", .eol])]),
  -- 'Calcium, Urine': ^Calcium,\s*Urine$
  ("Calcium, Urine", [REseq [.bol, litI "Calcium,", .star false wsC, litI "Urine", .eol]]),
  -- 'Glucose, Urine': ^GLUCOSE,\s+UA$
  ("Glucose, Urine", [REseq [.bol, litI "GLUCOSE,", RE.plus1 false wsC, litI "UA", .eol]]),
  -- 'Specific Gravity, Urine': ^SPECIFIC\s+GRAVITY,\s+UA$
  ("Specific Gravity, Urine", [REseq [.bol, litI "SPECIFIC", RE.plus1 false wsC,
    litI "GRAVITY,", RE.plus1 false wsC, litI "UA", .eol]]),
  -- 'Protein, Urine': ^PROTEIN,\s+UA$
  ("Protein, Urine", [REseq [.bol, litI "PROTEIN,", RE.plus1 false wsC, litI "UA", .eol]]),
  -- 'Ketones, Urine': ^KETONES,\s+UA|KET$
  ("Ketones, Urine", [.alt
    (REseq [.bol, litI "KETONES,", RE.plus1 false wsC, litI "UA"])
    (.seq (litI "KET") .eol)]),
  -- 'Bilirubin, Urine': ^BILIRUBIN,\s+UA$
  ("Bilirubin, Urine", [REseq [.bol, litI "BILIRUBIN,", RE.plus1 false wsC, litI "UA", .eol]]),
  -- 'Urobilinogen, Urine': ^UROBILINOGEN,.*$
  ("Urobilinogen, Urine", [REseq [.bol, litI "UROBILINOGEN,", .star false dotC, .eol]]),
  -- 'Nitrite, Urine': ^NITRITE,\s+UA$
  ("Nitrite, Urine", [REseq [.bol, litI "NITRITE,", RE.plus1 false wsC, litI "UA", .eol]]),
  -- 'Leukocyte Esterase, Urine': ^LEUKOCYTE\s+ESTERASE,.*$
  ("Leukocyte Esterase, Urine", [REseq [.bol, litI "LEUKOCYTE", RE.plus1 false wsC,
    litI "ESTERASE,", .star false dotC, .eol]]),
  -- 'Blood, Urine': ^UA\s+HGB$
  ("Blood, Urine", [REseq [.bol, litI "UA", RE.plus1 false wsC, litI "HGB", .eol]]),
  -- 'Mucus, Urine': ^MUCUS,\s+URINE$
  ("Mucus, Urine", [REseq [.bol, litI "MUCUS,", RE.plus1 false wsC, litI "URINE", .eol]]),
  -- 'Granulocytes %': ^GRANULOCYTES\s*%,.*$
  ("Granulocytes %", [REseq [.bol, litI "GRANULOCYTES", .star false wsC, .cls (chC '%'),
    .cls (chC ','), .star false dotC, .eol]]),
  -- 'Granulocytes': ^GRANULOCYTES$
  ("Granulocytes", [REseq [.bol, litI "GRANULOCYTES", .eol]]),
  -- 'Monocytes %' (second occurrence): ^MONO(CYTES|S)?\s*%?(,?\s*AUTO)?.*$
  ("Monocytes %", [REseq [.bol, litI "MONO", .opt false (.alt (litI "CYTES") (litI "S")),
    .star false wsC, .opt false (.cls (chC '%')),
    .opt false (REseq [.opt false (.cls (chC ',')), .star false wsC, litI "AUTO"]),
    .star false dotC, .eol]]),
  -- 'Immature Granulocytes %' (second occurrence): ^(IMMATURE|IMMATURE\s+GRAN\s*%)$
  ("Immature Granulocytes %", [REseq [.bol,
    .alt (litI "IMMATURE")
         (REseq [litI "IMMATURE", RE.plus1 false wsC, litI "GRAN", .star false wsC,
           .cls (chC '%')]), .eol]]),
  -- 'WBC, Urine': ^WBC,\s*Urine.*$
  ("WBC, Urine", [REseq [.bol, litI "WBC,", .star false wsC, litI "Urine",
    .star false dotC, .eol]]),
  -- 'Urine pH' (second occurrence): ^(F\s+)?U\s+PH|PH,\s+(UA|Urine)$
  ("Urine pH", [.alt
    (REseq [.bol, .opt false (.seq (.cls (chI 'F')) (RE.plus1 false wsC)),
      litI "U", RE.plus1 false wsC, litI "PH"])
    (REseq [litI "PH,", RE.plus1 false wsC, .alt (litI "UA") (litI "Urine"), .eol])])]

/-- The panel table as the running program sees it. -/
def PANEL_MAPPINGS : List (String × List RE) := pyDictEval PANEL_MAPPINGS_SRC

/-- The component table as the running program sees it: 70 keys, with the
values of the three repeated keys replaced by their last occurrence. -/
def COMPONENT_MAPPINGS : List (String × List RE) := pyDictEval COMPONENT_MAPPINGS_SRC

/-! ## Name normalization (base_config.py) -/

/-- The ordered table scan shared by both normalizers: the first entry one
of whose patterns matches (`re.search(pattern, s, re.IGNORECASE)`) wins. -/
def tableLookup (table : List (String × List RE)) (s : String) : Option String :=
  match table with
  | [] => none
  | (name, pats) :: rest =>
    if pats.any (fun p => (pySearch p s false).isSome) then some name
    else tableLookup rest s

/-- `FacilityConfig.normalize_test_name`: collapse whitespace. -/
def normalize_test_name (name : String) : String := pyCollapse name

/-- `FacilityConfig.normalize_panel_name`. -/
def normalize_panel_name (raw_name : String) : String :=
  if raw_name = "" then ""
  else
    let raw_clean := pyStrip raw_name
    match tableLookup PANEL_MAPPINGS raw_clean with
    | some standard_name => standard_name
    | none => if pyIsUpper raw_clean then pyTitle raw_clean else raw_clean

/-- `FacilityConfig.normalize_component_name`. -/
def normalize_component_name (raw_name : String) : String :=
  if raw_name = "" then ""
  else
    let clean_name := normalize_test_name raw_name
    match tableLookup COMPONENT_MAPPINGS clean_name with
    | some standard_name => standard_name
    | none => clean_name

/-- `FacilityConfig.normalize_value`. -/
def normalize_value (value : String) : String := pyStrip value

/-- `FacilityConfig.normalize_ref_range`. -/
def normalize_ref_range (ref_range : String) : String := pyStrip ref_range

/-- `FacilityConfig.normalize_unit`. -/
def normalize_unit (unit : String) : String := pyStrip unit

/-! ## KPA / Kaiser strategy (kpa_config.py)

Image-based reports; lines are matched with `re.match(pattern, line,
re.IGNORECASE)` through a cascade of four patterns. -/

/-- `date_pattern = r'Final result\s*\((?P<date>\d{2}/\d{2}/\d{4})'`;
the named group is group 1.  MHB uses the same pattern string. -/
def finalResultDateRE : RE :=
  REseq [litI "Final result", .star false wsC, .cls (chC '('), .grp 1 dateRE]

/-- KPA `page_marker_pattern = r'^KPA\s+\d+\s*$'` (case-sensitive,
searched with MULTILINE). -/
def kpaMarkerRE : RE :=
  REseq [.bol, litS "KPA", RE.plus1 false wsC, RE.plus1 false digC, .star false wsC, .eol]

/-- Component class `[A-Z0-9\s,'\-#%]` under IGNORECASE. -/
def kpaCompC (c : Char) : Bool :=
  c.isAlpha || c.isDigit || isPySpace c || c = ',' || c = apoCh || c = '-' || c = '#' || c = '%'

/-- Value comparator class `[<>]`. -/
def cmpC (c : Char) : Bool := c = '<' || c = '>'

/-- Numeric class `[\d.,]`. -/
def numC (c : Char) : Bool := c.isDigit || c = '.' || c = ','

/-- Location class `[A-Z0-9\s]` under IGNORECASE. -/
def kpaLocC (c : Char) : Bool := c.isAlpha || c.isDigit || isPySpace c

/-- Panel-name class `[A-Z0-9\s,]` under IGNORECASE. -/
def kpaPanC (c : Char) : Bool := c.isAlpha || c.isDigit || isPySpace c || c = ','

/-- Panel-name class `[A-Z0-9\s,]` case-sensitive (the third fallback of
`extract_panel_name` runs without flags). -/
def kpaPanCS (c : Char) : Bool := c.isUpper || c.isDigit || isPySpace c || c = ','

/-- The `component` group body `[A-Z][A-Z0-9\s,'\-#%]+?` shared by KPA
patterns 1-3. -/
def kpaCompBody : RE := .seq (.cls alphaC) (RE.plus1 true kpaCompC)

/-- The `value` group body `[<>]*[\d.,]+` shared by KPA patterns 1-3. -/
def kpaValBody : RE := .seq (.star false cmpC) (RE.plus1 false numC)

/-- The `ref_range` group body `[\d.,]+\s*-\s*[\d.,]+` of KPA
`pattern_full`. -/
def kpaRefRangeBody : RE :=
  REseq [RE.plus1 false numC, .star false wsC, .cls (chC '-'), .star false wsC,
    RE.plus1 false numC]

/-- The `ref_start` group body `[\d.,]+`. -/
def kpaRefStartBody : RE := RE.plus1 false numC

/-- The `location` group body `[A-Z0-9\s]+`. -/
def kpaLocBody : RE := RE.plus1 false kpaLocC

/-- KPA `pattern_full`:
`^(?P<component>[A-Z][A-Z0-9\s,'\-#%]+?)\s+(?P<value>[<>]*[\d.,]+)\s+`
`(?P<ref_range>[\d.,]+\s*-\s*[\d.,]+)\s+(?P<date>\d{2}/\d{2}/\d{4})\s+`
`(?P<location>[A-Z0-9\s]+)`.  Groups: component 1, value 2, ref_range 3,
date 4, location 5. -/
def kpaPatFull : RE := REseq [.bol,
  .grp 1 kpaCompBody, RE.plus1 false wsC,
  .grp 2 kpaValBody, RE.plus1 false wsC,
  .grp 3 kpaRefRangeBody, RE.plus1 false wsC,
  .grp 4 dateRE, RE.plus1 false wsC,
  .grp 5 kpaLocBody]

/-- KPA `pattern_partial_ref`:
`^(?P<component>[A-Z][A-Z0-9\s,'\-#%]+?)\s+(?P<value>[<>]*[\d.,]+)\s+`
`(?P<ref_start>[\d.,]+)\s*-\s*(?P<date>\d{2}/\d{2}/\d{4})\s+`
`(?P<location>[A-Z0-9\s]+)`.  Groups: component 1, value 2, ref_start 3,
date 4, location 5. -/
def kpaPatPartRef : RE := REseq [.bol,
  .grp 1 kpaCompBody, RE.plus1 false wsC,
  .grp 2 kpaValBody, RE.plus1 false wsC,
  .grp 3 kpaRefStartBody, .star false wsC, .cls (chC '-'), .star false wsC,
  .grp 4 dateRE, RE.plus1 false wsC,
  .grp 5 kpaLocBody]

/-- Unit class `[a-zA-Z/%\d]` of KPA `pattern_simple`. -/
def kpaUnitC (c : Char) : Bool := c.isAlpha || c = '/' || c = '%' || c.isDigit

/-- The optional `unit` group body `[a-zA-Z/%\d]+` of KPA
`pattern_simple`. -/
def kpaUnitBody : RE := RE.plus1 false kpaUnitC

/-- KPA `pattern_simple`:
`^(?P<component>[A-Z][A-Z0-9\s,'\-#%]+?)\s+(?P<value>[<>]*[\d.,]+)\s+`
`(?:(?P<unit>[a-zA-Z/%\d]+)\s+)?(?P<date>\d{2}/\d{2}/\d{4})\s+`
`(?P<location>[A-Z0-9\s]+)`.  Groups: component 1, value 2, unit 3
(optional), date 4, location 5. -/
def kpaPatSimple : RE := REseq [.bol,
  .grp 1 kpaCompBody, RE.plus1 false wsC,
  .grp 2 kpaValBody, RE.plus1 false wsC,
  .opt false (.seq (.grp 3 kpaUnitBody) (RE.plus1 false wsC)),
  .grp 4 dateRE, RE.plus1 false wsC,
  .grp 5 kpaLocBody]

/-- The class `[A-Z0-9]` of `pattern_key_value` (case-sensitive). -/
def upDigC (c : Char) : Bool := c.isUpper || c.isDigit

/-- The `component` group body `[A-Z]+` of `pattern_key_value`. -/
def kvCompBody : RE := RE.plus1 false upperC

/-- The `value` group body `[A-Z0-9]+` of `pattern_key_value`. -/
def kvValBody : RE := RE.plus1 false upDigC

/-- KPA `pattern_key_value`:
`^\s*(?P<component>[A-Z]+):\s+(?P<value>[A-Z0-9]+)\s*$`, applied with
`re.match` and no flags (case-sensitive).  Groups: component 1, value 2. -/
def kpaPatKeyValue : RE := REseq [.bol, .star false wsC,
  .grp 1 kvCompBody, .cls (chC ':'), RE.plus1 false wsC,
  .grp 2 kvValBody, .star false wsC, .eol]

/-- KPA `skip_patterns`, compiled with IGNORECASE and applied with
`.match` (anchored at the line start). -/
def kpaSkipPats : List RE := [
  .seq .bol (litI "Comment:"),
  .seq .bol (litI "Interpretive Data"),
  -- ^<\d+\s+mg/dL
  REseq [.bol, .cls (chC '<'), RE.plus1 false digC, RE.plus1 false wsC, litI "mg/dL"],
  -- ^\d+\s*-\s*\d+\s+mg/dL
  REseq [.bol, RE.plus1 false digC, .star false wsC, .cls (chC '-'), .star false wsC,
    RE.plus1 false digC, RE.plus1 false wsC, litI "mg/dL"],
  -- ^>\d+\s+mg/dL
  REseq [.bol, .cls (chC '>'), RE.plus1 false digC, RE.plus1 false wsC, litI "mg/dL"],
  REseq [.bol, litI "Ref", RE.plus1 false wsC, litI "Analysis"],
  REseq [.bol, litI "Component", RE.plus1 false wsC, litI "Value"],
  -- ^Specimen\s+\(Source\)
  REseq [.bol, litI "Specimen", RE.plus1 false wsC, .cls (chC '('), litI "Source",
    .cls (chC ')')],
  .seq .bol (litI "Anatomical Location"),
  .seq .bol (litI "Narrative"),
  .seq .bol (litI "Authorizing Provider"),
  .seq .bol (litI "Performing Organization"),
  .seq .bol (litI "SERUM"),
  .seq .bol (litI "PLASMA"),
  .seq .bol (litI "Blood"),
  -- ^\d{2}/\d{2}/\d{4}
  .seq .bol dateRE]

/-- `KPAConfig.should_skip_line`. -/
def kpaShouldSkip (line : String) : Bool :=
  let line := pyStrip line
  if line.length < 5 then true
  else kpaSkipPats.any (fun p => (pyMatch p line false).isSome)

/-- KPA `panel_pattern =`
`r'^([A-Z][A-Z0-9\s,]+?)\s*[\(\n].*?-\s*Final result'`, searched with
MULTILINE, IGNORECASE and DOTALL. -/
def kpaPanelRE : RE := REseq [.bol,
  .grp 1 (.seq (.cls alphaC) (RE.plus1 true kpaPanC)), .star false wsC,
  .cls (fun c => c = '(' || c = '\n'), .star true allC,
  .cls (chC '-'), .star false wsC, litI "Final result"]

/-- The fallback `r'^([A-Z][A-Z0-9\s,]+?)\s*-\s*Final result'` searched
with MULTILINE and IGNORECASE; MHB's `panel_pattern` is the same string. -/
def panelDirectRE : RE := REseq [.bol,
  .grp 1 (.seq (.cls alphaC) (RE.plus1 true kpaPanC)), .star false wsC,
  .cls (chC '-'), .star false wsC, litI "Final result"]

/-- The last fallback `r'^([A-Z][A-Z0-9\s,]+?)(?:\s*\(|\s*$)'`, applied
with `re.match` and no flags. -/
def kpaFirstLineRE : RE := REseq [.bol,
  .grp 1 (.seq (.cls upperC) (RE.plus1 true kpaPanCS)),
  .alt (.seq (.star false wsC) (.cls (chC '('))) (.seq (.star false wsC) .eol)]

/-- `KPAConfig.extract_panel_name`. -/
def kpaExtractPanelName (text : String) : String :=
  match pySearch kpaPanelRE text true with
  | some (_, (_, caps)) => pyStrip (capStr caps 1)
  | none =>
    match pySearch panelDirectRE text true with
    | some (_, (_, caps)) => pyStrip (capStr caps 1)
    | none =>
      match pyMatch kpaFirstLineRE text false with
      | some (_, caps) =>
        if pyContains ⟨text.data.take 500⟩ "Final result" then pyStrip (capStr caps 1)
        else ""
      | none => ""

/-- `r'^([\d.,]+)'`: the leading numeric token of the next line in KPA's
split-reference-range repair. -/
def kpaRefEndRE : RE := .seq .bol (.grp 1 (RE.plus1 false numC))

/-- The inline unit vocabulary searched on the continuation line:
`([a-zA-Z]+/[a-zA-Z]+|[a-zA-Z]+%|ulU/ml|mg/dL|g/dL|IU/L|K/uL|M/uL)`
with IGNORECASE. -/
def kpaUnitNextRE : RE := .grp 1 (
  .alt (REseq [RE.plus1 false alphaC, .cls (chC '/'), RE.plus1 false alphaC])
  (.alt (.seq (RE.plus1 false alphaC) (.cls (chC '%')))
  (.alt (litI "ulU/ml")
  (.alt (litI "mg/dL")
  (.alt (litI "g/dL")
  (.alt (litI "IU/L")
  (.alt (litI "K/uL") (litI "M/uL"))))))))

/-- The unit lookahead `r'^([a-zA-Z]+/[a-zA-Z]+|[a-zA-Z]+%)'` applied with
`re.match` and no flags when no unit was found inline. -/
def kpaUnitLookRE : RE := .seq .bol (.grp 1
  (.alt (REseq [RE.plus1 false alphaC, .cls (chC '/'), RE.plus1 false alphaC])
        (.seq (RE.plus1 false alphaC) (.cls (chC '%')))))

/-- The local variables of KPA's per-line cascade (`component`, `value`,
`ref_range`, `row_date`, `unit` in `extract_results`). -/
structure Cascade where
  component : Option String := none
  value : Option String := none
  ref_range : String := ""
  row_date : Option String := none
  unit : String := ""
  deriving Repr, DecidableEq

/-- The pattern cascade of `KPAConfig.extract_results` for the stripped
line at index `i` (kpa_config.py lines 179-227): pattern 1, then pattern 2
with the next-line reference-range repair, then pattern 3, then
pattern 4. -/
def kpaCascade (header_date : String) (lines : List String) (i : Nat) (line : String) :
    Option Cascade :=
  match pyMatch kpaPatFull line false with
  | some (_, caps) =>
    some { component := some (capStr caps 1), value := some (capStr caps 2),
           ref_range := capStr caps 3, row_date := some (capStr caps 4) }
  | none =>
  match pyMatch kpaPatPartRef line false with
  | some (_, caps) =>
    let ref_start := capStr caps 3
    if i + 1 < lines.length then
      let next_line := pyStrip (lines.getD (i + 1) "")
      match pyMatch kpaRefEndRE next_line false with
      | some (_, caps2) =>
        some { component := some (capStr caps 1), value := some (capStr caps 2),
               ref_range := ref_start ++ "-" ++ capStr caps2 1,
               row_date := some (capStr caps 4),
               unit := match pySearch kpaUnitNextRE next_line false with
                       | some (_, (_, caps3)) => capStr caps3 1
                       | none => "" }
      | none =>
        -- next line does not open with a numeric token: ref_range is left ""
        some { component := some (capStr caps 1), value := some (capStr caps 2),
               ref_range := "", row_date := some (capStr caps 4) }
    else
      some { component := some (capStr caps 1), value := some (capStr caps 2),
             ref_range := ref_start ++ "-", row_date := some (capStr caps 4) }
  | none =>
  match pyMatch kpaPatSimple line false with
  | some (_, caps) =>
    some { component := some (capStr caps 1), value := some (capStr caps 2),
           ref_range := "",
           unit := match capLookup caps 3 with
                   | some u => if u = "" then "" else u
                   | none => "",
           row_date := some (capStr caps 4) }
  | none =>
  match pyMatch kpaPatKeyValue line false with
  | some (_, caps) =>
    some { component := some (capStr caps 1), value := some (capStr caps 2),
           ref_range := "", row_date := some header_date, unit := "" }
  | none => none

/-- The unit resolved for a KPA row: the cascade's, or the next-line
lookahead when it is empty (kpa_config.py lines 230-236). -/
def kpaUnitFor (lines : List String) (i : Nat) (c : Cascade) : String :=
  if c.unit = "" && i + 1 < lines.length then
    match pyMatch kpaUnitLookRE (pyStrip (lines.getD (i + 1) "")) false with
    | some (_, caps) => capStr caps 1
    | none => c.unit
  else c.unit

/-- The `if component and value:` body of `KPAConfig.extract_results`
(kpa_config.py lines 228-252). -/
def kpaMkRecord (header_date page_marker panel_name source_filename : String)
    (lines : List String) (i : Nat) (c : Cascade) : Option LabResult :=
  if truthy c.component && truthy c.value then
    some { source := source_filename, facility := "Kaiser", panel_name := panel_name,
           component := normalize_component_name (pyReplace (c.component.getD "") " TES" ""),
           test_date := pyOrStr c.row_date header_date,
           value := normalize_value (c.value.getD ""),
           ref_range := normalize_ref_range c.ref_range,
           unit := kpaUnitFor lines i c, flag := "", page_marker := page_marker }
  else none

/-- One iteration of the `while i < len(lines)` loop of
`KPAConfig.extract_results`: the record the iteration yields, if any. -/
def kpaLineResult (header_date page_marker panel_name source_filename : String)
    (lines : List String) (i : Nat) : Option LabResult :=
  if pyStrip (lines.getD i "") = "" || kpaShouldSkip (pyStrip (lines.getD i "")) then none
  else
    match kpaCascade header_date lines i (pyStrip (lines.getD i "")) with
    | none => none
    | some c => kpaMkRecord header_date page_marker panel_name source_filename lines i c

/-- `KPAConfig.extract_results`: the loop advances the cursor by exactly
one line per iteration, so it is the concatenation of the per-line
results. -/
def kpaExtract (text source_filename : String) : List LabResult :=
  let header_date := extractDate finalResultDateRE text
  let page_marker := extractMarker kpaMarkerRE text
  let panel_name := normalize_panel_name (kpaExtractPanelName text)
  let lines := pySplitSep "\n" text
  (List.range lines.length).filterMap
    (kpaLineResult header_date page_marker panel_name source_filename lines)

/-- `kpaExtract` instrumented with the line index each record came from;
`kpaExtractInstr_erase` below shows the instrumentation is conservative. -/
def kpaExtractInstr (text source_filename : String) : List (Nat × LabResult) :=
  let header_date := extractDate finalResultDateRE text
  let page_marker := extractMarker kpaMarkerRE text
  let panel_name := normalize_panel_name (kpaExtractPanelName text)
  let lines := pySplitSep "\n" text
  (List.range lines.length).filterMap (fun i =>
    (kpaLineResult header_date page_marker panel_name source_filename lines i).map
      (fun r => (i, r)))

/-! ## MHB / Monument strategy (mhb_config.py) -/

/-- MHB `page_marker_pattern = r'^M[HB]B\s+\d+\s*$'` (case-sensitive,
MULTILINE). -/
def mhbMarkerRE : RE :=
  REseq [.bol, .cls (chC 'M'), .cls (fun c => c = 'H' || c = 'B'), .cls (chC 'B'),
    RE.plus1 false wsC, RE.plus1 false digC, .star false wsC, .eol]

/-- Component class `[A-Za-z0-9\s,\(\)]`. -/
def mhbCompC (c : Char) : Bool :=
  c.isAlpha || c.isDigit || isPySpace c || c = ',' || c = '(' || c = ')'

/-- Value class `[\d.]`. -/
def mhbValC (c : Char) : Bool := c.isDigit || c = '.'

/-- Method class `[A-Z\s&]` under IGNORECASE. -/
def mhbMethC (c : Char) : Bool := c.isAlpha || isPySpace c || c = '&'

/-- OCR-artifact class `[=\s]`. -/
def eqWsC (c : Char) : Bool := c = '=' || isPySpace c

/-- Reference class `[\d.\-\s]` of MHB `pattern_simple`. -/
def mhbRefC (c : Char) : Bool := c.isDigit || c = '.' || c = '-' || isPySpace c

/-- The `component` group body `[A-Za-z][A-Za-z0-9\s,\(\)]+?` shared by
the MHB patterns. -/
def mhbCompBody : RE := .seq (.cls alphaC) (RE.plus1 true mhbCompC)

/-- The `value` group body `[\d.]+` shared by the MHB patterns. -/
def mhbValBody : RE := RE.plus1 false mhbValC

/-- The `ref_range` group body `[\d.]+\s*-\s*[\d.]+` of
`pattern_complete`. -/
def mhbRefRangeBody : RE :=
  REseq [RE.plus1 false mhbValC, .star false wsC, .cls (chC '-'), .star false wsC,
    RE.plus1 false mhbValC]

/-- The `method` group body `[A-Z][A-Z\s&]+?`. -/
def mhbMethBody : RE := .seq (.cls alphaC) (RE.plus1 true mhbMethC)

/-- The `ref_range` group body `[<>]?[\d.\-\s]+?` of `pattern_simple`. -/
def mhbSimpleRefBody : RE := .seq (.opt false (.cls cmpC)) (RE.plus1 true mhbRefC)

/-- MHB `pattern_complete`:
`^(?P<component>[A-Za-z][A-Za-z0-9\s,\(\)]+?)\s+(?P<value>[\d.]+)\s+`
`(?P<ref_range>[\d.]+\s*-\s*[\d.]+)\s+(?P<method>[A-Z][A-Z\s&]+?)\s*[=\s]*`
`(?P<date>\d{2}/\d{2}/\d{4})\s+(?P<location>MONUMENT)`.  Groups:
component 1, value 2, ref_range 3, method 4, date 5, location 6. -/
def mhbPatComplete : RE := REseq [.bol,
  .grp 1 mhbCompBody, RE.plus1 false wsC,
  .grp 2 mhbValBody, RE.plus1 false wsC,
  .grp 3 mhbRefRangeBody, RE.plus1 false wsC,
  .grp 4 mhbMethBody, .star false wsC, .star false eqWsC,
  .grp 5 dateRE, RE.plus1 false wsC,
  .grp 6 (litI "MONUMENT")]

/-- MHB `pattern_partial_ref`:
`^(?P<component>[A-Za-z][A-Za-z0-9\s,\(\)]+?)\s+(?P<value>[\d.]+)\s+`
`(?P<ref_start>[\d.]+)\s*-\s*(?P<method>[A-Z][A-Z\s&]+?)\s*[=\s]*`
`(?P<date>\d{2}/\d{2}/\d{4})\s+(?P<location>MONUMENT)`.  Groups:
component 1, value 2, ref_start 3, method 4, date 5, location 6. -/
def mhbPatPartRef : RE := REseq [.bol,
  .grp 1 mhbCompBody, RE.plus1 false wsC,
  .grp 2 mhbValBody, RE.plus1 false wsC,
  .grp 3 mhbValBody, .star false wsC, .cls (chC '-'), .star false wsC,
  .grp 4 mhbMethBody, .star false wsC, .star false eqWsC,
  .grp 5 dateRE, RE.plus1 false wsC,
  .grp 6 (litI "MONUMENT")]

/-- MHB `pattern_simple`:
`^(?P<component>[A-Za-z][A-Za-z0-9\s,\(\)]+?)\s+(?P<value>[\d.]+)\s+`
`(?P<ref_range>[<>]?[\d.\-\s]+?)\s+(?P<method>[A-Z][A-Z\s&]+?)\s+`
`(?P<date>\d{2}/\d{2}/\d{4})\s+(?P<location>MONUMENT)`.  Groups:
component 1, value 2, ref_range 3, method 4, date 5, location 6. -/
def mhbPatSimple : RE := REseq [.bol,
  .grp 1 mhbCompBody, RE.plus1 false wsC,
  .grp 2 mhbValBody, RE.plus1 false wsC,
  .grp 3 mhbSimpleRefBody, RE.plus1 false wsC,
  .grp 4 mhbMethBody, RE.plus1 false wsC,
  .grp 5 dateRE, RE.plus1 false wsC,
  .grp 6 (litI "MONUMENT")]

/-- MHB `skip_patterns`, compiled with IGNORECASE and applied with
`.match`. -/
def mhbSkipPats : List RE := [
  REseq [.bol, litI "Ref", RE.plus1 false wsC, litI "Analysis"],
  REseq [.bol, litI "Component", RE.plus1 false wsC, litI "Value"],
  REseq [.bol, litI "Specimen", RE.plus1 false wsC, .cls (chC '('), litI "Source",
    .cls (chC ')')],
  .seq .bol (litI "Anatomical Location"),
  .seq .bol (litI "Narrative"),
  .seq .bol (litI "Authorizing Provider"),
  .seq .bol (litI "Performing Organization"),
  REseq [.bol, litI "Blood", RE.plus1 false wsC, litI "Venous"],
  .seq .bol (litI "Collection Method"),
  REseq [.bol, litI "MONUMENT", RE.plus1 false wsC, litI "HEALTH"],
  .seq .bol dateRE]

/-- `MHBConfig.should_skip_line`. -/
def mhbShouldSkip (line : String) : Bool :=
  let line := pyStrip line
  if line.length < 5 then true
  else mhbSkipPats.any (fun p => (pyMatch p line false).isSome)

/-- `MHBConfig.extract_panel_name`: a single search of `panel_pattern`
(the same string as `panelDirectRE`) with MULTILINE and IGNORECASE. -/
def mhbExtractPanelName (text : String) : String :=
  match pySearch panelDirectRE text true with
  | some (_, (_, caps)) => pyStrip (capStr caps 1)
  | none => ""

/-- `r'^([\d.]+)'`: the leading numeric token of the next line in MHB's
split-reference-range repair. -/
def mhbRefEndRE : RE := .seq .bol (.grp 1 (RE.plus1 false mhbValC))

/-- The continuation-line unit vocabulary
`([a-zA-Z]+/[a-zA-Z0-9]+|[a-zA-Z]+%|U/L|MG/DL|MMOL/L|g/dL|mg/dL)` with
IGNORECASE. -/
def mhbUnitNextRE : RE := .grp 1 (
  .alt (REseq [RE.plus1 false alphaC, .cls (chC '/'), RE.plus1 false alnumC])
  (.alt (.seq (RE.plus1 false alphaC) (.cls (chC '%')))
  (.alt (litI "U/L")
  (.alt (litI "MG/DL")
  (.alt (litI "MMOL/L")
  (.alt (litI "g/dL") (litI "mg/dL")))))))

/-- The unit lookahead `r'^([a-zA-Z]+/[a-zA-Z0-9]+|[a-zA-Z]+%|U/L)'`
applied with `re.match` and IGNORECASE. -/
def mhbUnitLookRE : RE := .seq .bol (.grp 1
  (.alt (REseq [RE.plus1 false alphaC, .cls (chC '/'), RE.plus1 false alnumC])
  (.alt (.seq (RE.plus1 false alphaC) (.cls (chC '%'))) (litI "U/L"))))

/-- The flag-removal pattern `r'\s*\([HL]\)\s*'` of
`MHBConfig.normalize_component` (no flags, case-sensitive). -/
def mhbFlagSubRE : RE :=
  REseq [.star false wsC, .cls (chC '('), .cls (fun c => c = 'H' || c = 'L'),
    .cls (chC ')'), .star false wsC]

/-- `MHBConfig.normalize_component`: remove `(H)`/`(L)` markers, then
collapse whitespace. -/
def mhbNormalizeComponent (name : String) : String :=
  pyCollapse (pySub mhbFlagSubRE " " name)

/-- `MHBConfig.normalize_ref_range` (strips; the OCR-repair comment in the
source leaves the value unchanged beyond that). -/
def mhbNormalizeRefRange (ref_range : String) : String := pyStrip ref_range

/-- The pattern cascade of `MHBConfig.extract_results` (mhb_config.py
lines 153-193): complete, then partial with next-line repair — the
dangling `start-` form is kept both when the page ends and when the next
line has no leading number — then the simple fallback. -/
def mhbCascade (lines : List String) (i : Nat) (line : String) : Option Cascade :=
  match pyMatch mhbPatComplete line false with
  | some (_, caps) =>
    some { component := some (capStr caps 1), value := some (capStr caps 2),
           ref_range := capStr caps 3, row_date := some (capStr caps 5) }
  | none =>
  match pyMatch mhbPatPartRef line false with
  | some (_, caps) =>
    let ref_start := capStr caps 3
    if i + 1 < lines.length then
      let next_line := pyStrip (lines.getD (i + 1) "")
      match pyMatch mhbRefEndRE next_line false with
      | some (_, caps2) =>
        some { component := some (capStr caps 1), value := some (capStr caps 2),
               ref_range := ref_start ++ "-" ++ capStr caps2 1,
               row_date := some (capStr caps 5),
               unit := match pySearch mhbUnitNextRE next_line false with
                       | some (_, (_, caps3)) => capStr caps3 1
                       | none => "" }
      | none =>
        some { component := some (capStr caps 1), value := some (capStr caps 2),
               ref_range := ref_start ++ "-", row_date := some (capStr caps 5) }
    else
      some { component := some (capStr caps 1), value := some (capStr caps 2),
             ref_range := ref_start ++ "-", row_date := some (capStr caps 5) }
  | none =>
  match pyMatch mhbPatSimple line false with
  | some (_, caps) =>
    some { component := some (capStr caps 1), value := some (capStr caps 2),
           ref_range := capStr caps 3, row_date := some (capStr caps 5) }
  | none => none

/-- The unit resolved for an MHB row: the cascade's, or the next-line
lookahead when it is empty (mhb_config.py lines 198-202). -/
def mhbUnitFor (lines : List String) (i : Nat) (c : Cascade) : String :=
  if c.unit = "" && i + 1 < lines.length then
    match pyMatch mhbUnitLookRE (pyStrip (lines.getD (i + 1) "")) false with
    | some (_, caps) => capStr caps 1
    | none => c.unit
  else c.unit

/-- The flag of an MHB row (mhb_config.py lines 204-210): `(H)`/`(L)` in
the line, else `A` when the page carries `(ABNORMAL)`. -/
def mhbFlagFor (line : String) (has_abnormal : Bool) : String :=
  if pyContains line "(H)" then "H"
  else if pyContains line "(L)" then "L"
  else if has_abnormal then "A"
  else ""

/-- The `if component and value:` body of `MHBConfig.extract_results`
(mhb_config.py lines 196-224). -/
def mhbMkRecord (header_date page_marker panel_name source_filename : String)
    (has_abnormal : Bool) (lines : List String) (i : Nat) (line : String)
    (c : Cascade) : Option LabResult :=
  if truthy c.component && truthy c.value then
    some { source := source_filename, facility := "Monument", panel_name := panel_name,
           component := mhbNormalizeComponent (c.component.getD ""),
           test_date := pyOrStr c.row_date header_date,
           value := normalize_value (c.value.getD ""),
           ref_range := mhbNormalizeRefRange c.ref_range,
           unit := mhbUnitFor lines i c, flag := mhbFlagFor line has_abnormal,
           page_marker := page_marker }
  else none

/-- One iteration of the line loop of `MHBConfig.extract_results`. -/
def mhbLineResult (header_date page_marker panel_name source_filename : String)
    (has_abnormal : Bool) (lines : List String) (i : Nat) : Option LabResult :=
  if pyStrip (lines.getD i "") = "" || mhbShouldSkip (pyStrip (lines.getD i "")) then none
  else
    match mhbCascade lines i (pyStrip (lines.getD i "")) with
    | none => none
    | some c => mhbMkRecord header_date page_marker panel_name source_filename
        has_abnormal lines i (pyStrip (lines.getD i "")) c

/-- `MHBConfig.extract_results`. -/
def mhbExtract (text source_filename : String) : List LabResult :=
  let header_date := extractDate finalResultDateRE text
  let page_marker := extractMarker mhbMarkerRE text
  let panel_name := normalize_panel_name (mhbExtractPanelName text)
  let has_abnormal := pyContains (pyUpper text) "(ABNORMAL)"
  let lines := pySplitSep "\n" text
  (List.range lines.length).filterMap
    (mhbLineResult header_date page_marker panel_name source_filename has_abnormal lines)

/-- `mhbExtract` instrumented with line indices. -/
def mhbExtractInstr (text source_filename : String) : List (Nat × LabResult) :=
  let header_date := extractDate finalResultDateRE text
  let page_marker := extractMarker mhbMarkerRE text
  let panel_name := normalize_panel_name (mhbExtractPanelName text)
  let has_abnormal := pyContains (pyUpper text) "(ABNORMAL)"
  let lines := pySplitSep "\n" text
  (List.range lines.length).filterMap (fun i =>
    (mhbLineResult header_date page_marker panel_name source_filename has_abnormal lines i).map
      (fun r => (i, r)))

/-! ## RCB / RCMC strategy (rcb_config.py)

Native-text reports; the whole page text is scanned with `re.finditer`
(MULTILINE, IGNORECASE) by four patterns in turn, with a set of match
start offsets (`matched_lines`) meant to keep later, looser patterns from
re-emitting a row already claimed. -/

/-- RCB `date_pattern = r'Collection Date:\s*(?P<date>\d{2}/\d{2}/\d{4})'`. -/
def rcbDateRE : RE :=
  REseq [litI "Collection Date:", .star false wsC, .grp 1 dateRE]

/-- RCB `page_marker_pattern = r'^RCB\s+\d+\s*$'` (case-sensitive,
MULTILINE). -/
def rcbMarkerRE : RE :=
  REseq [.bol, litS "RCB", RE.plus1 false wsC, RE.plus1 false digC, .star false wsC, .eol]

/-- Component class `[A-Za-z0-9+\-#%,\s]`. -/
def rcbCompC (c : Char) : Bool :=
  c.isAlpha || c.isDigit || c = '+' || c = '-' || c = '#' || c = '%' || c = ',' || isPySpace c

/-- Value class `[\d.,<>]`. -/
def rcbValC (c : Char) : Bool := c.isDigit || c = '.' || c = ',' || c = '<' || c = '>'

/-- Flag class `[HL]` under IGNORECASE. -/
def hlC (c : Char) : Bool := c.toLower = 'h' || c.toLower = 'l'

/-- Reference class `[^\(\n]`. -/
def rcbRefC (c : Char) : Bool := c ≠ '(' && c ≠ '\n'

/-- Reference class `[\d.\-<>]` of `row_pattern_no_unit`. -/
def rcbRefNC (c : Char) : Bool := c.isDigit || c = '.' || c = '-' || c = '<' || c = '>'

/-- Class `[0-9.]`. -/
def digDotC (c : Char) : Bool := c.isDigit || c = '.'

/-- Unit class `[^\s\(\)]` of `row_pattern_loose_unit`. -/
def rcbLooseUnitC (c : Char) : Bool := !isPySpace c && c ≠ '(' && c ≠ ')'

/-- Panel-header class `[A-Za-z0-9\s,\(\)]`. -/
def rcbPanC (c : Char) : Bool :=
  c.isAlpha || c.isDigit || isPySpace c || c = ',' || c = '(' || c = ')'

/-- The optional leading `(?:F\s+)?` of every RCB row pattern. -/
def rcbLeadF : RE := .opt false (.seq (.cls (chI 'F')) (RE.plus1 false wsC))

/-- The `component` group body `[A-Za-z][A-Za-z0-9+\-#%,\s]+?` shared by
the RCB patterns. -/
def rcbCompBody : RE := .seq (.cls alphaC) (RE.plus1 true rcbCompC)

/-- The `value` group body `[\d.,<>]+` shared by the RCB patterns. -/
def rcbValBody : RE := RE.plus1 false rcbValC

/-- The `flag` group body `[HL]+` (under IGNORECASE). -/
def rcbFlagBody : RE := RE.plus1 false hlC

/-- The `ref_range` group body `[^\(\n]+?` of `row_pattern_with_ref`. -/
def rcbRefBody : RE := RE.plus1 true rcbRefC

/-- The class `[^)]`. -/
def noParenC (c : Char) : Bool := c ≠ ')'

/-- The `unit` group body `[^)]+` of the parenthesized-unit patterns. -/
def rcbUnitParenBody : RE := RE.plus1 false noParenC

/-- The `ref_range` group body `[\d.\-<>]+(?:-[0-9.]+)?` of
`row_pattern_no_unit`. -/
def rcbRefNBody : RE :=
  .seq (RE.plus1 false rcbRefNC)
    (.opt false (.seq (.cls (chC '-')) (RE.plus1 false digDotC)))

/-- The `unit` group body `[^\s\(\)]+` of `row_pattern_loose_unit`. -/
def rcbLooseUnitBody : RE := RE.plus1 false rcbLooseUnitC

/-- RCB `row_pattern_with_ref`:
`^(?:F\s+)?(?P<component>[A-Za-z][A-Za-z0-9+\-#%,\s]+?)\s+`
`(?P<value>[\d.,<>]+)\s*(?P<flag>[HL]+)?\s+(?P<ref_range>[^\(\n]+?)\s*`
`\((?P<unit>[^)]+)\)`.  Groups: component 1, value 2, flag 3 (optional),
ref_range 4, unit 5. -/
def rcbPatWithRef : RE := REseq [.bol, rcbLeadF,
  .grp 1 rcbCompBody, RE.plus1 false wsC,
  .grp 2 rcbValBody, .star false wsC,
  .opt false (.grp 3 rcbFlagBody), RE.plus1 false wsC,
  .grp 4 rcbRefBody, .star false wsC,
  .cls (chC '('), .grp 5 rcbUnitParenBody, .cls (chC ')')]

/-- RCB `row_pattern_no_unit`:
`^(?:F\s+)?(?P<component>[A-Za-z][A-Za-z0-9+\-#%,\s]+?)\s+`
`(?P<value>[\d.,<>]+)\s*(?P<flag>[HL]+)?\s+`
`(?P<ref_range>[\d.\-<>]+(?:-[0-9.]+)?)\s*$`.  Groups: component 1,
value 2, flag 3 (optional), ref_range 4. -/
def rcbPatNoUnit : RE := REseq [.bol, rcbLeadF,
  .grp 1 rcbCompBody, RE.plus1 false wsC,
  .grp 2 rcbValBody, .star false wsC,
  .opt false (.grp 3 rcbFlagBody), RE.plus1 false wsC,
  .grp 4 rcbRefNBody, .star false wsC, .eol]

/-- RCB `row_pattern_no_ref`:
`^(?:F\s+)?(?P<component>[A-Za-z][A-Za-z0-9+\-#%,\s]+?)\s+`
`(?P<value>[\d.,<>]+)\s*\((?P<unit>[^)]+)\)`.  Groups: component 1,
value 2, unit 3. -/
def rcbPatNoRef : RE := REseq [.bol, rcbLeadF,
  .grp 1 rcbCompBody, RE.plus1 false wsC,
  .grp 2 rcbValBody, .star false wsC,
  .cls (chC '('), .grp 3 rcbUnitParenBody, .cls (chC ')')]

/-- RCB `row_pattern_loose_unit`:
`^(?:F\s+)?(?P<component>[A-Za-z][A-Za-z0-9+\-#%,\s]+?)\s+`
`(?P<value>[\d.,<>]+)\s+(?P<unit>[^\s\(\)]+)`.  Groups: component 1,
value 2, unit 3. -/
def rcbPatLooseUnit : RE := REseq [.bol, rcbLeadF,
  .grp 1 rcbCompBody, RE.plus1 false wsC,
  .grp 2 rcbValBody, RE.plus1 false wsC,
  .grp 3 rcbLooseUnitBody]

/-- RCB `panel_header_pattern =`
`r'^([A-Z][A-Za-z0-9\s,\(\)]+?)(?:\n|\r\n?)NAME\s+VALUE'` (MULTILINE,
IGNORECASE). -/
def rcbPanelHeaderRE : RE := REseq [.bol,
  .grp 1 (.seq (.cls alphaC) (RE.plus1 true rcbPanC)),
  .alt (.cls (chC '\n')) (.seq (.cls (chC '\r')) (.opt false (.cls (chC '\n')))),
  litI "NAME", RE.plus1 false wsC, litI "VALUE"]

/-- `RCBConfig.extract_panel_name`. -/
def rcbExtractPanelName (text : String) : String :=
  match pySearch rcbPanelHeaderRE text true with
  | some (_, (_, caps)) => pyStrip (capStr caps 1)
  | none => ""

/-- One pass of `RCBConfig.extract_results` over the finditer results:
`seen` is the `matched_lines` set; a match whose start offset is in it is
skipped; `add` tells whether the pass records its own offsets (the first
and second passes do, the third and fourth do not).  Returns the emitted
records paired with their match start offsets, and the final set. -/
def rcbPass (mk : FMatch → LabResult) (add : Bool) :
    List FMatch → List Nat → List (Nat × LabResult) × List Nat
  | [], seen => ([], seen)
  | m :: rest, seen =>
    if seen.contains m.start then rcbPass mk add rest seen
    else
      let p := rcbPass mk add rest (if add then m.start :: seen else seen)
      ((m.start, mk m) :: p.1, p.2)

/-- The record built by the first pass (row_pattern_with_ref) of
`RCBConfig.extract_results`, rcb_config.py lines 115-126. -/
def rcbMk1 (panel_name test_date page_marker source_filename : String)
    (m : FMatch) : LabResult :=
  { source := source_filename, facility := "RCMC", panel_name := panel_name,
    component := normalize_component_name (capStr m.caps 1), test_date := test_date,
    value := normalize_value (capStr m.caps 2),
    ref_range := normalize_ref_range (capStr m.caps 4),
    unit := normalize_unit (capStr m.caps 5),
    flag := pyOrStr (capLookup m.caps 3) "",
    page_marker := page_marker }

/-- The record built by the second pass (row_pattern_no_unit), rcb_config.py
lines 136-147. -/
def rcbMk2 (panel_name test_date page_marker source_filename : String)
    (m : FMatch) : LabResult :=
  { source := source_filename, facility := "RCMC", panel_name := panel_name,
    component := normalize_component_name (capStr m.caps 1), test_date := test_date,
    value := normalize_value (capStr m.caps 2),
    ref_range := normalize_ref_range (capStr m.caps 4),
    unit := "",
    flag := pyOrStr (capLookup m.caps 3) "",
    page_marker := page_marker }

/-- The record built by the third pass (row_pattern_no_ref), rcb_config.py
lines 156-167: no reference range, no flag. -/
def rcbMk3 (panel_name test_date page_marker source_filename : String)
    (m : FMatch) : LabResult :=
  { source := source_filename, facility := "RCMC", panel_name := panel_name,
    component := normalize_component_name (capStr m.caps 1), test_date := test_date,
    value := normalize_value (capStr m.caps 2),
    ref_range := "",
    unit := normalize_unit (capStr m.caps 3),
    flag := "",
    page_marker := page_marker }

/-- The record built by the fourth pass (row_pattern_loose_unit),
rcb_config.py lines 176-187. -/
def rcbMk4 (panel_name test_date page_marker source_filename : String)
    (m : FMatch) : LabResult :=
  { source := source_filename, facility := "RCMC", panel_name := panel_name,
    component := normalize_component_name (capStr m.caps 1), test_date := test_date,
    value := normalize_value (capStr m.caps 2),
    ref_range := "",
    unit := normalize_unit (capStr m.caps 3),
    flag := "",
    page_marker := page_marker }

/-- `RCBConfig.extract_results`, instrumented with each record's match
start offset (the records themselves are exactly those of the source). -/
def rcbExtractInstr (text source_filename : String) : List (Nat × LabResult) :=
  let test_date := extractDate rcbDateRE text
  let page_marker := extractMarker rcbMarkerRE text
  let panel_name := normalize_panel_name (rcbExtractPanelName text)
  -- First pass: row_pattern_with_ref; every match emits and is recorded.
  let m1 := pyFindIter rcbPatWithRef text true
  let out1 := m1.map (fun m =>
    (m.start, rcbMk1 panel_name test_date page_marker source_filename m))
  let seen1 := m1.map (·.start)
  -- Second pass: row_pattern_no_unit; skips seen offsets, records its own.
  let p2 := rcbPass (rcbMk2 panel_name test_date page_marker source_filename) true
    (pyFindIter rcbPatNoUnit text true) seen1
  -- Third pass: row_pattern_no_ref; skips seen offsets but does NOT record
  -- its own (the source never adds them to matched_lines).
  let p3 := rcbPass (rcbMk3 panel_name test_date page_marker source_filename) false
    (pyFindIter rcbPatNoRef text true) p2.2
  -- Fourth pass: row_pattern_loose_unit; skips seen offsets.
  let p4 := rcbPass (rcbMk4 panel_name test_date page_marker source_filename) false
    (pyFindIter rcbPatLooseUnit text true) p3.2
  out1 ++ p2.1 ++ p3.1 ++ p4.1

/-- `RCBConfig.extract_results`. -/
def rcbExtract (text source_filename : String) : List LabResult :=
  (rcbExtractInstr text source_filename).map (·.2)

/-! ## Document assembler (lab_parser.py, `process_pdf`)

The OCR step and the page-text provider are external (spec §1, §6); the
assembler below is `process_pdf` from the point where the page texts are
in hand (lab_parser.py lines 314-370), for a document whose filename
selected the given config. -/

/-- The three shipped strategies. -/
inductive Config where
  | rcb
  | kpa
  | mhb
  deriving Repr, DecidableEq

/-- `config.name`. -/
def Config.cname : Config → String
  | .rcb => "RCMC"
  | .kpa => "Kaiser"
  | .mhb => "Monument"

/-- `config.filename_patterns`, applied with
`re.search(pattern, filename, re.IGNORECASE)`. -/
def Config.filenamePats : Config → List RE
  | .rcb => [REseq [litI "--RCMC", .cls (chC '.'), litI "pdf", .eol],
             REseq [litI "--RCB", .cls (chC '.'), litI "pdf", .eol]]
  | .kpa => [REseq [litI "--Kaiser", .cls (chC '.'), litI "pdf", .eol],
             REseq [litI "--KPA", .cls (chC '.'), litI "pdf", .eol]]
  | .mhb => [REseq [litI "--Monument", .cls (chC '.'), litI "pdf", .eol],
             REseq [litI "--MHB", .cls (chC '.'), litI "pdf", .eol]]

/-- `FacilityConfig.matches_filename`. -/
def Config.matchesFilename (c : Config) (filename : String) : Bool :=
  c.filenamePats.any (fun p => (pySearch p filename false).isSome)

/-- `get_config_for_filename`: the registry order is RCB, KPA, MHB. -/
def get_config_for_filename (filename : String) : Option Config :=
  if Config.matchesFilename .rcb filename then some .rcb
  else if Config.matchesFilename .kpa filename then some .kpa
  else if Config.matchesFilename .mhb filename then some .mhb
  else none

/-- `config.extract_results`. -/
def Config.extract : Config → String → String → List LabResult
  | .rcb => rcbExtract
  | .kpa => kpaExtract
  | .mhb => mhbExtract

/-- `config.extract_panel_name` (all three configs define it, so
`hasattr(config, 'extract_panel_name')` is true for each). -/
def Config.extractPanelName : Config → String → String
  | .rcb => rcbExtractPanelName
  | .kpa => kpaExtractPanelName
  | .mhb => mhbExtractPanelName

/-- `r'^\d{4}-\d{2}-\d{2}$'`, the filename-date validation of
`process_pdf` (re.match, no flags). -/
def isoDateRE : RE :=
  REseq [.bol, rep4 digC, .cls (chC '-'), rep2 digC, .cls (chC '-'), rep2 digC, .eol]

/-- The document-level panel name of `process_pdf`: extracted from the
concatenated page texts, else parsed from the filename's middle `--`
segments when there are at least three segments. -/
def docPanelName (cfg : Config) (page_texts : List String) (filename : String) : String :=
  let full_text := pyJoin "\n" page_texts
  let doc := normalize_panel_name (cfg.extractPanelName full_text)
  if doc = "" then
    let parts := pySplitSep "--" (pyReplace filename ".pdf" "")
    if parts.length ≥ 3 then
      normalize_panel_name (pyUpper (pyJoin "--" ((parts.drop 1).dropLast)))
    else ""
  else doc

/-- Step 1 of the panel-name logic of `process_pdf` (lab_parser.py lines
346-349): a record with no panel name inherits the document-level one. -/
def panelStage1 (doc_panel_name : String) (r : LabResult) : LabResult :=
  if r.panel_name = "" && doc_panel_name ≠ "" then
    { r with panel_name := doc_panel_name } else r

/-- Step 2 of the panel-name logic (lab_parser.py lines 351-354): a panel
that strips-and-uppercases to `""` or `'LABS-VISIT'` is overridden by the
record's own component. -/
def panelStage2 (r : LabResult) : LabResult :=
  if pyUpper (pyStrip r.panel_name) = "" || pyUpper (pyStrip r.panel_name) = "LABS-VISIT" then
    { r with panel_name := r.component } else r

/-- The filename date fallback of `process_pdf` (lab_parser.py lines
357-368). -/
def dateStage (filename : String) (r : LabResult) : LabResult :=
  if r.test_date = "" then
    if (pyMatch isoDateRE (⟨filename.data.take 10⟩ : String) false).isSome then
      match pySplitSep "-" (⟨filename.data.take 10⟩ : String) with
      | [y, m, d] => { r with test_date := m ++ "/" ++ d ++ "/" ++ y }
      | _ => r
    else r
  else r

/-- The per-record post-processing of `process_pdf` (lab_parser.py lines
344-370): document-level panel fallback, the `LABS-VISIT`/empty-panel
override by the record's own component, and the filename date fallback. -/
def assembleRecord (doc_panel_name filename : String) (r : LabResult) : LabResult :=
  dateStage filename (panelStage2 (panelStage1 doc_panel_name r))

/-- `process_pdf` from the extraction loop on: the pages with no
extractable text are dropped, the document panel name is resolved once,
and each page's records are post-processed in page order. -/
def processPdfPages (cfg : Config) (raw_pages : List String) (filename : String) :
    List LabResult :=
  let page_texts := raw_pages.filter (fun t => t ≠ "")
  let doc := docPanelName cfg page_texts filename
  page_texts.flatMap (fun text => (cfg.extract text filename).map (assembleRecord doc filename))

/-- `processPdfPages` instrumented with 0-based page indices. -/
def processPdfPagesInstr (cfg : Config) (raw_pages : List String) (filename : String) :
    List (Nat × LabResult) :=
  let page_texts := raw_pages.filter (fun t => t ≠ "")
  let doc := docPanelName cfg page_texts filename
  (List.range page_texts.length).flatMap (fun p =>
    ((cfg.extract (page_texts.getD p "") filename).map (assembleRecord doc filename)).map
      (fun r => (p, r)))

/-! ## Concrete records used by the witness theorems -/

/-- The Monument record of the row
`Sodium (H) 150 135-145 SPECTROPHOTOMETRY 08/18/2025 MONUMENT`. -/
def wMhbSodium : LabResult :=
  { source := "t.pdf", facility := "Monument", panel_name := "",
    component := "Sodium", test_date := "08/18/2025", value := "150",
    ref_range := "135-145", unit := "", flag := "H", page_marker := "" }

/-- The assembled Kaiser record of the single-line page
`LABS-VISIT 5 1-2 01/02/2023 KAISER` under filename
`2023-01-02----Kaiser.pdf`. -/
def wAsmLabsVisit : LabResult :=
  { source := "2023-01-02----Kaiser.pdf", facility := "Kaiser",
    panel_name := "LABS-VISIT", component := "LABS-VISIT",
    test_date := "01/02/2023", value := "5", ref_range := "1-2", unit := "",
    flag := "", page_marker := "" }

/-- The Kaiser record of the row `HDL TES 39.0 77.0-99.0 01/02/2023 KAISER`
(no panel, no marker). -/
def wKpaHdl : LabResult :=
  { source := "f.pdf", facility := "Kaiser", panel_name := "",
    component := "HDL Cholesterol", test_date := "01/02/2023", value := "39.0",
    ref_range := "77.0-99.0", unit := "", flag := "", page_marker := "" }

/-! ## Semantic predicates on the regex engine

`SpansR re i j` is a sound over-approximation of "the matcher, entered at
position `i` on `re`, handed position `j` to its continuation": repetition
nodes record that every consumed character is in the class, anchors and
`eps` consume nothing.  Capture soundness is read off through it. -/

/-- What a subexpression can span (anchor conditions are dropped — only an
upper bound is needed). -/
def SpansR (text : List Char) : RE → Nat → Nat → Prop
  | .eps, i, j => j = i
  | .cls p, i, j => j = i + 1 ∧ i < text.length ∧ p (text.getD i ' ') = true
  | .star _ p, i, j =>
    i ≤ j ∧ j ≤ text.length ∧ ∀ k, i ≤ k → k < j → p (text.getD k ' ') = true
  | .seq a b, i, j => ∃ m, SpansR text a i m ∧ SpansR text b m j
  | .alt a b, i, j => SpansR text a i j ∨ SpansR text b i j
  | .opt _ a, i, j => j = i ∨ SpansR text a i j
  | .grp _ a, i, j => SpansR text a i j
  | .bol, i, j => j = i
  | .eol, i, j => j = i

/-- The numbered groups of a regex, with their bodies. -/
def grpsOf : RE → List (Nat × RE)
  | .seq a b => grpsOf a ++ grpsOf b
  | .alt a b => grpsOf a ++ grpsOf b
  | .opt _ a => grpsOf a
  | .grp m a => (m, a) :: grpsOf a
  | _ => []

/-- Group numbers the matcher is guaranteed to bind whenever the whole
regex matches: a group is mandatory if it is on every path. -/
def mandB : RE → Nat → Bool
  | .seq a b, n => mandB a n || mandB b n
  | .alt a b, n => mandB a n && mandB b n
  | .grp m a, n => m == n || mandB a n
  | _, _ => false

/-- Does entry `k` of a normalization table match `s` (by the same
`re.search` the normalizer uses)? -/
def entryMatches (table : List (String × List RE)) (k : Nat) (s : String) : Bool :=
  (table.getD k ("", [])).2.any (fun p => (pySearch p s false).isSome)

/-- Union of the comparator and numeric classes, the character set of the
KPA `value` group. -/
def kpaValU (c : Char) : Bool := cmpC c || numC c

/-- Capture fact for `[X][Y]+?`-shaped groups: nonempty with an
alphabetic first character. -/
def headAlphaFact (s : String) : Prop :=
  ∃ c l, s.data = c :: l ∧ alphaC c = true

/-- Capture fact for `p+`-shaped groups: nonempty, all characters in the
class. -/
def allNe (p : Char → Bool) (s : String) : Prop :=
  s ≠ "" ∧ ∀ c ∈ s.data, p c = true

/-- Capture predicate caring about groups 1 and 2. -/
def capG2 (P Q : String → Prop) (n : Nat) (t : String) : Prop :=
  (n = 1 → P t) ∧ (n = 2 → Q t)

/-- Capture predicate caring about groups 1, 2 and 3. -/
def capG3 (P Q R : String → Prop) (n : Nat) (t : String) : Prop :=
  (n = 1 → P t) ∧ (n = 2 → Q t) ∧ (n = 3 → R t)

/-! ## Engine soundness

`matchCore` hands its continuation a position the regex can span and
captures whose contents lie in their group bodies' spans.  The statement
is parametric in a predicate `G` on captures, discharged per pattern. -/

theorem starG_sound {p : Char → Bool} {text : List Char} {k : Nat → Caps → Option MRes} :
    ∀ {fuel pos caps r}, pos ≤ text.length →
    starG p text k fuel pos caps = some r →
    ∃ q, pos ≤ q ∧ q ≤ text.length ∧
      (∀ m, pos ≤ m → m < q → p (text.getD m ' ') = true) ∧ k q caps = some r := by
  intro fuel
  induction fuel with
  | zero =>
    intro pos caps r hpos h
    exact ⟨pos, le_refl _, hpos, fun m h1 h2 => absurd (lt_of_le_of_lt h1 h2) (lt_irrefl pos), h⟩
  | succ fuel ih =>
    intro pos caps r hpos h
    unfold starG at h
    by_cases hc : (pos < text.length && p (text.getD pos ' ')) = true
    · rw [if_pos hc] at h
      have hlt : pos < text.length := by
        have := hc; simp only [Bool.and_eq_true, decide_eq_true_eq] at this; exact this.1
      have hp : p (text.getD pos ' ') = true := by
        have := hc; simp only [Bool.and_eq_true, decide_eq_true_eq] at this; exact this.2
      cases hrec : starG p text k fuel (pos + 1) caps with
      | some r' =>
        rw [hrec] at h
        obtain rfl : r' = r := by injection h
        obtain ⟨q, hq1, hq2, hq3, hq4⟩ := ih (Nat.succ_le_of_lt hlt) hrec
        refine ⟨q, Nat.le_trans (Nat.le_succ pos) hq1, hq2, ?_, hq4⟩
        intro m h1 h2
        rcases Nat.eq_or_lt_of_le h1 with h1 | h1
        · exact h1 ▸ hp
        · exact hq3 m h1 h2
      | none =>
        rw [hrec] at h
        exact ⟨pos, le_refl _, hpos, fun m h1 h2 => absurd (lt_of_le_of_lt h1 h2) (lt_irrefl pos), h⟩
    · rw [if_neg hc] at h
      exact ⟨pos, le_refl _, hpos, fun m h1 h2 => absurd (lt_of_le_of_lt h1 h2) (lt_irrefl pos), h⟩

theorem starL_sound {p : Char → Bool} {text : List Char} {k : Nat → Caps → Option MRes} :
    ∀ {fuel pos caps r}, pos ≤ text.length →
    starL p text k fuel pos caps = some r →
    ∃ q, pos ≤ q ∧ q ≤ text.length ∧
      (∀ m, pos ≤ m → m < q → p (text.getD m ' ') = true) ∧ k q caps = some r := by
  intro fuel
  induction fuel with
  | zero =>
    intro pos caps r hpos h
    exact ⟨pos, le_refl _, hpos, fun m h1 h2 => absurd (lt_of_le_of_lt h1 h2) (lt_irrefl pos), h⟩
  | succ fuel ih =>
    intro pos caps r hpos h
    unfold starL at h
    cases hk : k pos caps with
    | some r' =>
      rw [hk] at h
      obtain rfl : r' = r := by injection h
      exact ⟨pos, le_refl _, hpos, fun m h1 h2 => absurd (lt_of_le_of_lt h1 h2) (lt_irrefl pos), hk⟩
    | none =>
      rw [hk] at h
      by_cases hc : (pos < text.length && p (text.getD pos ' ')) = true
      · rw [if_pos hc] at h
        have hlt : pos < text.length := by
          have := hc; simp only [Bool.and_eq_true, decide_eq_true_eq] at this; exact this.1
        have hp : p (text.getD pos ' ') = true := by
          have := hc; simp only [Bool.and_eq_true, decide_eq_true_eq] at this; exact this.2
        obtain ⟨q, hq1, hq2, hq3, hq4⟩ := ih (Nat.succ_le_of_lt hlt) h
        refine ⟨q, Nat.le_trans (Nat.le_succ pos) hq1, hq2, ?_, hq4⟩
        intro m h1 h2
        rcases Nat.eq_or_lt_of_le h1 with h1 | h1
        · exact h1 ▸ hp
        · exact hq3 m h1 h2
      · rw [if_neg hc] at h
        exact absurd h (by simp)

theorem matchCore_sound {G : Nat → String → Prop} {text : List Char} {ml : Bool} :
    ∀ (re : RE) {pos : Nat} {caps : Caps} {k : Nat → Caps → Option MRes} {r : MRes},
    (∀ n a, (n, a) ∈ grpsOf re → ∀ i j, SpansR text a i j → G n (sliceStr text i j)) →
    pos ≤ text.length →
    matchCore text ml re pos caps k = some r →
    ∃ p nw, pos ≤ p ∧ p ≤ text.length ∧ SpansR text re pos p ∧
      (∀ x ∈ nw, G x.1 x.2) ∧
      (∀ n, mandB re n = true → ∃ s, (n, s) ∈ nw) ∧
      k p (nw ++ caps) = some r := by
  intro re
  induction re with
  | eps =>
    intro pos caps k r _ hpos h
    exact ⟨pos, [], le_refl _, hpos, rfl, by simp, by intro n hn; simp [mandB] at hn, h⟩
  | cls p =>
    intro pos caps k r _ hpos h
    unfold matchCore at h
    by_cases hc : (pos < text.length && p (text.getD pos ' ')) = true
    · rw [if_pos hc] at h
      simp only [Bool.and_eq_true, decide_eq_true_eq] at hc
      exact ⟨pos + 1, [], Nat.le_succ pos, Nat.succ_le_of_lt hc.1, ⟨rfl, hc.1, hc.2⟩,
        by simp, by intro n hn; simp [mandB] at hn, h⟩
    · rw [if_neg hc] at h; exact absurd h (by simp)
  | star lz p =>
    intro pos caps k r _ hpos h
    unfold matchCore at h
    by_cases hlz : lz
    · rw [if_pos hlz] at h
      obtain ⟨q, hq1, hq2, hq3, hq4⟩ := starL_sound hpos h
      exact ⟨q, [], hq1, hq2, ⟨hq1, hq2, hq3⟩, by simp, by intro n hn; simp [mandB] at hn, hq4⟩
    · rw [if_neg hlz] at h
      obtain ⟨q, hq1, hq2, hq3, hq4⟩ := starG_sound hpos h
      exact ⟨q, [], hq1, hq2, ⟨hq1, hq2, hq3⟩, by simp, by intro n hn; simp [mandB] at hn, hq4⟩
  | seq a b iha ihb =>
    intro pos caps k r hg hpos h
    unfold matchCore at h
    have hga : ∀ n c, (n, c) ∈ grpsOf a → ∀ i j, SpansR text c i j → G n (sliceStr text i j) :=
      fun n c hm => hg n c (by simp [grpsOf, hm])
    have hgb : ∀ n c, (n, c) ∈ grpsOf b → ∀ i j, SpansR text c i j → G n (sliceStr text i j) :=
      fun n c hm => hg n c (by simp [grpsOf, hm])
    obtain ⟨p1, nw1, h11, h12, h13, h14, h15, h16⟩ := iha hga hpos h
    obtain ⟨p2, nw2, h21, h22, h23, h24, h25, h26⟩ := ihb hgb h12 h16
    refine ⟨p2, nw2 ++ nw1, Nat.le_trans h11 h21, h22, ⟨p1, h13, h23⟩, ?_, ?_, ?_⟩
    · intro x hx
      rcases List.mem_append.mp hx with hx | hx
      · exact h24 x hx
      · exact h14 x hx
    · intro n hn
      simp only [mandB, Bool.or_eq_true] at hn
      rcases hn with hn | hn
      · obtain ⟨s, hs⟩ := h15 n hn; exact ⟨s, List.mem_append.mpr (Or.inr hs)⟩
      · obtain ⟨s, hs⟩ := h25 n hn; exact ⟨s, List.mem_append.mpr (Or.inl hs)⟩
    · rw [List.append_assoc]; exact h26
  | alt a b iha ihb =>
    intro pos caps k r hg hpos h
    unfold matchCore at h
    have hga : ∀ n c, (n, c) ∈ grpsOf a → ∀ i j, SpansR text c i j → G n (sliceStr text i j) :=
      fun n c hm => hg n c (by simp [grpsOf, hm])
    have hgb : ∀ n c, (n, c) ∈ grpsOf b → ∀ i j, SpansR text c i j → G n (sliceStr text i j) :=
      fun n c hm => hg n c (by simp [grpsOf, hm])
    cases ha : matchCore text ml a pos caps k with
    | some r' =>
      rw [ha] at h
      obtain rfl : r' = r := by injection h
      obtain ⟨p, nw, h1, h2, h3, h4, h5, h6⟩ := iha hga hpos ha
      refine ⟨p, nw, h1, h2, Or.inl h3, h4, ?_, h6⟩
      intro n hn
      simp only [mandB, Bool.and_eq_true] at hn
      exact h5 n hn.1
    | none =>
      rw [ha] at h
      obtain ⟨p, nw, h1, h2, h3, h4, h5, h6⟩ := ihb hgb hpos h
      refine ⟨p, nw, h1, h2, Or.inr h3, h4, ?_, h6⟩
      intro n hn
      simp only [mandB, Bool.and_eq_true] at hn
      exact h5 n hn.2
  | opt lz a iha =>
    intro pos caps k r hg hpos h
    unfold matchCore at h
    have hga : ∀ n c, (n, c) ∈ grpsOf a → ∀ i j, SpansR text c i j → G n (sliceStr text i j) :=
      fun n c hm => hg n c (by simp [grpsOf, hm])
    have hnone : ∀ p' nw', pos ≤ p' → p' ≤ text.length → SpansR text a pos p' →
        (∀ x ∈ nw', G x.1 x.2) → k p' (nw' ++ caps) = some r →
        ∃ p nw, pos ≤ p ∧ p ≤ text.length ∧ SpansR text (.opt lz a) pos p ∧
          (∀ x ∈ nw, G x.1 x.2) ∧ (∀ n, mandB (.opt lz a) n = true → ∃ s, (n, s) ∈ nw) ∧
          k p (nw ++ caps) = some r :=
      fun p' nw' h1 h2 h3 h4 h5 =>
        ⟨p', nw', h1, h2, Or.inr h3, h4, by intro n hn; simp [mandB] at hn, h5⟩
    by_cases hlz : lz
    · rw [if_pos hlz] at h
      cases hk : k pos caps with
      | some r' =>
        rw [hk] at h
        obtain rfl : r' = r := by injection h
        exact ⟨pos, [], le_refl _, hpos, Or.inl rfl, by simp,
          by intro n hn; simp [mandB] at hn, hk⟩
      | none =>
        rw [hk] at h
        obtain ⟨p, nw, h1, h2, h3, h4, _, h6⟩ := iha hga hpos h
        exact hnone p nw h1 h2 h3 h4 h6
    · rw [if_neg hlz] at h
      cases ha : matchCore text ml a pos caps k with
      | some r' =>
        rw [ha] at h
        obtain rfl : r' = r := by injection h
        obtain ⟨p, nw, h1, h2, h3, h4, _, h6⟩ := iha hga hpos ha
        exact hnone p nw h1 h2 h3 h4 h6
      | none =>
        rw [ha] at h
        exact ⟨pos, [], le_refl _, hpos, Or.inl rfl, by simp,
          by intro n hn; simp [mandB] at hn, h⟩
  | grp m a iha =>
    intro pos caps k r hg hpos h
    unfold matchCore at h
    have hga : ∀ n c, (n, c) ∈ grpsOf a → ∀ i j, SpansR text c i j → G n (sliceStr text i j) :=
      fun n c hm => hg n c (by simp [grpsOf, hm])
    obtain ⟨p, nw, h1, h2, h3, h4, h5, h6⟩ := iha hga hpos h
    refine ⟨p, (m, sliceStr text pos p) :: nw, h1, h2, h3, ?_, ?_, h6⟩
    · intro x hx
      rcases List.mem_cons.mp hx with hx | hx
      · subst hx
        exact hg m a (by simp [grpsOf]) pos p h3
      · exact h4 x hx
    · intro n hn
      simp only [mandB, Bool.or_eq_true, beq_iff_eq] at hn
      rcases hn with hn | hn
      · exact ⟨sliceStr text pos p, by rw [hn]; exact List.mem_cons_self _ _⟩
      · obtain ⟨s, hs⟩ := h5 n hn
        exact ⟨s, List.mem_cons_of_mem _ hs⟩
  | bol =>
    intro pos caps k r _ hpos h
    unfold matchCore at h
    by_cases h0 : pos = 0
    · rw [if_pos h0] at h
      exact ⟨pos, [], le_refl _, hpos, rfl, by simp, by intro n hn; simp [mandB] at hn, h⟩
    · rw [if_neg h0] at h
      by_cases hc : (ml && decide (pos - 1 < text.length) && (text.getD (pos - 1) ' ' = '\n')) = true
      · rw [if_pos hc] at h
        exact ⟨pos, [], le_refl _, hpos, rfl, by simp, by intro n hn; simp [mandB] at hn, h⟩
      · rw [if_neg hc] at h; exact absurd h (by simp)
  | eol =>
    intro pos caps k r _ hpos h
    unfold matchCore at h
    by_cases h0 : pos = text.length
    · rw [if_pos h0] at h
      exact ⟨pos, [], le_refl _, hpos, rfl, by simp, by intro n hn; simp [mandB] at hn, h⟩
    · rw [if_neg h0] at h
      by_cases hc : (pos < text.length && (text.getD pos ' ' = '\n')
          && (ml || decide (pos = text.length - 1))) = true
      · rw [if_pos hc] at h
        exact ⟨pos, [], le_refl _, hpos, rfl, by simp, by intro n hn; simp [mandB] at hn, h⟩
      · rw [if_neg hc] at h; exact absurd h (by simp)

/-- Soundness specialized to a top-level match attempt. -/
theorem reMatchAt_sound {G : Nat → String → Prop} {re : RE} {text : List Char} {ml : Bool}
    {pos e : Nat} {caps : Caps}
    (hg : ∀ n a, (n, a) ∈ grpsOf re → ∀ i j, SpansR text a i j → G n (sliceStr text i j))
    (hpos : pos ≤ text.length)
    (h : reMatchAt re text ml pos = some (e, caps)) :
    pos ≤ e ∧ e ≤ text.length ∧ SpansR text re pos e ∧ (∀ x ∈ caps, G x.1 x.2) ∧
      (∀ n, mandB re n = true → ∃ s, (n, s) ∈ caps) := by
  obtain ⟨p, nw, h1, h2, h3, h4, h5, h6⟩ := matchCore_sound re hg hpos h
  rw [List.append_nil] at h6
  obtain ⟨rfl, rfl⟩ : p = e ∧ nw = caps := by
    have := h6; injection this with this; exact ⟨congrArg Prod.fst this, congrArg Prod.snd this⟩
  exact ⟨h1, h2, h3, h4, h5⟩

theorem searchFrom_sound {re : RE} {text : List Char} {ml : Bool} :
    ∀ {fuel pos s : Nat} {r : MRes}, pos ≤ text.length →
    searchFrom re text ml fuel pos = some (s, r) →
    pos ≤ s ∧ s ≤ text.length ∧ reMatchAt re text ml s = some r := by
  intro fuel
  induction fuel with
  | zero => intro pos s r _ h; exact absurd h (by simp [searchFrom])
  | succ fuel ih =>
    intro pos s r hpos h
    unfold searchFrom at h
    cases hm : reMatchAt re text ml pos with
    | some r' =>
      rw [hm] at h
      obtain ⟨rfl, rfl⟩ : pos = s ∧ r' = r := by
        injection h with h; exact ⟨congrArg Prod.fst h, congrArg Prod.snd h⟩
      exact ⟨le_refl _, hpos, hm⟩
    | none =>
      rw [hm] at h
      by_cases hc : pos < text.length
      · rw [if_pos hc] at h
        obtain ⟨h1, h2, h3⟩ := ih (Nat.succ_le_of_lt hc) h
        exact ⟨Nat.le_trans (Nat.le_succ pos) h1, h2, h3⟩
      · rw [if_neg hc] at h; exact absurd h (by simp)

/-- Soundness for `re.search`. -/
theorem pySearch_sound {re : RE} {s : String} {ml : Bool} {st : Nat} {r : MRes}
    (h : pySearch re s ml = some (st, r)) :
    st ≤ s.data.length ∧ reMatchAt re s.data ml st = some r :=
  ⟨(searchFrom_sound (Nat.zero_le _) h).2.1, (searchFrom_sound (Nat.zero_le _) h).2.2⟩

/-- Every match reported by `re.finditer` is a real match at its start. -/
theorem findIterAux_mem {re : RE} {text : List Char} {ml : Bool} :
    ∀ {fuel pos} {m : FMatch}, m ∈ findIterAux re text ml fuel pos →
    m.start ≤ text.length ∧ reMatchAt re text ml m.start = some (m.stop, m.caps) := by
  intro fuel
  induction fuel with
  | zero => intro pos m h; exact absurd h (by simp [findIterAux])
  | succ fuel ih =>
    intro pos m h
    unfold findIterAux at h
    by_cases hc : pos ≤ text.length
    · rw [if_pos hc] at h
      cases hs : searchFrom re text ml (text.length + 1 - pos) pos with
      | some sr =>
        obtain ⟨s, e, caps⟩ := sr
        rw [hs] at h
        rcases List.mem_cons.mp h with h | h
        · subst h
          obtain ⟨_, h2, h3⟩ := searchFrom_sound hc hs
          exact ⟨h2, h3⟩
        · exact ih h
      | none => rw [hs] at h; exact absurd h (by simp)
    · rw [if_neg hc] at h; exact absurd h (by simp)

theorem pyFindIter_mem {re : RE} {s : String} {ml : Bool} {m : FMatch}
    (h : m ∈ pyFindIter re s ml) :
    m.start ≤ s.data.length ∧ reMatchAt re s.data ml m.start = some (m.stop, m.caps) :=
  findIterAux_mem h

/-- The capture list lookup finds an entry of the list. -/
theorem capLookup_mem {caps : Caps} {n : Nat} {s : String}
    (h : capLookup caps n = some s) : (n, s) ∈ caps := by
  induction caps with
  | nil => exact absurd h (by simp [capLookup])
  | cons hd tl ih =>
    unfold capLookup at h
    by_cases he : hd.1 = n
    · rw [if_pos he] at h
      obtain rfl : hd.2 = s := by injection h
      rw [← he]
      exact List.mem_cons_self _ _
    · rw [if_neg he] at h
      exact List.mem_cons_of_mem _ (ih h)

theorem capLookup_isSome {caps : Caps} {n : Nat}
    (h : ∃ s, (n, s) ∈ caps) : (capLookup caps n).isSome = true := by
  obtain ⟨s, hs⟩ := h
  induction caps with
  | nil => exact absurd hs (by simp)
  | cons hd tl ih =>
    unfold capLookup
    by_cases he : hd.1 = n
    · rw [if_pos he]; rfl
    · rw [if_neg he]
      rcases List.mem_cons.mp hs with h | h
      · exact absurd (congrArg Prod.fst h).symm he
      · exact ih h

/-- Combined capture fact: a mandatory group's looked-up content exists and
satisfies the capture predicate. -/
theorem capStr_fact {caps : Caps} {n : Nat} {G : Nat → String → Prop}
    (hall : ∀ x ∈ caps, G x.1 x.2)
    (hmand : ∃ s, (n, s) ∈ caps) : G n (capStr caps n) := by
  have hs : (capLookup caps n).isSome = true := capLookup_isSome hmand
  cases hl : capLookup caps n with
  | none => rw [hl] at hs; exact absurd hs (by simp)
  | some v =>
    have hm : (n, v) ∈ caps := capLookup_mem hl
    have := hall _ hm
    simpa [capStr, hl] using this

/-! ## String lemmas -/

theorem mem_dropWhile_of_neg {p : Char → Bool} {c : Char} :
    ∀ {l : List Char}, c ∈ l → p c = false → c ∈ l.dropWhile p := by
  intro l
  induction l with
  | nil => intro h _; exact absurd h (by simp)
  | cons a t ih =>
    intro hc hp
    by_cases ha : p a = true
    · rw [List.dropWhile_cons_of_pos ha]
      rcases List.mem_cons.mp hc with rfl | hc
      · exact absurd ha (by simp [hp])
      · exact ih hc hp
    · rw [List.dropWhile_cons_of_neg ha]
      exact hc

theorem dropWhile_eq_self_of_neg {p : Char → Bool} {l : List Char}
    (h : ∀ x ∈ l, p x = false) : l.dropWhile p = l := by
  cases l with
  | nil => rfl
  | cons a t =>
    have ha : p a = false := h a (List.mem_cons_self a t)
    have ha' : ¬(p a = true) := by simp [ha]
    exact List.dropWhile_cons_of_neg ha'

/-- A string containing a non-whitespace character does not strip to
empty. -/
theorem pyStrip_ne {s : String} {c : Char} (hc : c ∈ s.data)
    (hw : isPySpace c = false) : pyStrip s ≠ "" := by
  intro h
  have hdata : (pyStrip s).data = [] := by rw [h]
  have h1 : c ∈ s.data.dropWhile isPySpace := mem_dropWhile_of_neg hc hw
  have h2 : c ∈ (s.data.dropWhile isPySpace).reverse := List.mem_reverse.mpr h1
  have h3 : c ∈ (s.data.dropWhile isPySpace).reverse.dropWhile isPySpace :=
    mem_dropWhile_of_neg h2 hw
  have h4 : c ∈ ((s.data.dropWhile isPySpace).reverse.dropWhile isPySpace).reverse :=
    List.mem_reverse.mpr h3
  rw [show ((s.data.dropWhile isPySpace).reverse.dropWhile isPySpace).reverse
      = (pyStrip s).data from rfl, hdata] at h4
  exact absurd h4 (by simp)

/-- A string of non-whitespace characters strips to itself. -/
theorem pyStrip_eq_self {s : String} (h : ∀ c ∈ s.data, isPySpace c = false) :
    pyStrip s = s := by
  unfold pyStrip
  rw [dropWhile_eq_self_of_neg h,
    dropWhile_eq_self_of_neg (fun x hx => h x (List.mem_reverse.mp hx)),
    List.reverse_reverse]

theorem pySplitWs_words_ne : ∀ {l : List Char} {w : List Char},
    w ∈ pySplitWs l → w ≠ [] := by
  intro l
  induction l with
  | nil => intro w h; exact absurd h (by simp [pySplitWs])
  | cons c rest ih =>
    intro w hw
    unfold pySplitWs at hw
    by_cases hc : isPySpace c = true
    · rw [if_pos hc] at hw; exact ih hw
    · rw [if_neg hc] at hw
      cases hrec : pySplitWs rest with
      | nil =>
        rw [hrec] at hw
        simp only [List.mem_singleton] at hw
        subst hw; simp
      | cons w' ws' =>
        rw [hrec] at hw
        have hred : (match w' :: ws' with
            | [] => [[c]]
            | w :: ws =>
              if isPySpace (rest.headD ' ') = true then [c] :: w :: ws else (c :: w) :: ws)
            = if isPySpace (rest.headD ' ') = true then [c] :: w' :: ws'
              else (c :: w') :: ws' := rfl
        rw [hred] at hw
        by_cases hh : isPySpace (rest.headD ' ') = true
        · rw [if_pos hh] at hw
          rcases List.mem_cons.mp hw with rfl | hw
          · simp
          · exact ih (hrec ▸ hw)
        · rw [if_neg hh] at hw
          rcases List.mem_cons.mp hw with rfl | hw
          · simp
          · exact ih (hrec ▸ List.mem_cons_of_mem w' hw)

theorem pySplitWs_ne_nil {c : Char} : ∀ {l : List Char}, c ∈ l →
    isPySpace c = false → pySplitWs l ≠ [] := by
  intro l
  induction l with
  | nil => intro h _; exact absurd h (by simp)
  | cons a rest ih =>
    intro hc hw
    unfold pySplitWs
    by_cases ha : isPySpace a = true
    · rw [if_pos ha]
      rcases List.mem_cons.mp hc with rfl | hc
      · exact absurd ha (by simp [hw])
      · exact ih hc hw
    · rw [if_neg ha]
      cases pySplitWs rest with
      | nil => simp
      | cons w' ws' =>
        by_cases hh : isPySpace (rest.headD ' ') = true
        · simp only [if_pos hh]; simp
        · simp only [if_neg hh]; simp

/-- Whitespace collapsing keeps a string with a non-whitespace character
nonempty. -/
theorem pyCollapse_ne {s : String} {c : Char} (hc : c ∈ s.data)
    (hw : isPySpace c = false) : pyCollapse s ≠ "" := by
  intro h
  have hdata : ((pySplitWs s.data).intersperse [' ']).flatten = ([] : List Char) :=
    congrArg String.data h
  cases hs : pySplitWs s.data with
  | nil => exact pySplitWs_ne_nil hc hw hs
  | cons w ws =>
    have hwne : w ≠ [] := pySplitWs_words_ne (hs ▸ List.mem_cons_self w ws)
    rw [hs] at hdata
    cases ws with
    | nil =>
      rw [List.intersperse_singleton] at hdata
      simp only [List.flatten_cons, List.flatten_nil, List.append_nil] at hdata
      exact hwne hdata
    | cons y ys =>
      rw [List.intersperse_cons_cons] at hdata
      simp only [List.flatten_cons] at hdata
      exact hwne (List.append_eq_nil.mp hdata).1

/-- Replacing a pattern whose first character differs from the list's head
leaves the head in place. -/
theorem replaceL_head {p0 : Char} {ps rep : List Char} {c : Char} {l : List Char}
    {fuel : Nat} (hc : p0 ≠ c) :
    replaceL p0 ps rep (fuel + 1) (c :: l) = c :: replaceL p0 ps rep fuel l := by
  rw [replaceL]
  simp [startsWithL, hc]

/-- `str.replace(' TES', '')` keeps the first character of a string that
does not start with a space. -/
theorem pyReplace_TES_head {s : String} {c : Char} {l : List Char}
    (hd : s.data = c :: l) (hc : c ≠ ' ') :
    ∃ l', (pyReplace s " TES" "").data = c :: l' := by
  refine ⟨replaceL ' ' ['T', 'E', 'S'] [] (l.length + 1) l, ?_⟩
  show (replaceL ' ' ['T', 'E', 'S'] [] (s.data.length + 1) s.data) = _
  rw [hd, List.length_cons, replaceL_head (Ne.symm hc)]

/-- Membership transport through `String.append` at the data level. -/
theorem strApp_data (a b : String) : (a ++ b).data = a.data ++ b.data := rfl

/-! ## Slice lemmas -/

theorem getD_of_lt {l : List Char} {n : Nat} (h : n < l.length) : l.getD n ' ' = l[n] := by
  rw [List.getD_eq_getElem?_getD, List.getElem?_eq_getElem h]
  rfl

theorem sliceStr_data (text : List Char) (i j : Nat) :
    (sliceStr text i j).data = (text.drop i).take (j - i) := rfl

theorem sliceStr_head {text : List Char} {i j : Nat} (hij : i < j) (hi : i < text.length) :
    ∃ l, (sliceStr text i j).data = text.getD i ' ' :: l := by
  have hdrop : text.drop i = text.getD i ' ' :: text.drop (i + 1) := by
    rw [getD_of_lt hi]
    exact List.drop_eq_getElem_cons hi
  obtain ⟨m, hm⟩ : ∃ m, j - i = m + 1 := ⟨j - i - 1, by omega⟩
  refine ⟨(text.drop (i + 1)).take m, ?_⟩
  show (text.drop i).take (j - i) = _
  rw [hdrop, hm, List.take_succ_cons]

theorem sliceStr_ne_empty {text : List Char} {i j : Nat} (hij : i < j)
    (hi : i < text.length) : sliceStr text i j ≠ "" := by
  obtain ⟨l, hl⟩ := sliceStr_head hij hi
  intro h
  rw [h] at hl
  exact absurd hl (by simp [show ("" : String).data = [] from rfl])

theorem sliceStr_all {text : List Char} {i j : Nat} {p : Char → Bool}
    (h : ∀ k, i ≤ k → k < j → p (text.getD k ' ') = true) :
    ∀ c ∈ (sliceStr text i j).data, p c = true := by
  intro c hc
  rw [sliceStr_data] at hc
  obtain ⟨idx, hidx, heq⟩ := List.getElem_of_mem hc
  have hidx' : idx < j - i := lt_of_lt_of_le hidx (by simp [List.length_take])
  have hidxd : idx < (text.drop i).length := by
    have := hidx; simp only [List.length_take, lt_min_iff] at this; exact this.2
  have hlen : i + idx < text.length := by
    have := hidxd; rw [List.length_drop] at this; omega
  have h3 : c = text.getD (i + idx) ' ' := by
    rw [getD_of_lt hlen, ← heq]
    simp [List.getElem_take, List.getElem_drop]
  rw [h3]
  exact h (i + idx) (Nat.le_add_right i idx) (by omega)

/-! ## Facts about the shapes of group bodies -/

/-- A span of `p+` is a nonempty run of class characters. -/
theorem SpansR_plus1 {text : List Char} {lz : Bool} {p : Char → Bool} {i j : Nat}
    (h : SpansR text (RE.plus1 lz p) i j) :
    i < j ∧ j ≤ text.length ∧ i < text.length ∧
      ∀ k, i ≤ k → k < j → p (text.getD k ' ') = true := by
  obtain ⟨m, hcls, hstar⟩ := h
  obtain ⟨rfl, hlt, hp⟩ := hcls
  obtain ⟨hle, hlen, hall⟩ := hstar
  refine ⟨by omega, hlen, hlt, ?_⟩
  intro k h1 h2
  rcases Nat.eq_or_lt_of_le h1 with rfl | h1
  · exact hp
  · exact hall k h1 h2

/-- Captures of a `p+` group: nonempty, all characters in the class. -/
theorem plus1_capture {text : List Char} {lz : Bool} {p : Char → Bool} {i j : Nat}
    (h : SpansR text (RE.plus1 lz p) i j) :
    sliceStr text i j ≠ "" ∧ ∀ c ∈ (sliceStr text i j).data, p c = true := by
  obtain ⟨hij, hj, hi, hall⟩ := SpansR_plus1 h
  exact ⟨sliceStr_ne_empty hij hi, sliceStr_all hall⟩

/-- Captures of a `[X][Y]+?`-shaped group: the first character is in the
head class. -/
theorem headTail_capture {text : List Char} {h t : Char → Bool} {lz : Bool} {i j : Nat}
    (hs : SpansR text (.seq (.cls h) (RE.plus1 lz t)) i j) :
    ∃ c l, (sliceStr text i j).data = c :: l ∧ h c = true := by
  obtain ⟨m, hcls, hplus⟩ := hs
  obtain ⟨rfl, hlt, hp⟩ := hcls
  obtain ⟨hlt2, _, _, _⟩ := SpansR_plus1 hplus
  have hij : i < j := Nat.lt_of_succ_lt hlt2
  obtain ⟨l, hl⟩ := sliceStr_head hij hlt
  exact ⟨text.getD i ' ', l, hl, hp⟩

/-! ## Character-class facts -/

theorem isPySpace_cases {c : Char} (h : isPySpace c = true) :
    c = ' ' ∨ c = '\t' ∨ c = '\n' ∨ c = '\r' ∨ c = Char.ofNat 11 ∨ c = Char.ofNat 12 := by
  simp only [isPySpace, Bool.or_eq_true, decide_eq_true_eq] at h
  simpa [or_assoc] using h

theorem alphaC_not_ws {c : Char} (h : alphaC c = true) : isPySpace c = false := by
  cases hw : isPySpace c
  · rfl
  · rcases isPySpace_cases hw with rfl | rfl | rfl | rfl | rfl | rfl <;>
      exact absurd h (by decide)

theorem upperC_not_ws {c : Char} (h : upperC c = true) : isPySpace c = false := by
  cases hw : isPySpace c
  · rfl
  · rcases isPySpace_cases hw with rfl | rfl | rfl | rfl | rfl | rfl <;>
      exact absurd h (by decide)

theorem kpaVal_not_ws {c : Char} (h : (cmpC c || numC c) = true) : isPySpace c = false := by
  cases hw : isPySpace c
  · rfl
  · rcases isPySpace_cases hw with rfl | rfl | rfl | rfl | rfl | rfl <;>
      exact absurd h (by decide)

theorem numC_not_ws {c : Char} (h : numC c = true) : isPySpace c = false := by
  cases hw : isPySpace c
  · rfl
  · rcases isPySpace_cases hw with rfl | rfl | rfl | rfl | rfl | rfl <;>
      exact absurd h (by decide)

theorem mhbValC_not_ws {c : Char} (h : mhbValC c = true) : isPySpace c = false := by
  cases hw : isPySpace c
  · rfl
  · rcases isPySpace_cases hw with rfl | rfl | rfl | rfl | rfl | rfl <;>
      exact absurd h (by decide)

theorem rcbValC_not_ws {c : Char} (h : rcbValC c = true) : isPySpace c = false := by
  cases hw : isPySpace c
  · rfl
  · rcases isPySpace_cases hw with rfl | rfl | rfl | rfl | rfl | rfl <;>
      exact absurd h (by decide)

theorem upDigC_not_ws {c : Char} (h : upDigC c = true) : isPySpace c = false := by
  cases hw : isPySpace c
  · rfl
  · rcases isPySpace_cases hw with rfl | rfl | rfl | rfl | rfl | rfl <;>
      exact absurd h (by decide)

/-! ## String emptiness helpers -/

theorem str_ne_empty {s : String} (h : s.data ≠ []) : s ≠ "" :=
  fun he => h (congrArg String.data he)

theorem str_data_ne {s : String} (h : s ≠ "") : s.data ≠ [] :=
  fun hd => h (String.ext hd)

theorem pyTitleAux_ne {b : Bool} {l : List Char} (h : l ≠ []) : pyTitleAux b l ≠ [] := by
  cases l with
  | nil => exact absurd rfl h
  | cons c t =>
    unfold pyTitleAux
    by_cases hc : c.isAlpha = true
    · rw [if_pos hc]; simp
    · rw [if_neg hc]; simp

theorem pyTitle_ne {s : String} (h : s ≠ "") : pyTitle s ≠ "" :=
  str_ne_empty (pyTitleAux_ne (str_data_ne h))

/-! ## Normalization-table lemmas -/

theorem tableLookup_mem : ∀ {table : List (String × List RE)} {s name : String},
    tableLookup table s = some name → ∃ pats, (name, pats) ∈ table := by
  intro table
  induction table with
  | nil => intro s name h; exact absurd h (by simp [tableLookup])
  | cons e rest ih =>
    intro s name h
    obtain ⟨nm, pats⟩ := e
    unfold tableLookup at h
    by_cases hm : (pats.any fun p => (pySearch p s false).isSome) = true
    · rw [if_pos hm] at h
      obtain rfl : nm = name := by injection h
      exact ⟨pats, List.mem_cons_self _ _⟩
    · rw [if_neg hm] at h
      obtain ⟨ps, hps⟩ := ih h
      exact ⟨ps, List.mem_cons_of_mem _ hps⟩

/-- The table scan returns the label of the first matching entry. -/
theorem tableLookup_first : ∀ {table : List (String × List RE)} {s : String} {i : Nat},
    i < table.length →
    entryMatches table i s = true →
    (∀ k, k < i → entryMatches table k s = false) →
    tableLookup table s = some (table.getD i ("", [])).1 := by
  intro table
  induction table with
  | nil => intro s i hi; exact absurd hi (by simp)
  | cons e rest ih =>
    intro s i hi hm hfirst
    obtain ⟨nm, pats⟩ := e
    cases i with
    | zero =>
      have : (pats.any fun p => (pySearch p s false).isSome) = true := by
        simpa [entryMatches] using hm
      unfold tableLookup
      rw [if_pos this]
      rfl
    | succ i =>
      have h0 : (pats.any fun p => (pySearch p s false).isSome) = false := by
        simpa [entryMatches] using hfirst 0 (Nat.succ_pos i)
      unfold tableLookup
      rw [if_neg (by simp [h0])]
      have hm' : entryMatches rest i s = true := by simpa [entryMatches] using hm
      have hfirst' : ∀ k, k < i → entryMatches rest k s = false := by
        intro k hk
        simpa [entryMatches] using hfirst (k + 1) (Nat.succ_lt_succ hk)
      have := ih (Nat.lt_of_succ_lt_succ hi) hm' hfirst'
      simpa [List.getD] using this

/-- All keys of both tables are nonempty (a fact of the concrete data). -/
theorem panel_keys_ne : (PANEL_MAPPINGS.all fun e => !(e.1 == "")) = true := by decide

theorem comp_keys_ne : (COMPONENT_MAPPINGS.all fun e => !(e.1 == "")) = true := by decide

theorem tableLookup_key_ne {table : List (String × List RE)} {s name : String}
    (h : tableLookup table s = some name)
    (hkeys : (table.all fun e => !(e.1 == "")) = true) : name ≠ "" := by
  obtain ⟨pats, hmem⟩ := tableLookup_mem h
  have := List.all_eq_true.mp hkeys _ hmem
  simpa using this

/-- A component name containing a non-whitespace character normalizes to a
nonempty label. -/
theorem normalize_component_name_ne {s : String} {c : Char}
    (hc : c ∈ s.data) (hw : isPySpace c = false) : normalize_component_name s ≠ "" := by
  have hs : ¬(s = "") := str_ne_empty (fun hnil => by rw [hnil] at hc; exact absurd hc (by simp))
  unfold normalize_component_name
  rw [if_neg hs]
  show (match tableLookup COMPONENT_MAPPINGS (normalize_test_name s) with
        | some standard_name => standard_name
        | none => normalize_test_name s) ≠ ""
  cases hl : tableLookup COMPONENT_MAPPINGS (normalize_test_name s) with
  | some nm => exact tableLookup_key_ne hl comp_keys_ne
  | none => exact pyCollapse_ne hc hw

/-- A panel name containing a non-whitespace character normalizes to a
nonempty label. -/
theorem normalize_panel_name_ne {s : String} {c : Char}
    (hc : c ∈ s.data) (hw : isPySpace c = false) : normalize_panel_name s ≠ "" := by
  have hs : ¬(s = "") := str_ne_empty (fun hnil => by rw [hnil] at hc; exact absurd hc (by simp))
  unfold normalize_panel_name
  rw [if_neg hs]
  show (match tableLookup PANEL_MAPPINGS (pyStrip s) with
        | some standard_name => standard_name
        | none => if pyIsUpper (pyStrip s) then pyTitle (pyStrip s) else pyStrip s) ≠ ""
  cases hl : tableLookup PANEL_MAPPINGS (pyStrip s) with
  | some nm => exact tableLookup_key_ne hl panel_keys_ne
  | none =>
    by_cases hu : pyIsUpper (pyStrip s) = true
    · simp only [hu, if_true]
      exact pyTitle_ne (pyStrip_ne hc hw)
    · simp only [Bool.not_eq_true] at hu
      simp only [hu, Bool.false_eq_true, if_false]
      exact pyStrip_ne hc hw

/-- Captures of a `[X]*[Y]+`-shaped group: nonempty, all characters in the
union of the classes. -/
theorem starPlus_capture {text : List Char} {p q : Char → Bool} {lzs lzp : Bool} {i j : Nat}
    (hs : SpansR text (.seq (.star lzs p) (RE.plus1 lzp q)) i j) :
    sliceStr text i j ≠ "" ∧ ∀ c ∈ (sliceStr text i j).data, (p c || q c) = true := by
  obtain ⟨m, hstar, hplus⟩ := hs
  obtain ⟨him, hmlen, hallp⟩ := hstar
  obtain ⟨hmj, hjlen, hmlt, hallq⟩ := SpansR_plus1 hplus
  have hij : i < j := by omega
  have hi : i < text.length := by omega
  refine ⟨sliceStr_ne_empty hij hi, sliceStr_all ?_⟩
  intro k h1 h2
  rw [Bool.or_eq_true]
  by_cases hk : k < m
  · exact Or.inl (hallp k h1 hk)
  · exact Or.inr (hallq k (by omega) h2)

/-! ## Group tables of the row patterns (by kernel computation) -/

theorem grpsOf_kpaPatFull : grpsOf kpaPatFull =
    [(1, kpaCompBody), (2, kpaValBody), (3, kpaRefRangeBody), (4, dateRE), (5, kpaLocBody)] := rfl

theorem grpsOf_kpaPatPartRef : grpsOf kpaPatPartRef =
    [(1, kpaCompBody), (2, kpaValBody), (3, kpaRefStartBody), (4, dateRE), (5, kpaLocBody)] := rfl

theorem grpsOf_kpaPatSimple : grpsOf kpaPatSimple =
    [(1, kpaCompBody), (2, kpaValBody), (3, kpaUnitBody), (4, dateRE), (5, kpaLocBody)] := rfl

theorem grpsOf_kpaPatKeyValue : grpsOf kpaPatKeyValue =
    [(1, kvCompBody), (2, kvValBody)] := rfl

theorem grpsOf_mhbPatComplete : grpsOf mhbPatComplete =
    [(1, mhbCompBody), (2, mhbValBody), (3, mhbRefRangeBody), (4, mhbMethBody), (5, dateRE),
     (6, litI "MONUMENT")] := rfl

theorem grpsOf_mhbPatPartRef : grpsOf mhbPatPartRef =
    [(1, mhbCompBody), (2, mhbValBody), (3, mhbValBody), (4, mhbMethBody), (5, dateRE),
     (6, litI "MONUMENT")] := rfl

theorem grpsOf_mhbPatSimple : grpsOf mhbPatSimple =
    [(1, mhbCompBody), (2, mhbValBody), (3, mhbSimpleRefBody), (4, mhbMethBody), (5, dateRE),
     (6, litI "MONUMENT")] := rfl

theorem grpsOf_rcbPatWithRef : grpsOf rcbPatWithRef =
    [(1, rcbCompBody), (2, rcbValBody), (3, rcbFlagBody), (4, rcbRefBody),
     (5, rcbUnitParenBody)] := rfl

theorem grpsOf_rcbPatNoUnit : grpsOf rcbPatNoUnit =
    [(1, rcbCompBody), (2, rcbValBody), (3, rcbFlagBody), (4, rcbRefNBody)] := rfl

theorem grpsOf_rcbPatNoRef : grpsOf rcbPatNoRef =
    [(1, rcbCompBody), (2, rcbValBody), (3, rcbUnitParenBody)] := rfl

theorem grpsOf_rcbPatLooseUnit : grpsOf rcbPatLooseUnit =
    [(1, rcbCompBody), (2, rcbValBody), (3, rcbLooseUnitBody)] := rfl

/-! ## Capture predicates of the row patterns -/

theorem kpaFullG_hg {text : List Char} : ∀ n a, (n, a) ∈ grpsOf kpaPatFull →
    ∀ i j, SpansR text a i j →
    ((n = 1 → headAlphaFact (sliceStr text i j)) ∧
     (n = 2 → allNe kpaValU (sliceStr text i j))) := by
  intro n a hmem i j hsp
  rw [grpsOf_kpaPatFull] at hmem
  simp only [List.mem_cons, List.not_mem_nil, or_false, Prod.mk.injEq] at hmem
  constructor
  · intro hn; subst hn
    rcases hmem with ⟨_, rfl⟩ | ⟨h, _⟩ | ⟨h, _⟩ | ⟨h, _⟩ | ⟨h, _⟩
    · exact headTail_capture hsp
    all_goals omega
  · intro hn; subst hn
    rcases hmem with ⟨h, _⟩ | ⟨_, rfl⟩ | ⟨h, _⟩ | ⟨h, _⟩ | ⟨h, _⟩
    · omega
    · exact starPlus_capture hsp
    all_goals omega

theorem kpaPartG_hg {text : List Char} : ∀ n a, (n, a) ∈ grpsOf kpaPatPartRef →
    ∀ i j, SpansR text a i j →
    ((n = 1 → headAlphaFact (sliceStr text i j)) ∧
     (n = 2 → allNe kpaValU (sliceStr text i j)) ∧
     (n = 3 → allNe numC (sliceStr text i j))) := by
  intro n a hmem i j hsp
  rw [grpsOf_kpaPatPartRef] at hmem
  simp only [List.mem_cons, List.not_mem_nil, or_false, Prod.mk.injEq] at hmem
  refine ⟨?_, ?_, ?_⟩
  · intro hn; subst hn
    rcases hmem with ⟨_, rfl⟩ | ⟨h, _⟩ | ⟨h, _⟩ | ⟨h, _⟩ | ⟨h, _⟩
    · exact headTail_capture hsp
    all_goals omega
  · intro hn; subst hn
    rcases hmem with ⟨h, _⟩ | ⟨_, rfl⟩ | ⟨h, _⟩ | ⟨h, _⟩ | ⟨h, _⟩
    · omega
    · exact starPlus_capture hsp
    all_goals omega
  · intro hn; subst hn
    rcases hmem with ⟨h, _⟩ | ⟨h, _⟩ | ⟨_, rfl⟩ | ⟨h, _⟩ | ⟨h, _⟩
    · omega
    · omega
    · exact plus1_capture hsp
    all_goals omega

theorem kpaSimpleG_hg {text : List Char} : ∀ n a, (n, a) ∈ grpsOf kpaPatSimple →
    ∀ i j, SpansR text a i j →
    ((n = 1 → headAlphaFact (sliceStr text i j)) ∧
     (n = 2 → allNe kpaValU (sliceStr text i j))) := by
  intro n a hmem i j hsp
  rw [grpsOf_kpaPatSimple] at hmem
  simp only [List.mem_cons, List.not_mem_nil, or_false, Prod.mk.injEq] at hmem
  constructor
  · intro hn; subst hn
    rcases hmem with ⟨_, rfl⟩ | ⟨h, _⟩ | ⟨h, _⟩ | ⟨h, _⟩ | ⟨h, _⟩
    · exact headTail_capture hsp
    all_goals omega
  · intro hn; subst hn
    rcases hmem with ⟨h, _⟩ | ⟨_, rfl⟩ | ⟨h, _⟩ | ⟨h, _⟩ | ⟨h, _⟩
    · omega
    · exact starPlus_capture hsp
    all_goals omega

theorem kvG_hg {text : List Char} : ∀ n a, (n, a) ∈ grpsOf kpaPatKeyValue →
    ∀ i j, SpansR text a i j →
    ((n = 1 → allNe upperC (sliceStr text i j)) ∧
     (n = 2 → allNe upDigC (sliceStr text i j))) := by
  intro n a hmem i j hsp
  rw [grpsOf_kpaPatKeyValue] at hmem
  simp only [List.mem_cons, List.not_mem_nil, or_false, Prod.mk.injEq] at hmem
  constructor
  · intro hn; subst hn
    rcases hmem with ⟨_, rfl⟩ | ⟨h, _⟩
    · exact plus1_capture hsp
    · omega
  · intro hn; subst hn
    rcases hmem with ⟨h, _⟩ | ⟨_, rfl⟩
    · omega
    · exact plus1_capture hsp

theorem mhbCompleteG_hg {text : List Char} : ∀ n a, (n, a) ∈ grpsOf mhbPatComplete →
    ∀ i j, SpansR text a i j →
    ((n = 1 → headAlphaFact (sliceStr text i j)) ∧
     (n = 2 → allNe mhbValC (sliceStr text i j))) := by
  intro n a hmem i j hsp
  rw [grpsOf_mhbPatComplete] at hmem
  simp only [List.mem_cons, List.not_mem_nil, or_false, Prod.mk.injEq] at hmem
  constructor
  · intro hn; subst hn
    rcases hmem with ⟨_, rfl⟩ | ⟨h, _⟩ | ⟨h, _⟩ | ⟨h, _⟩ | ⟨h, _⟩ | ⟨h, _⟩
    · exact headTail_capture hsp
    all_goals omega
  · intro hn; subst hn
    rcases hmem with ⟨h, _⟩ | ⟨_, rfl⟩ | ⟨h, _⟩ | ⟨h, _⟩ | ⟨h, _⟩ | ⟨h, _⟩
    · omega
    · exact plus1_capture hsp
    all_goals omega

theorem mhbPartG_hg {text : List Char} : ∀ n a, (n, a) ∈ grpsOf mhbPatPartRef →
    ∀ i j, SpansR text a i j →
    ((n = 1 → headAlphaFact (sliceStr text i j)) ∧
     (n = 2 → allNe mhbValC (sliceStr text i j)) ∧
     (n = 3 → allNe mhbValC (sliceStr text i j))) := by
  intro n a hmem i j hsp
  rw [grpsOf_mhbPatPartRef] at hmem
  simp only [List.mem_cons, List.not_mem_nil, or_false, Prod.mk.injEq] at hmem
  refine ⟨?_, ?_, ?_⟩
  · intro hn; subst hn
    rcases hmem with ⟨_, rfl⟩ | ⟨h, _⟩ | ⟨h, _⟩ | ⟨h, _⟩ | ⟨h, _⟩ | ⟨h, _⟩
    · exact headTail_capture hsp
    all_goals omega
  · intro hn; subst hn
    rcases hmem with ⟨h, _⟩ | ⟨_, rfl⟩ | ⟨h, _⟩ | ⟨h, _⟩ | ⟨h, _⟩ | ⟨h, _⟩
    · omega
    · exact plus1_capture hsp
    all_goals omega
  · intro hn; subst hn
    rcases hmem with ⟨h, _⟩ | ⟨h, _⟩ | ⟨_, rfl⟩ | ⟨h, _⟩ | ⟨h, _⟩ | ⟨h, _⟩
    · omega
    · omega
    · exact plus1_capture hsp
    all_goals omega

theorem mhbSimpleG_hg {text : List Char} : ∀ n a, (n, a) ∈ grpsOf mhbPatSimple →
    ∀ i j, SpansR text a i j →
    ((n = 1 → headAlphaFact (sliceStr text i j)) ∧
     (n = 2 → allNe mhbValC (sliceStr text i j))) := by
  intro n a hmem i j hsp
  rw [grpsOf_mhbPatSimple] at hmem
  simp only [List.mem_cons, List.not_mem_nil, or_false, Prod.mk.injEq] at hmem
  constructor
  · intro hn; subst hn
    rcases hmem with ⟨_, rfl⟩ | ⟨h, _⟩ | ⟨h, _⟩ | ⟨h, _⟩ | ⟨h, _⟩ | ⟨h, _⟩
    · exact headTail_capture hsp
    all_goals omega
  · intro hn; subst hn
    rcases hmem with ⟨h, _⟩ | ⟨_, rfl⟩ | ⟨h, _⟩ | ⟨h, _⟩ | ⟨h, _⟩ | ⟨h, _⟩
    · omega
    · exact plus1_capture hsp
    all_goals omega

theorem rcbFlagRowG_hg1 {text : List Char} : ∀ n a, (n, a) ∈ grpsOf rcbPatWithRef →
    ∀ i j, SpansR text a i j →
    ((n = 1 → headAlphaFact (sliceStr text i j)) ∧
     (n = 2 → allNe rcbValC (sliceStr text i j)) ∧
     (n = 3 → allNe hlC (sliceStr text i j))) := by
  intro n a hmem i j hsp
  rw [grpsOf_rcbPatWithRef] at hmem
  simp only [List.mem_cons, List.not_mem_nil, or_false, Prod.mk.injEq] at hmem
  refine ⟨?_, ?_, ?_⟩
  · intro hn; subst hn
    rcases hmem with ⟨_, rfl⟩ | ⟨h, _⟩ | ⟨h, _⟩ | ⟨h, _⟩ | ⟨h, _⟩
    · exact headTail_capture hsp
    all_goals omega
  · intro hn; subst hn
    rcases hmem with ⟨h, _⟩ | ⟨_, rfl⟩ | ⟨h, _⟩ | ⟨h, _⟩ | ⟨h, _⟩
    · omega
    · exact plus1_capture hsp
    all_goals omega
  · intro hn; subst hn
    rcases hmem with ⟨h, _⟩ | ⟨h, _⟩ | ⟨_, rfl⟩ | ⟨h, _⟩ | ⟨h, _⟩
    · omega
    · omega
    · exact plus1_capture hsp
    all_goals omega

theorem rcbFlagRowG_hg2 {text : List Char} : ∀ n a, (n, a) ∈ grpsOf rcbPatNoUnit →
    ∀ i j, SpansR text a i j →
    ((n = 1 → headAlphaFact (sliceStr text i j)) ∧
     (n = 2 → allNe rcbValC (sliceStr text i j)) ∧
     (n = 3 → allNe hlC (sliceStr text i j))) := by
  intro n a hmem i j hsp
  rw [grpsOf_rcbPatNoUnit] at hmem
  simp only [List.mem_cons, List.not_mem_nil, or_false, Prod.mk.injEq] at hmem
  refine ⟨?_, ?_, ?_⟩
  · intro hn; subst hn
    rcases hmem with ⟨_, rfl⟩ | ⟨h, _⟩ | ⟨h, _⟩ | ⟨h, _⟩
    · exact headTail_capture hsp
    all_goals omega
  · intro hn; subst hn
    rcases hmem with ⟨h, _⟩ | ⟨_, rfl⟩ | ⟨h, _⟩ | ⟨h, _⟩
    · omega
    · exact plus1_capture hsp
    all_goals omega
  · intro hn; subst hn
    rcases hmem with ⟨h, _⟩ | ⟨h, _⟩ | ⟨_, rfl⟩ | ⟨h, _⟩
    · omega
    · omega
    · exact plus1_capture hsp
    · omega

theorem rcbPlainRowG_hg3 {text : List Char} : ∀ n a, (n, a) ∈ grpsOf rcbPatNoRef →
    ∀ i j, SpansR text a i j →
    ((n = 1 → headAlphaFact (sliceStr text i j)) ∧
     (n = 2 → allNe rcbValC (sliceStr text i j))) := by
  intro n a hmem i j hsp
  rw [grpsOf_rcbPatNoRef] at hmem
  simp only [List.mem_cons, List.not_mem_nil, or_false, Prod.mk.injEq] at hmem
  constructor
  · intro hn; subst hn
    rcases hmem with ⟨_, rfl⟩ | ⟨h, _⟩ | ⟨h, _⟩
    · exact headTail_capture hsp
    all_goals omega
  · intro hn; subst hn
    rcases hmem with ⟨h, _⟩ | ⟨_, rfl⟩ | ⟨h, _⟩
    · omega
    · exact plus1_capture hsp
    · omega

theorem rcbPlainRowG_hg4 {text : List Char} : ∀ n a, (n, a) ∈ grpsOf rcbPatLooseUnit →
    ∀ i j, SpansR text a i j →
    ((n = 1 → headAlphaFact (sliceStr text i j)) ∧
     (n = 2 → allNe rcbValC (sliceStr text i j))) := by
  intro n a hmem i j hsp
  rw [grpsOf_rcbPatLooseUnit] at hmem
  simp only [List.mem_cons, List.not_mem_nil, or_false, Prod.mk.injEq] at hmem
  constructor
  · intro hn; subst hn
    rcases hmem with ⟨_, rfl⟩ | ⟨h, _⟩ | ⟨h, _⟩
    · exact headTail_capture hsp
    all_goals omega
  · intro hn; subst hn
    rcases hmem with ⟨h, _⟩ | ⟨_, rfl⟩ | ⟨h, _⟩
    · omega
    · exact plus1_capture hsp
    · omega

/-! ## Per-pattern capture facts -/

theorem reMatch_caps_sound {G : Nat → String → Prop} {re : RE} {text : List Char} {ml : Bool}
    {pos e : Nat} {caps : Caps}
    (hg : ∀ n a, (n, a) ∈ grpsOf re → ∀ i j, SpansR text a i j → G n (sliceStr text i j))
    (hpos : pos ≤ text.length)
    (hm : reMatchAt re text ml pos = some (e, caps)) :
    (∀ x ∈ caps, G x.1 x.2) ∧ ∀ n, mandB re n = true → ∃ t, (n, t) ∈ caps := by
  have h := reMatchAt_sound hg hpos hm
  exact ⟨h.2.2.2.1, h.2.2.2.2⟩

theorem kpaFull_capFacts {line : String} {e : Nat} {caps : Caps}
    (hm : pyMatch kpaPatFull line false = some (e, caps)) :
    headAlphaFact (capStr caps 1) ∧ allNe kpaValU (capStr caps 2) := by
  have h := @reMatch_caps_sound (capG2 headAlphaFact (allNe kpaValU))
    kpaPatFull line.data false 0 e caps kpaFullG_hg (Nat.zero_le _) hm
  exact ⟨(capStr_fact h.1 (h.2 1 rfl)).1 rfl, (capStr_fact h.1 (h.2 2 rfl)).2 rfl⟩

theorem kpaPart_capFacts {line : String} {e : Nat} {caps : Caps}
    (hm : pyMatch kpaPatPartRef line false = some (e, caps)) :
    headAlphaFact (capStr caps 1) ∧ allNe kpaValU (capStr caps 2) := by
  have h := @reMatch_caps_sound (capG3 headAlphaFact (allNe kpaValU) (allNe numC))
    kpaPatPartRef line.data false 0 e caps kpaPartG_hg (Nat.zero_le _) hm
  exact ⟨(capStr_fact h.1 (h.2 1 rfl)).1 rfl, (capStr_fact h.1 (h.2 2 rfl)).2.1 rfl⟩

theorem kpaSimple_capFacts {line : String} {e : Nat} {caps : Caps}
    (hm : pyMatch kpaPatSimple line false = some (e, caps)) :
    headAlphaFact (capStr caps 1) ∧ allNe kpaValU (capStr caps 2) := by
  have h := @reMatch_caps_sound (capG2 headAlphaFact (allNe kpaValU))
    kpaPatSimple line.data false 0 e caps kpaSimpleG_hg (Nat.zero_le _) hm
  exact ⟨(capStr_fact h.1 (h.2 1 rfl)).1 rfl, (capStr_fact h.1 (h.2 2 rfl)).2 rfl⟩

theorem kvRow_capFacts {line : String} {e : Nat} {caps : Caps}
    (hm : pyMatch kpaPatKeyValue line false = some (e, caps)) :
    allNe upperC (capStr caps 1) ∧ allNe upDigC (capStr caps 2) := by
  have h := @reMatch_caps_sound (capG2 (allNe upperC) (allNe upDigC))
    kpaPatKeyValue line.data false 0 e caps kvG_hg (Nat.zero_le _) hm
  exact ⟨(capStr_fact h.1 (h.2 1 rfl)).1 rfl, (capStr_fact h.1 (h.2 2 rfl)).2 rfl⟩

theorem mhbComplete_capFacts {line : String} {e : Nat} {caps : Caps}
    (hm : pyMatch mhbPatComplete line false = some (e, caps)) :
    headAlphaFact (capStr caps 1) ∧ allNe mhbValC (capStr caps 2) := by
  have h := @reMatch_caps_sound (capG2 headAlphaFact (allNe mhbValC))
    mhbPatComplete line.data false 0 e caps mhbCompleteG_hg (Nat.zero_le _) hm
  exact ⟨(capStr_fact h.1 (h.2 1 rfl)).1 rfl, (capStr_fact h.1 (h.2 2 rfl)).2 rfl⟩

theorem mhbPart_capFacts {line : String} {e : Nat} {caps : Caps}
    (hm : pyMatch mhbPatPartRef line false = some (e, caps)) :
    headAlphaFact (capStr caps 1) ∧ allNe mhbValC (capStr caps 2) := by
  have h := @reMatch_caps_sound (capG3 headAlphaFact (allNe mhbValC) (allNe mhbValC))
    mhbPatPartRef line.data false 0 e caps mhbPartG_hg (Nat.zero_le _) hm
  exact ⟨(capStr_fact h.1 (h.2 1 rfl)).1 rfl, (capStr_fact h.1 (h.2 2 rfl)).2.1 rfl⟩

theorem mhbSimple_capFacts {line : String} {e : Nat} {caps : Caps}
    (hm : pyMatch mhbPatSimple line false = some (e, caps)) :
    headAlphaFact (capStr caps 1) ∧ allNe mhbValC (capStr caps 2) := by
  have h := @reMatch_caps_sound (capG2 headAlphaFact (allNe mhbValC))
    mhbPatSimple line.data false 0 e caps mhbSimpleG_hg (Nat.zero_le _) hm
  exact ⟨(capStr_fact h.1 (h.2 1 rfl)).1 rfl, (capStr_fact h.1 (h.2 2 rfl)).2 rfl⟩

theorem rcbM1_capFacts {text : String} {m : FMatch}
    (hmem : m ∈ pyFindIter rcbPatWithRef text true) :
    headAlphaFact (capStr m.caps 1) ∧ allNe rcbValC (capStr m.caps 2) ∧
      ∀ f, capLookup m.caps 3 = some f → allNe hlC f := by
  obtain ⟨hpos, hm⟩ := pyFindIter_mem hmem
  have h := @reMatch_caps_sound (capG3 headAlphaFact (allNe rcbValC) (allNe hlC))
    rcbPatWithRef text.data true m.start m.stop m.caps rcbFlagRowG_hg1 hpos hm
  refine ⟨(capStr_fact h.1 (h.2 1 rfl)).1 rfl, (capStr_fact h.1 (h.2 2 rfl)).2.1 rfl, ?_⟩
  intro f hf
  exact (h.1 _ (capLookup_mem hf)).2.2 rfl

theorem rcbM2_capFacts {text : String} {m : FMatch}
    (hmem : m ∈ pyFindIter rcbPatNoUnit text true) :
    headAlphaFact (capStr m.caps 1) ∧ allNe rcbValC (capStr m.caps 2) ∧
      ∀ f, capLookup m.caps 3 = some f → allNe hlC f := by
  obtain ⟨hpos, hm⟩ := pyFindIter_mem hmem
  have h := @reMatch_caps_sound (capG3 headAlphaFact (allNe rcbValC) (allNe hlC))
    rcbPatNoUnit text.data true m.start m.stop m.caps rcbFlagRowG_hg2 hpos hm
  refine ⟨(capStr_fact h.1 (h.2 1 rfl)).1 rfl, (capStr_fact h.1 (h.2 2 rfl)).2.1 rfl, ?_⟩
  intro f hf
  exact (h.1 _ (capLookup_mem hf)).2.2 rfl

theorem rcbM3_capFacts {text : String} {m : FMatch}
    (hmem : m ∈ pyFindIter rcbPatNoRef text true) :
    headAlphaFact (capStr m.caps 1) ∧ allNe rcbValC (capStr m.caps 2) := by
  obtain ⟨hpos, hm⟩ := pyFindIter_mem hmem
  have h := @reMatch_caps_sound (capG2 headAlphaFact (allNe rcbValC))
    rcbPatNoRef text.data true m.start m.stop m.caps rcbPlainRowG_hg3 hpos hm
  exact ⟨(capStr_fact h.1 (h.2 1 rfl)).1 rfl, (capStr_fact h.1 (h.2 2 rfl)).2 rfl⟩

theorem rcbM4_capFacts {text : String} {m : FMatch}
    (hmem : m ∈ pyFindIter rcbPatLooseUnit text true) :
    headAlphaFact (capStr m.caps 1) ∧ allNe rcbValC (capStr m.caps 2) := by
  obtain ⟨hpos, hm⟩ := pyFindIter_mem hmem
  have h := @reMatch_caps_sound (capG2 headAlphaFact (allNe rcbValC))
    rcbPatLooseUnit text.data true m.start m.stop m.caps rcbPlainRowG_hg4 hpos hm
  exact ⟨(capStr_fact h.1 (h.2 1 rfl)).1 rfl, (capStr_fact h.1 (h.2 2 rfl)).2 rfl⟩

/-! ## Nonemptiness of normalized fields -/

theorem headAlphaFact_headNW {s : String} (h : headAlphaFact s) :
    ∃ ch l, s.data = ch :: l ∧ isPySpace ch = false := by
  obtain ⟨c, l, hd, hc⟩ := h
  exact ⟨c, l, hd, alphaC_not_ws hc⟩

theorem allNe_headNW {p : Char → Bool} {s : String} (h : allNe p s)
    (hp : ∀ c, p c = true → isPySpace c = false) :
    ∃ ch l, s.data = ch :: l ∧ isPySpace ch = false := by
  obtain ⟨hne, hall⟩ := h
  cases hsd : s.data with
  | nil => exact absurd hsd (str_data_ne hne)
  | cons c l =>
    exact ⟨c, l, rfl, hp c (hall c (by rw [hsd]; exact List.mem_cons_self _ _))⟩

theorem headNW_norm_ne {s : String}
    (h : ∃ ch l, s.data = ch :: l ∧ isPySpace ch = false) :
    normalize_component_name s ≠ "" := by
  obtain ⟨ch, l, hd, hnw⟩ := h
  exact normalize_component_name_ne (by rw [hd]; exact List.mem_cons_self _ _) hnw

theorem headNW_norm_TES_ne {s : String}
    (h : ∃ ch l, s.data = ch :: l ∧ isPySpace ch = false) :
    normalize_component_name (pyReplace s " TES" "") ≠ "" := by
  obtain ⟨ch, l, hd, hnw⟩ := h
  have hne : ch ≠ ' ' := by
    intro he; rw [he] at hnw; exact absurd hnw (by decide)
  obtain ⟨l', hd'⟩ := pyReplace_TES_head hd hne
  exact normalize_component_name_ne (by rw [hd']; exact List.mem_cons_self _ _) hnw

theorem ne_allNW_strip_ne {s : String} (h1 : s ≠ "")
    (h2 : ∀ ch ∈ s.data, isPySpace ch = false) : pyStrip s ≠ "" := by
  cases hsd : s.data with
  | nil => exact absurd hsd (str_data_ne h1)
  | cons c l =>
    have hc : c ∈ s.data := by rw [hsd]; exact List.mem_cons_self _ _
    exact pyStrip_ne hc (h2 c hc)

theorem allNe_normVal_ne {p : Char → Bool} {s : String} (h : allNe p s)
    (hp : ∀ c, p c = true → isPySpace c = false) : normalize_value s ≠ "" :=
  ne_allNW_strip_ne h.1 (fun c hc => hp c (h.2 c hc))

/-! ## The MHB component cleaner keeps a leading letter

`normalize_component` substitutes `\s*\([HL]\)\s*`; a string opening with a
letter is never matched at position 0, so `re.sub` keeps its first
character, and the collapse step keeps a nonempty word. -/

theorem searchFrom_pos_of_none {re : RE} {text : List Char} {ml : Bool}
    {fuel pos st : Nat} {r : MRes}
    (h0 : reMatchAt re text ml pos = none)
    (h : searchFrom re text ml (fuel + 1) pos = some (st, r)) : pos < st := by
  unfold searchFrom at h
  rw [h0] at h
  by_cases hc : pos < text.length
  · rw [if_pos hc] at h
    exact (searchFrom_sound (Nat.succ_le_of_lt hc) h).1
  · rw [if_neg hc] at h; exact absurd h (by simp)

theorem pySubAux_head {re : RE} {rep : List Char} {c : Char} {l : List Char} {ml : Bool}
    {fuel : Nat} (h0 : reMatchAt re (c :: l) ml 0 = none) :
    ∃ l', pySubAux re rep (c :: l) ml (fuel + 1) 0 = c :: l' := by
  unfold pySubAux
  rw [if_pos (Nat.zero_le _)]
  split
  next st e caps hs =>
    have hs' : searchFrom re (c :: l) ml (l.length + 1 + 1) 0 = some (st, (e, caps)) := hs
    have hst : 0 < st := searchFrom_pos_of_none h0 hs'
    obtain ⟨st', rfl⟩ : ∃ st', st = st' + 1 := ⟨st - 1, by omega⟩
    split
    · exact ⟨(l.take st' ++ rep) ++ pySubAux re rep (c :: l) ml fuel e, rfl⟩
    · exact ⟨l.take (st' + 1) ++ pySubAux re rep (c :: l) ml fuel (st' + 1 + 1), rfl⟩
  next hs => exact ⟨l, rfl⟩

theorem pySub_head {re : RE} {rep s : String} {c : Char} {l : List Char}
    (hd : s.data = c :: l) (h0 : reMatchAt re s.data false 0 = none) :
    ∃ l', (pySub re rep s).data = c :: l' := by
  show ∃ l', pySubAux re rep.data s.data false (s.data.length + 1) 0 = c :: l'
  rw [hd] at h0 ⊢
  exact pySubAux_head h0

theorem mhbFlagSub_nomatch {s : String} {c : Char} {l : List Char}
    (hd : s.data = c :: l) (hc : alphaC c = true) :
    reMatchAt mhbFlagSubRE s.data false 0 = none := by
  cases hm : reMatchAt mhbFlagSubRE s.data false 0 with
  | none => rfl
  | some r =>
    obtain ⟨e, caps⟩ := r
    exfalso
    have h := @reMatchAt_sound (fun _ _ => True) mhbFlagSubRE s.data false 0 e caps
      (fun _ _ _ _ _ _ => trivial) (Nat.zero_le _) hm
    have hsp := h.2.2.1
    rw [hd] at hsp
    unfold mhbFlagSubRE at hsp
    simp only [REseq, SpansR] at hsp
    obtain ⟨m1, ⟨_, _, hws⟩, m2, ⟨hm2, hlt, hpar⟩, _⟩ := hsp
    by_cases h1 : m1 = 0
    · subst h1
      have hcp : c = '(' := by simpa [chC] using hpar
      rw [hcp] at hc
      exact absurd hc (by decide)
    · have h0lt : 0 < m1 := Nat.pos_of_ne_zero h1
      have hws0 := hws 0 (Nat.zero_le _) h0lt
      have hcs : isPySpace c = true := by simpa [wsC] using hws0
      have hcf := alphaC_not_ws hc
      rw [hcf] at hcs
      exact Bool.noConfusion hcs

theorem mhbNormalizeComponent_ne {s : String} (h : headAlphaFact s) :
    mhbNormalizeComponent s ≠ "" := by
  obtain ⟨c, l, hd, hc⟩ := h
  have h0 : reMatchAt mhbFlagSubRE s.data false 0 = none := mhbFlagSub_nomatch hd hc
  obtain ⟨l', hd'⟩ := pySub_head hd h0
  exact pyCollapse_ne (by rw [hd']; exact List.mem_cons_self _ _) (alphaC_not_ws hc)

/-! ## What the pattern cascades guarantee about their output -/

theorem kpaCascade_facts {hd : String} {lines : List String} {i : Nat} {line : String}
    {c : Cascade} (h : kpaCascade hd lines i line = some c) :
    (∃ s, c.component = some s ∧ ∃ ch l, s.data = ch :: l ∧ isPySpace ch = false) ∧
    (∃ v, c.value = some v ∧ v ≠ "" ∧ ∀ ch ∈ v.data, isPySpace ch = false) := by
  unfold kpaCascade at h
  split at h
  next e1 caps1 hm1 =>
    obtain rfl := Option.some.inj h
    have hf := kpaFull_capFacts hm1
    exact ⟨⟨capStr caps1 1, rfl, headAlphaFact_headNW hf.1⟩,
           ⟨capStr caps1 2, rfl, hf.2.1, fun ch hch => kpaVal_not_ws (hf.2.2 ch hch)⟩⟩
  next hm1 =>
    split at h
    next e2 caps2 hm2 =>
      have hf := kpaPart_capFacts hm2
      split at h
      · simp only [] at h
        split at h
        next e3 caps3 hm3 =>
          obtain rfl := Option.some.inj h
          exact ⟨⟨capStr caps2 1, rfl, headAlphaFact_headNW hf.1⟩,
                 ⟨capStr caps2 2, rfl, hf.2.1, fun ch hch => kpaVal_not_ws (hf.2.2 ch hch)⟩⟩
        next hm3 =>
          obtain rfl := Option.some.inj h
          exact ⟨⟨capStr caps2 1, rfl, headAlphaFact_headNW hf.1⟩,
                 ⟨capStr caps2 2, rfl, hf.2.1, fun ch hch => kpaVal_not_ws (hf.2.2 ch hch)⟩⟩
      · obtain rfl := Option.some.inj h
        exact ⟨⟨capStr caps2 1, rfl, headAlphaFact_headNW hf.1⟩,
               ⟨capStr caps2 2, rfl, hf.2.1, fun ch hch => kpaVal_not_ws (hf.2.2 ch hch)⟩⟩
    next hm2 =>
      split at h
      next e4 caps4 hm4 =>
        obtain rfl := Option.some.inj h
        have hf := kpaSimple_capFacts hm4
        exact ⟨⟨capStr caps4 1, rfl, headAlphaFact_headNW hf.1⟩,
               ⟨capStr caps4 2, rfl, hf.2.1, fun ch hch => kpaVal_not_ws (hf.2.2 ch hch)⟩⟩
      next hm4 =>
        split at h
        next e5 caps5 hm5 =>
          obtain rfl := Option.some.inj h
          have hf := kvRow_capFacts hm5
          exact ⟨⟨capStr caps5 1, rfl, allNe_headNW hf.1 (fun ch hch => upperC_not_ws hch)⟩,
                 ⟨capStr caps5 2, rfl, hf.2.1, fun ch hch => upDigC_not_ws (hf.2.2 ch hch)⟩⟩
        next hm5 => exact absurd h (by simp)

theorem mhbCascade_facts {lines : List String} {i : Nat} {line : String} {c : Cascade}
    (h : mhbCascade lines i line = some c) :
    (∃ s, c.component = some s ∧ headAlphaFact s) ∧
    (∃ v, c.value = some v ∧ v ≠ "" ∧ ∀ ch ∈ v.data, isPySpace ch = false) := by
  unfold mhbCascade at h
  split at h
  next e1 caps1 hm1 =>
    obtain rfl := Option.some.inj h
    have hf := mhbComplete_capFacts hm1
    exact ⟨⟨capStr caps1 1, rfl, hf.1⟩,
           ⟨capStr caps1 2, rfl, hf.2.1, fun ch hch => mhbValC_not_ws (hf.2.2 ch hch)⟩⟩
  next hm1 =>
    split at h
    next e2 caps2 hm2 =>
      have hf := mhbPart_capFacts hm2
      split at h
      · simp only [] at h
        split at h
        next e3 caps3 hm3 =>
          obtain rfl := Option.some.inj h
          exact ⟨⟨capStr caps2 1, rfl, hf.1⟩,
                 ⟨capStr caps2 2, rfl, hf.2.1, fun ch hch => mhbValC_not_ws (hf.2.2 ch hch)⟩⟩
        next hm3 =>
          obtain rfl := Option.some.inj h
          exact ⟨⟨capStr caps2 1, rfl, hf.1⟩,
                 ⟨capStr caps2 2, rfl, hf.2.1, fun ch hch => mhbValC_not_ws (hf.2.2 ch hch)⟩⟩
      · obtain rfl := Option.some.inj h
        exact ⟨⟨capStr caps2 1, rfl, hf.1⟩,
               ⟨capStr caps2 2, rfl, hf.2.1, fun ch hch => mhbValC_not_ws (hf.2.2 ch hch)⟩⟩
    next hm2 =>
      split at h
      next e4 caps4 hm4 =>
        obtain rfl := Option.some.inj h
        have hf := mhbSimple_capFacts hm4
        exact ⟨⟨capStr caps4 1, rfl, hf.1⟩,
               ⟨capStr caps4 2, rfl, hf.2.1, fun ch hch => mhbValC_not_ws (hf.2.2 ch hch)⟩⟩
      next hm4 => exact absurd h (by simp)

/-! ## Field facts of the per-line loop records -/

theorem ite4_cases {c1 c2 c3 : Prop} [Decidable c1] [Decidable c2] [Decidable c3]
    (a b d e : String) :
    (if c1 then a else if c2 then b else if c3 then d else e) = a ∨
    (if c1 then a else if c2 then b else if c3 then d else e) = b ∨
    (if c1 then a else if c2 then b else if c3 then d else e) = d ∨
    (if c1 then a else if c2 then b else if c3 then d else e) = e := by
  by_cases h1 : c1 <;> by_cases h2 : c2 <;> by_cases h3 : c3 <;> simp [h1, h2, h3]

theorem mhbFlagFor_cases {line : String} {b : Bool} :
    mhbFlagFor line b = "H" ∨ mhbFlagFor line b = "L" ∨ mhbFlagFor line b = "A" ∨
      mhbFlagFor line b = "" := by
  unfold mhbFlagFor
  exact ite4_cases "H" "L" "A" ""

theorem kpaLineResult_fields {hd pm pn fn : String} {lines : List String} {i : Nat}
    {r : LabResult} (h : kpaLineResult hd pm pn fn lines i = some r) :
    r.component ≠ "" ∧ r.value ≠ "" ∧ r.flag = "" ∧ r.panel_name = pn ∧
      r.source = fn ∧ r.facility = "Kaiser" ∧ r.page_marker = pm ∧
      ∃ c, kpaCascade hd lines i (pyStrip (lines.getD i "")) = some c ∧
        r.component = normalize_component_name
          (pyReplace (c.component.getD "") " TES" "") := by
  unfold kpaLineResult at h
  split at h
  next hskip => exact absurd h (by simp)
  next hskip =>
    split at h
    next hcas => exact absurd h (by simp)
    next cc hcas =>
      unfold kpaMkRecord at h
      split at h
      next htru =>
        obtain rfl := Option.some.inj h
        obtain ⟨⟨s, hcomp, hnw⟩, v, hval, hvne, hvall⟩ := kpaCascade_facts hcas
        refine ⟨?_, ?_, rfl, rfl, rfl, rfl, rfl, ⟨cc, hcas, rfl⟩⟩
        · show normalize_component_name (pyReplace (cc.component.getD "") " TES" "") ≠ ""
          rw [hcomp]
          exact headNW_norm_TES_ne hnw
        · show normalize_value (cc.value.getD "") ≠ ""
          rw [hval]
          exact ne_allNW_strip_ne hvne hvall
      next htru => exact absurd h (by simp)

theorem rcbPass_out_mem {mk : FMatch → LabResult} {add : Bool} :
    ∀ {ms : List FMatch} {seen : List Nat} {x : Nat × LabResult},
      x ∈ (rcbPass mk add ms seen).1 → ∃ m ∈ ms, x = (m.start, mk m) := by
  intro ms
  induction ms with
  | nil => intro seen x hx; exact absurd hx (by simp [rcbPass])
  | cons m rest ih =>
    intro seen x hx
    unfold rcbPass at hx
    by_cases hc : seen.contains m.start
    · rw [if_pos hc] at hx
      obtain ⟨m', hm', hx'⟩ := ih hx
      exact ⟨m', List.mem_cons_of_mem _ hm', hx'⟩
    · rw [if_neg hc] at hx
      have hx' : x ∈ (m.start, mk m) ::
          (rcbPass mk add rest (if add then m.start :: seen else seen)).1 := hx
      rcases List.mem_cons.mp hx' with rfl | hmem
      · exact ⟨m, List.mem_cons_self _ _, rfl⟩
      · obtain ⟨m', hm', hx2⟩ := ih hmem
        exact ⟨m', List.mem_cons_of_mem _ hm', hx2⟩

theorem pyOrStr_flag_cases (o : Option String) :
    pyOrStr o "" = "" ∨ ∃ f, o = some f ∧ f ≠ "" ∧ pyOrStr o "" = f := by
  cases o with
  | none => exact Or.inl rfl
  | some f =>
    by_cases h : f = ""
    · exact Or.inl (by simp [pyOrStr, h])
    · exact Or.inr ⟨f, rfl, h, by simp [pyOrStr, h]⟩

theorem rcbExtractInstr_cases {text fn : String} {x : Nat × LabResult}
    (hx : x ∈ rcbExtractInstr text fn) :
    (∃ m ∈ pyFindIter rcbPatWithRef text true,
       x = (m.start, rcbMk1 (normalize_panel_name (rcbExtractPanelName text))
             (extractDate rcbDateRE text) (extractMarker rcbMarkerRE text) fn m)) ∨
    (∃ m ∈ pyFindIter rcbPatNoUnit text true,
       x = (m.start, rcbMk2 (normalize_panel_name (rcbExtractPanelName text))
             (extractDate rcbDateRE text) (extractMarker rcbMarkerRE text) fn m)) ∨
    (∃ m ∈ pyFindIter rcbPatNoRef text true,
       x = (m.start, rcbMk3 (normalize_panel_name (rcbExtractPanelName text))
             (extractDate rcbDateRE text) (extractMarker rcbMarkerRE text) fn m)) ∨
    (∃ m ∈ pyFindIter rcbPatLooseUnit text true,
       x = (m.start, rcbMk4 (normalize_panel_name (rcbExtractPanelName text))
             (extractDate rcbDateRE text) (extractMarker rcbMarkerRE text) fn m)) := by
  unfold rcbExtractInstr at hx
  rcases List.mem_append.mp hx with hx | h4
  · rcases List.mem_append.mp hx with hx | h3
    · rcases List.mem_append.mp hx with h1 | h2
      · obtain ⟨m, hm, heq⟩ := List.mem_map.mp h1
        exact Or.inl ⟨m, hm, heq.symm⟩
      · obtain ⟨m, hm, heq⟩ := rcbPass_out_mem h2
        exact Or.inr (Or.inl ⟨m, hm, heq⟩)
    · obtain ⟨m, hm, heq⟩ := rcbPass_out_mem h3
      exact Or.inr (Or.inr (Or.inl ⟨m, hm, heq⟩))
  · obtain ⟨m, hm, heq⟩ := rcbPass_out_mem h4
    exact Or.inr (Or.inr (Or.inr ⟨m, hm, heq⟩))

theorem rcbRecord_facts {text fn : String} {x : Nat × LabResult}
    (hx : x ∈ rcbExtractInstr text fn) :
    x.2.component ≠ "" ∧ x.2.value ≠ "" ∧ x.2.source = fn ∧ x.2.facility = "RCMC" ∧
      x.2.panel_name = normalize_panel_name (rcbExtractPanelName text) ∧
      x.2.page_marker = extractMarker rcbMarkerRE text ∧
      (x.2.flag = "" ∨ (x.2.flag ≠ "" ∧ ∀ ch ∈ x.2.flag.data, hlC ch = true)) := by
  rcases rcbExtractInstr_cases hx with ⟨m, hm, rfl⟩ | ⟨m, hm, rfl⟩ | ⟨m, hm, rfl⟩ | ⟨m, hm, rfl⟩
  · have hf := rcbM1_capFacts hm
    refine ⟨headNW_norm_ne (headAlphaFact_headNW hf.1),
      allNe_normVal_ne hf.2.1 (fun c h => rcbValC_not_ws h), rfl, rfl, rfl, rfl, ?_⟩
    rcases pyOrStr_flag_cases (capLookup m.caps 3) with he | ⟨f, ho, hne, he⟩
    · exact Or.inl he
    · refine Or.inr ⟨?_, ?_⟩
      · show pyOrStr (capLookup m.caps 3) "" ≠ ""
        rw [he]; exact hne
      · show ∀ ch ∈ (pyOrStr (capLookup m.caps 3) "").data, hlC ch = true
        rw [he]
        exact (hf.2.2 f ho).2
  · have hf := rcbM2_capFacts hm
    refine ⟨headNW_norm_ne (headAlphaFact_headNW hf.1),
      allNe_normVal_ne hf.2.1 (fun c h => rcbValC_not_ws h), rfl, rfl, rfl, rfl, ?_⟩
    rcases pyOrStr_flag_cases (capLookup m.caps 3) with he | ⟨f, ho, hne, he⟩
    · exact Or.inl he
    · refine Or.inr ⟨?_, ?_⟩
      · show pyOrStr (capLookup m.caps 3) "" ≠ ""
        rw [he]; exact hne
      · show ∀ ch ∈ (pyOrStr (capLookup m.caps 3) "").data, hlC ch = true
        rw [he]
        exact (hf.2.2 f ho).2
  · have hf := rcbM3_capFacts hm
    exact ⟨headNW_norm_ne (headAlphaFact_headNW hf.1),
      allNe_normVal_ne hf.2 (fun c h => rcbValC_not_ws h), rfl, rfl, rfl, rfl, Or.inl rfl⟩
  · have hf := rcbM4_capFacts hm
    exact ⟨headNW_norm_ne (headAlphaFact_headNW hf.1),
      allNe_normVal_ne hf.2 (fun c h => rcbValC_not_ws h), rfl, rfl, rfl, rfl, Or.inl rfl⟩

theorem kpaExtract_mem {text fn : String} {r : LabResult} (hr : r ∈ kpaExtract text fn) :
    ∃ i, kpaLineResult (extractDate finalResultDateRE text)
      (extractMarker kpaMarkerRE text)
      (normalize_panel_name (kpaExtractPanelName text)) fn (pySplitSep "\n" text) i = some r := by
  unfold kpaExtract at hr
  obtain ⟨i, _, hi⟩ := List.mem_filterMap.mp hr
  exact ⟨i, hi⟩

theorem mhbExtract_mem {text fn : String} {r : LabResult} (hr : r ∈ mhbExtract text fn) :
    ∃ i, mhbLineResult (extractDate finalResultDateRE text)
      (extractMarker mhbMarkerRE text)
      (normalize_panel_name (mhbExtractPanelName text)) fn
      (pyContains (pyUpper text) "(ABNORMAL)") (pySplitSep "\n" text) i = some r := by
  unfold mhbExtract at hr
  obtain ⟨i, _, hi⟩ := List.mem_filterMap.mp hr
  exact ⟨i, hi⟩

theorem rcbExtract_mem {text fn : String} {r : LabResult} (hr : r ∈ rcbExtract text fn) :
    ∃ x ∈ rcbExtractInstr text fn, x.2 = r := by
  unfold rcbExtract at hr
  obtain ⟨x, hx, heq⟩ := List.mem_map.mp hr
  exact ⟨x, hx, heq⟩

theorem mhbLineResult_fields {hd pm pn fn : String} {habn : Bool} {lines : List String}
    {i : Nat} {r : LabResult}
    (h : mhbLineResult hd pm pn fn habn lines i = some r) :
    r.component ≠ "" ∧ r.value ≠ "" ∧ r.panel_name = pn ∧ r.source = fn ∧
      r.facility = "Monument" ∧ r.page_marker = pm ∧
      (r.flag = "H" ∨ r.flag = "L" ∨ r.flag = "A" ∨ r.flag = "") := by
  unfold mhbLineResult at h
  split at h
  next hskip => exact absurd h (by simp)
  next hskip =>
    split at h
    next hcas => exact absurd h (by simp)
    next cc hcas =>
      unfold mhbMkRecord at h
      split at h
      next htru =>
        obtain rfl := Option.some.inj h
        obtain ⟨⟨s, hcomp, hha⟩, v, hval, hvne, hvall⟩ := mhbCascade_facts hcas
        refine ⟨?_, ?_, rfl, rfl, rfl, rfl, ?_⟩
        · show mhbNormalizeComponent (cc.component.getD "") ≠ ""
          rw [hcomp]
          exact mhbNormalizeComponent_ne hha
        · show normalize_value (cc.value.getD "") ≠ ""
          rw [hval]
          exact ne_allNW_strip_ne hvne hvall
        · exact mhbFlagFor_cases
      next htru => exact absurd h (by simp)

/-! ## Field preservation through the assembler -/

theorem panelStage1_fields (d : String) (r : LabResult) :
    (panelStage1 d r).component = r.component ∧ (panelStage1 d r).value = r.value ∧
    (panelStage1 d r).flag = r.flag ∧ (panelStage1 d r).source = r.source ∧
    (panelStage1 d r).facility = r.facility ∧ (panelStage1 d r).test_date = r.test_date ∧
    (panelStage1 d r).page_marker = r.page_marker := by
  unfold panelStage1
  split <;> exact ⟨rfl, rfl, rfl, rfl, rfl, rfl, rfl⟩

theorem panelStage2_fields (r : LabResult) :
    (panelStage2 r).component = r.component ∧ (panelStage2 r).value = r.value ∧
    (panelStage2 r).flag = r.flag ∧ (panelStage2 r).source = r.source ∧
    (panelStage2 r).facility = r.facility ∧ (panelStage2 r).test_date = r.test_date ∧
    (panelStage2 r).page_marker = r.page_marker := by
  unfold panelStage2
  split <;> exact ⟨rfl, rfl, rfl, rfl, rfl, rfl, rfl⟩

theorem dateStage_fields (fn : String) (r : LabResult) :
    (dateStage fn r).component = r.component ∧ (dateStage fn r).value = r.value ∧
    (dateStage fn r).flag = r.flag ∧ (dateStage fn r).source = r.source ∧
    (dateStage fn r).facility = r.facility ∧ (dateStage fn r).panel_name = r.panel_name ∧
    (dateStage fn r).page_marker = r.page_marker := by
  unfold dateStage
  repeat' split
  all_goals exact ⟨rfl, rfl, rfl, rfl, rfl, rfl, rfl⟩

theorem assembleRecord_fields (doc fn : String) (r : LabResult) :
    (assembleRecord doc fn r).component = r.component ∧
    (assembleRecord doc fn r).value = r.value ∧
    (assembleRecord doc fn r).flag = r.flag ∧
    (assembleRecord doc fn r).source = r.source ∧
    (assembleRecord doc fn r).facility = r.facility := by
  have h1 := panelStage1_fields doc r
  have h2 := panelStage2_fields (panelStage1 doc r)
  have h3 := dateStage_fields fn (panelStage2 (panelStage1 doc r))
  show (dateStage fn (panelStage2 (panelStage1 doc r))).component = r.component ∧
    (dateStage fn (panelStage2 (panelStage1 doc r))).value = r.value ∧
    (dateStage fn (panelStage2 (panelStage1 doc r))).flag = r.flag ∧
    (dateStage fn (panelStage2 (panelStage1 doc r))).source = r.source ∧
    (dateStage fn (panelStage2 (panelStage1 doc r))).facility = r.facility
  exact ⟨h3.1.trans (h2.1.trans h1.1),
         h3.2.1.trans (h2.2.1.trans h1.2.1),
         h3.2.2.1.trans (h2.2.2.1.trans h1.2.2.1),
         h3.2.2.2.1.trans (h2.2.2.2.1.trans h1.2.2.2.1),
         h3.2.2.2.2.1.trans (h2.2.2.2.2.1.trans h1.2.2.2.2.1)⟩

theorem panelStage2_panel {r : LabResult} (hc : r.component ≠ "") :
    (panelStage2 r).panel_name ≠ "" ∧
    (pyUpper (pyStrip (panelStage2 r).panel_name) = "LABS-VISIT" →
      (panelStage2 r).panel_name = r.component) := by
  unfold panelStage2
  split
  next hcond => exact ⟨hc, fun _ => rfl⟩
  next hcond =>
    simp only [Bool.or_eq_true, decide_eq_true_eq, not_or] at hcond
    constructor
    · intro h0
      exact hcond.1 (by rw [h0]; decide)
    · intro hlv
      exact absurd hlv hcond.2

theorem assembleRecord_panel (doc fn : String) (r : LabResult) (hc : r.component ≠ "") :
    (assembleRecord doc fn r).panel_name ≠ "" ∧
    (pyUpper (pyStrip (assembleRecord doc fn r).panel_name) = "LABS-VISIT" →
      (assembleRecord doc fn r).panel_name = (assembleRecord doc fn r).component) := by
  have h1 := panelStage1_fields doc r
  have hc1 : (panelStage1 doc r).component ≠ "" := by rw [h1.1]; exact hc
  have hp := panelStage2_panel hc1
  have h2 := panelStage2_fields (panelStage1 doc r)
  have h3 := dateStage_fields fn (panelStage2 (panelStage1 doc r))
  show (dateStage fn (panelStage2 (panelStage1 doc r))).panel_name ≠ "" ∧
    (pyUpper (pyStrip (dateStage fn (panelStage2 (panelStage1 doc r))).panel_name) =
        "LABS-VISIT" →
      (dateStage fn (panelStage2 (panelStage1 doc r))).panel_name =
        (dateStage fn (panelStage2 (panelStage1 doc r))).component)
  rw [h3.2.2.2.2.2.1, h3.1]
  refine ⟨hp.1, ?_⟩
  intro hlv
  rw [h2.1]
  exact hp.2 hlv

/-! ## Record facts at the strategy and document level -/

theorem configExtract_facts {cfg : Config} {text fn : String} {r : LabResult}
    (hr : r ∈ Config.extract cfg text fn) :
    r.component ≠ "" ∧ r.value ≠ "" ∧ r.facility = Config.cname cfg := by
  cases cfg with
  | rcb =>
    obtain ⟨x, hx, rfl⟩ := rcbExtract_mem hr
    have hf := rcbRecord_facts hx
    exact ⟨hf.1, hf.2.1, hf.2.2.2.1⟩
  | kpa =>
    obtain ⟨i, hi⟩ := kpaExtract_mem hr
    have hf := kpaLineResult_fields hi
    exact ⟨hf.1, hf.2.1, hf.2.2.2.2.2.1⟩
  | mhb =>
    obtain ⟨i, hi⟩ := mhbExtract_mem hr
    have hf := mhbLineResult_fields hi
    exact ⟨hf.1, hf.2.1, hf.2.2.2.2.1⟩

/-! ## Ordering and instrumentation erasure -/

theorem filterMap_instr_erase {β : Type} (f : Nat → Option β) :
    ∀ (l : List Nat),
      (l.filterMap (fun i => (f i).map (fun r => (i, r)))).map (fun x => x.2) =
        l.filterMap f := by
  intro l
  induction l with
  | nil => rfl
  | cons a t ih =>
    simp only [List.filterMap_cons]
    cases hf : f a <;> simp [hf, ih]

theorem range_getD_flatMap {β : Type} (h : String → List β) :
    ∀ (l : List String),
      (List.range l.length).flatMap (fun p => h (l.getD p "")) = l.flatMap h := by
  intro l
  induction l with
  | nil => rfl
  | cons a t ih =>
    rw [List.length_cons, List.range_succ_eq_map, List.flatMap_cons]
    have hmap : (List.map (fun i => i + 1) (List.range t.length)).flatMap
        (fun p => h ((a :: t).getD p "")) =
        (List.range t.length).flatMap (fun p => h (t.getD p "")) := by
      rw [List.flatMap_map]
      rfl
    rw [hmap, ih]
    rfl

theorem pairwise_trivial {β : Type} {R : β → β → Prop} (h : ∀ x y, R x y) :
    ∀ (l : List β), l.Pairwise R := by
  intro l
  induction l with
  | nil => exact List.Pairwise.nil
  | cons a t ih => exact List.Pairwise.cons (fun x _ => h a x) ih

theorem pairwise_fst_filterMap {β : Type} (f : Nat → Option β) :
    ∀ (l : List Nat), l.Pairwise (· < ·) →
    (l.filterMap (fun i => (f i).map (fun r => (i, r)))).Pairwise
      (fun a b => a.1 < b.1) := by
  intro l
  induction l with
  | nil => intro _; exact List.Pairwise.nil
  | cons a t ih =>
    intro hl
    obtain ⟨ha, ht⟩ := List.pairwise_cons.mp hl
    simp only [List.filterMap_cons]
    cases hf : f a with
    | none => exact ih ht
    | some b =>
      refine List.Pairwise.cons ?_ (ih ht)
      intro x hx
      obtain ⟨i, hi, hfi⟩ := List.mem_filterMap.mp hx
      cases hg : f i with
      | none => rw [hg] at hfi; exact absurd hfi (by simp)
      | some c =>
        rw [hg] at hfi
        obtain rfl : (i, c) = x := by simpa using hfi
        exact ha i hi

theorem pairwise_fst_flatMap {β : Type} (g : Nat → List β) :
    ∀ (l : List Nat), l.Pairwise (· < ·) →
    (l.flatMap (fun p => (g p).map (fun r => (p, r)))).Pairwise
      (fun a b => a.1 ≤ b.1) := by
  intro l
  induction l with
  | nil => intro _; exact List.Pairwise.nil
  | cons a t ih =>
    intro hl
    obtain ⟨ha, ht⟩ := List.pairwise_cons.mp hl
    rw [List.flatMap_cons]
    apply List.pairwise_append.mpr
    refine ⟨List.pairwise_map.mpr (pairwise_trivial (fun x y => Nat.le_refl a) _),
      ih ht, ?_⟩
    · intro x hx y hy
      obtain ⟨r, _, rfl⟩ := List.mem_map.mp hx
      obtain ⟨p, hp, hyp⟩ := List.mem_flatMap.mp hy
      obtain ⟨s, _, rfl⟩ := List.mem_map.mp hyp
      exact Nat.le_of_lt (ha p hp)

theorem flatMap_instr_erase {β : Type} (g : Nat → List β) :
    ∀ (l : List Nat),
      (l.flatMap (fun p => (g p).map (fun r => (p, r)))).map (fun x => x.2) =
        l.flatMap g := by
  intro l
  induction l with
  | nil => rfl
  | cons a t ih =>
    simp only [List.flatMap_cons, List.map_append, List.map_map, ih]
    congr 1
    show List.map (fun r : β => r) (g a) = g a
    exact List.map_id' (g a)

theorem kpaExtractInstr_erase (text fn : String) :
    (kpaExtractInstr text fn).map (fun x => x.2) = kpaExtract text fn :=
  filterMap_instr_erase _ _

theorem mhbExtractInstr_erase (text fn : String) :
    (mhbExtractInstr text fn).map (fun x => x.2) = mhbExtract text fn :=
  filterMap_instr_erase _ _

theorem processPdfPagesInstr_erase (cfg : Config) (pages : List String) (fn : String) :
    (processPdfPagesInstr cfg pages fn).map (fun x => x.2) =
      processPdfPages cfg pages fn := by
  show ((List.range (pages.filter (fun t => t ≠ "")).length).flatMap
      (fun p => ((Config.extract cfg ((pages.filter (fun t => t ≠ "")).getD p "") fn).map
        (assembleRecord (docPanelName cfg (pages.filter (fun t => t ≠ "")) fn) fn)).map
        (fun r => (p, r)))).map (fun x => x.2) =
    (pages.filter (fun t => t ≠ "")).flatMap
      (fun text => (Config.extract cfg text fn).map
        (assembleRecord (docPanelName cfg (pages.filter (fun t => t ≠ "")) fn) fn))
  rw [flatMap_instr_erase
    (fun p => (Config.extract cfg ((pages.filter (fun t => t ≠ "")).getD p "") fn).map
      (assembleRecord (docPanelName cfg (pages.filter (fun t => t ≠ "")) fn) fn))]
  exact range_getD_flatMap
    (fun text => (Config.extract cfg text fn).map
      (assembleRecord (docPanelName cfg (pages.filter (fun t => t ≠ "")) fn) fn))
    (pages.filter (fun t => t ≠ ""))

theorem processPdfPages_mem {cfg : Config} {pages : List String} {fn : String} {r : LabResult}
    (hr : r ∈ processPdfPages cfg pages fn) :
    ∃ text ∈ pages.filter (fun t => t ≠ ""), ∃ r0 ∈ Config.extract cfg text fn,
      r = assembleRecord (docPanelName cfg (pages.filter (fun t => t ≠ "")) fn) fn r0 := by
  unfold processPdfPages at hr
  obtain ⟨text, htext, hmem⟩ := List.mem_flatMap.mp hr
  obtain ⟨r0, hr0, heq⟩ := List.mem_map.mp hmem
  exact ⟨text, htext, r0, hr0, heq.symm⟩

/-! ## Claim theorems -/

/-- C1: every record emitted by any strategy's `extract_results` has a
nonempty `component` and a nonempty `value`, and the assembler of
`process_pdf` preserves both fields, so every aggregated row has both
nonempty. -/
theorem C1_component_value_nonempty (cfg : Config) (text fn : String)
    (pages : List String) :
    (∀ r ∈ Config.extract cfg text fn, r.component ≠ "" ∧ r.value ≠ "") ∧
    (∀ r ∈ processPdfPages cfg pages fn, r.component ≠ "" ∧ r.value ≠ "") := by
  constructor
  · intro r hr
    have h := configExtract_facts hr
    exact ⟨h.1, h.2.1⟩
  · intro r hr
    obtain ⟨t, ht, r0, hr0, rfl⟩ := processPdfPages_mem hr
    have h := configExtract_facts hr0
    have hf := assembleRecord_fields
      (docPanelName cfg (pages.filter (fun t => t ≠ "")) fn) fn r0
    rw [hf.1, hf.2.1]
    exact ⟨h.1, h.2.1⟩

/-- C2 (amended): after the assembler's panel resolution every record's
`panel_name` is nonempty, and a record whose panel still
strips-and-uppercases to the placeholder `"LABS-VISIT"` carries its own
component there — so the placeholder survives exactly when the component
itself is the placeholder. -/
theorem C2_panel_resolution (cfg : Config) (pages : List String) (fn : String) :
    ∀ r ∈ processPdfPages cfg pages fn, r.panel_name ≠ "" ∧
      (pyUpper (pyStrip r.panel_name) = "LABS-VISIT" → r.panel_name = r.component) := by
  intro r hr
  obtain ⟨t, ht, r0, hr0, rfl⟩ := processPdfPages_mem hr
  exact assembleRecord_panel _ fn r0 (configExtract_facts hr0).1

/-- C2 counterexample: on this page the extracted component is itself the
placeholder, the override copies it into `panel_name`, and the assembled
record's panel name is literally `"LABS-VISIT"` — the spec's "never equal to
the placeholder" is false. -/
theorem C2_counterexample :
    (processPdfPages .kpa ["LABS-VISIT 5 1-2 01/02/2023 KAISER"]
        "2023-01-02----Kaiser.pdf").map (fun r => r.panel_name) = ["LABS-VISIT"] := by
  decide

/-- Witness for C2 at the concrete assembled record of the counterexample
page. -/
theorem C2_witness :
    wAsmLabsVisit.panel_name ≠ "" ∧
    (pyUpper (pyStrip wAsmLabsVisit.panel_name) = "LABS-VISIT" →
      wAsmLabsVisit.panel_name = wAsmLabsVisit.component) :=
  C2_panel_resolution .kpa ["LABS-VISIT 5 1-2 01/02/2023 KAISER"]
    "2023-01-02----Kaiser.pdf" wAsmLabsVisit (by decide)

/-- C4: the third pass of `RCBConfig.extract_results` never adds its match
offsets to `matched_lines` (its `matched_lines.add` call is missing, unlike
passes one and two), so the fourth pass re-emits the same physical row: on
this two-line page both emitted records carry match start offset 0,
contradicting "at most one record per match start offset". -/
theorem C4_dedup_bug :
    (rcbExtractInstr "F CA 10 X\n5 (u)" "f.pdf").map (fun x => x.1) = [0, 0] ∧
    (rcbExtractInstr "F CA 10 X\n5 (u)" "f.pdf").map (fun x => x.2) =
      rcbExtract "F CA 10 X\n5 (u)" "f.pdf" :=
  ⟨by decide, rfl⟩

/-- C6 (amended): Kaiser records always carry an empty flag; Monument flags
are `H`, `L`, `A` or empty; RCMC flags are empty or a nonempty string over
the (case-insensitive) `[HL]` class, which admits values such as `"HH"`
beyond the spec's four. -/
theorem C6_flag_values (cfg : Config) (text fn : String) :
    ∀ r ∈ Config.extract cfg text fn,
      r.flag = "" ∨ r.flag = "H" ∨ r.flag = "L" ∨ r.flag = "A" ∨
        (r.flag ≠ "" ∧ ∀ ch ∈ r.flag.data, hlC ch = true) := by
  intro r hr
  cases cfg with
  | rcb =>
    obtain ⟨x, hx, rfl⟩ := rcbExtract_mem hr
    rcases (rcbRecord_facts hx).2.2.2.2.2.2 with he | hhl
    · exact Or.inl he
    · exact Or.inr (Or.inr (Or.inr (Or.inr hhl)))
  | kpa =>
    obtain ⟨i, hi⟩ := kpaExtract_mem hr
    exact Or.inl (kpaLineResult_fields hi).2.2.1
  | mhb =>
    obtain ⟨i, hi⟩ := mhbExtract_mem hr
    rcases (mhbLineResult_fields hi).2.2.2.2.2.2 with h | h | h | h
    · exact Or.inr (Or.inl h)
    · exact Or.inr (Or.inr (Or.inl h))
    · exact Or.inr (Or.inr (Or.inr (Or.inl h)))
    · exact Or.inl h

/-- C6 counterexample: the RCB flag group `[HL]+` under IGNORECASE captures
repeated letters; this row's emitted flag is `"HH"`, outside
{"", "H", "L", "A"}. -/
theorem C6_counterexample :
    (rcbExtract "F IONIZED CALCIUM 1.43 HH 1.12-1.32 (mmol/L)" "f.pdf").map
      (fun r => r.flag) = ["HH"] := by
  decide

/-- Witness for C6 at a concrete Monument record whose flag is `H`. -/
theorem C6_witness :
    wMhbSodium.flag = "" ∨ wMhbSodium.flag = "H" ∨ wMhbSodium.flag = "L" ∨
      wMhbSodium.flag = "A" ∨ wMhbSodium.flag ≠ "" :=
  (C6_flag_values .mhb "Sodium (H) 150 135-145 SPECTROPHOTOMETRY 08/18/2025 MONUMENT"
      "t.pdf" wMhbSodium (by decide)).imp id (Or.imp id (Or.imp id (Or.imp id And.left)))

/-- C7 (amended): records follow page order in every document (the
instrumented assembler's page indices are nondecreasing and erase to the
real output), and the line-cursor strategies emit in strictly increasing
line order; the offset strategy does not (see the counterexample). -/
theorem C7_page_then_line_order (cfg : Config) (pages : List String)
    (text fn : String) :
    ((processPdfPagesInstr cfg pages fn).Pairwise (fun a b => a.1 ≤ b.1) ∧
      (processPdfPagesInstr cfg pages fn).map (fun x => x.2) =
        processPdfPages cfg pages fn) ∧
    ((kpaExtractInstr text fn).Pairwise (fun a b => a.1 < b.1) ∧
      (kpaExtractInstr text fn).map (fun x => x.2) = kpaExtract text fn) ∧
    ((mhbExtractInstr text fn).Pairwise (fun a b => a.1 < b.1) ∧
      (mhbExtractInstr text fn).map (fun x => x.2) = mhbExtract text fn) := by
  refine ⟨⟨?_, ?_⟩, ⟨?_, ?_⟩, ?_, ?_⟩
  · exact pairwise_fst_flatMap _ _ (List.pairwise_lt_range _)
  · exact processPdfPagesInstr_erase cfg pages fn
  · exact pairwise_fst_filterMap _ _ (List.pairwise_lt_range _)
  · exact kpaExtractInstr_erase text fn
  · exact pairwise_fst_filterMap _ _ (List.pairwise_lt_range _)
  · exact mhbExtractInstr_erase text fn

/-- C7 counterexample: the RCMC strategy scans the page once per pattern, so
a later line claimed by an earlier pattern precedes an earlier line claimed
by a later pattern: here the match offsets come out `[18, 0]`, not in text
order (and the instrumentation erases to the strategy's real output). -/
theorem C7_counterexample :
    (rcbExtractInstr "F TSH 1.7 0.0-6.7\nF CA 10.5 8.7-10.6 (mg/dL)" "f.pdf").map
        (fun x => x.1) = [18, 0] ∧
    (rcbExtractInstr "F TSH 1.7 0.0-6.7\nF CA 10.5 8.7-10.6 (mg/dL)" "f.pdf").map
        (fun x => x.2) =
      rcbExtract "F TSH 1.7 0.0-6.7\nF CA 10.5 8.7-10.6 (mg/dL)" "f.pdf" :=
  ⟨by decide, rfl⟩

/-- Idempotence of the panel normalizer on every canonical panel label,
by kernel computation (the panel table is small enough to check at once). -/
theorem panelIdemAll :
    (PANEL_MAPPINGS.all (fun e => normalize_panel_name e.1 == e.1)) = true := by
  decide

/-- Idempotence of the component normalizer on the canonical component
labels other than the `Monocytes Absolute` exception, checked in chunks so
each kernel evaluation stays small. -/
theorem compIdemChunk0 :
    ((["Albumin",
      "Alkaline Phosphatase (ALP)",
      "Alanine Aminotransferase (ALT)",
      "Aspartate Aminotransferase (AST)",
      "Basophils Absolute"] : List String).all
      (fun k => normalize_component_name k == k)) = true := by
  decide

theorem compIdemChunk1 :
    ((["Basophils %",
      "Total Bilirubin",
      "Blood Urea Nitrogen (BUN)",
      "Calcium",
      "Chloride"] : List String).all
      (fun k => normalize_component_name k == k)) = true := by
  decide

theorem compIdemChunk2 :
    ((["Total Cholesterol",
      "Carbon Dioxide (CO2)",
      "Calcium, Corrected",
      "Creatinine",
      "Creatinine, Urine 24H"] : List String).all
      (fun k => normalize_component_name k == k)) = true := by
  decide

theorem compIdemChunk3 :
    ((["Estimated Average Glucose (eAG)",
      "Eosinophils Absolute",
      "Eosinophils %",
      "Iron (Fe)",
      "Folate"] : List String).all
      (fun k => normalize_component_name k == k)) = true := by
  decide

theorem compIdemChunk4 :
    ((["Glucose",
      "Hematocrit (Hct)",
      "HDL Cholesterol",
      "Hemoglobin (Hgb)",
      "Immature Granulocytes Absolute"] : List String).all
      (fun k => normalize_component_name k == k)) = true := by
  decide

theorem compIdemChunk5 :
    ((["Immature Granulocytes %",
      "Calcium, Ionized",
      "Potassium",
      "LDL Cholesterol",
      "Lymphocytes Absolute"] : List String).all
      (fun k => normalize_component_name k == k)) = true := by
  decide

theorem compIdemChunk6 :
    ((["Lymphocytes %",
      "Mean Corpuscular Hemoglobin (MCH)",
      "Mean Corpuscular Hemoglobin Concentration (MCHC)",
      "Mean Corpuscular Volume (MCV)",
      "Monocytes %"] : List String).all
      (fun k => normalize_component_name k == k)) = true := by
  decide

theorem compIdemChunk7 :
    ((["Mean Platelet Volume (MPV)",
      "Sodium",
      "Neutrophils Absolute",
      "Neutrophils %",
      "Platelet Count"] : List String).all
      (fun k => normalize_component_name k == k)) = true := by
  decide

theorem compIdemChunk8 :
    ((["Total Protein",
      "Parathyroid Hormone (PTH), Intact",
      "Red Blood Cell Count (RBC)",
      "Red Cell Distribution Width (RDW)",
      "Total Iron Binding Capacity (TIBC)"] : List String).all
      (fun k => normalize_component_name k == k)) = true := by
  decide

theorem compIdemChunk9 :
    ((["Triglycerides",
      "Thyroid Stimulating Hormone (TSH)",
      "Vitamin B12",
      "White Blood Cell Count (WBC)",
      "Hemoglobin A1c (HbA1c)"] : List String).all
      (fun k => normalize_component_name k == k)) = true := by
  decide

theorem compIdemChunk10 :
    ((["Anion Gap",
      "Lipase",
      "Magnesium",
      "Phosphorus",
      "Urine pH"] : List String).all
      (fun k => normalize_component_name k == k)) = true := by
  decide

theorem compIdemChunk11 :
    ((["Calcium, Urine",
      "Glucose, Urine",
      "Specific Gravity, Urine",
      "Protein, Urine",
      "Ketones, Urine"] : List String).all
      (fun k => normalize_component_name k == k)) = true := by
  decide

theorem compIdemChunk12 :
    ((["Bilirubin, Urine",
      "Urobilinogen, Urine",
      "Nitrite, Urine",
      "Leukocyte Esterase, Urine",
      "Blood, Urine"] : List String).all
      (fun k => normalize_component_name k == k)) = true := by
  decide

theorem compIdemChunk13 :
    ((["Mucus, Urine",
      "Granulocytes %",
      "Granulocytes",
      "WBC, Urine"] : List String).all
      (fun k => normalize_component_name k == k)) = true := by
  decide

/-- The one canonical component label that is not a fixed point: its own
pattern does not match it, the generic `Monocytes %` pattern does. -/
theorem compIdemMono :
    normalize_component_name "Monocytes Absolute" = "Monocytes %" := by
  decide

/-- The component table's key list, by kernel computation. -/
theorem compKeysLit : COMPONENT_MAPPINGS.map (fun e => e.1) =
     [ "Albumin", "Alkaline Phosphatase (ALP)", "Alanine Aminotransferase (ALT)",
      "Aspartate Aminotransferase (AST)", "Basophils Absolute", "Basophils %", "Total Bilirubin",
      "Blood Urea Nitrogen (BUN)", "Calcium", "Chloride", "Total Cholesterol",
      "Carbon Dioxide (CO2)", "Calcium, Corrected", "Creatinine", "Creatinine, Urine 24H",
      "Estimated Average Glucose (eAG)", "Eosinophils Absolute", "Eosinophils %", "Iron (Fe)",
      "Folate", "Glucose", "Hematocrit (Hct)", "HDL Cholesterol", "Hemoglobin (Hgb)",
      "Immature Granulocytes Absolute", "Immature Granulocytes %", "Calcium, Ionized",
      "Potassium", "LDL Cholesterol", "Lymphocytes Absolute", "Lymphocytes %",
      "Mean Corpuscular Hemoglobin (MCH)", "Mean Corpuscular Hemoglobin Concentration (MCHC)",
      "Mean Corpuscular Volume (MCV)", "Monocytes Absolute", "Monocytes %",
      "Mean Platelet Volume (MPV)", "Sodium", "Neutrophils Absolute", "Neutrophils %",
      "Platelet Count", "Total Protein", "Parathyroid Hormone (PTH), Intact",
      "Red Blood Cell Count (RBC)", "Red Cell Distribution Width (RDW)",
      "Total Iron Binding Capacity (TIBC)", "Triglycerides", "Thyroid Stimulating Hormone (TSH)",
      "Vitamin B12", "White Blood Cell Count (WBC)", "Hemoglobin A1c (HbA1c)", "Anion Gap",
      "Lipase", "Magnesium", "Phosphorus", "Urine pH", "Calcium, Urine", "Glucose, Urine",
      "Specific Gravity, Urine", "Protein, Urine", "Ketones, Urine", "Bilirubin, Urine",
      "Urobilinogen, Urine", "Nitrite, Urine", "Leukocyte Esterase, Urine", "Blood, Urine",
      "Mucus, Urine", "Granulocytes %", "Granulocytes", "WBC, Urine"] := by
  decide

/-- Reading one key's idempotence off a chunk check. -/
theorem allIdem_get {l : List String}
    (h : (l.all (fun k => normalize_component_name k == k)) = true)
    {k : String} (hk : k ∈ l) : normalize_component_name k = k := by
  have := List.all_eq_true.mp h k hk
  simpa using this

/-- C8 (amended): normalization is idempotent on every canonical panel
label, and on every canonical component label except
`'Monocytes Absolute'`, whose own pattern (`^MONO\s*#$`) does not match the
label while the generic `Monocytes %` pattern does. -/
theorem C8_idempotence :
    (∀ k ∈ PANEL_MAPPINGS.map (fun e => e.1), normalize_panel_name k = k) ∧
    (∀ k ∈ COMPONENT_MAPPINGS.map (fun e => e.1), k ≠ "Monocytes Absolute" →
      normalize_component_name k = k) ∧
    normalize_component_name "Monocytes Absolute" = "Monocytes %" := by
  refine ⟨?_, ?_, compIdemMono⟩
  · intro k hk
    obtain ⟨e, he, rfl⟩ := List.mem_map.mp hk
    have h := List.all_eq_true.mp panelIdemAll e he
    simpa using h
  · intro k hk hne
    rw [compKeysLit] at hk
    simp only [List.mem_cons, List.not_mem_nil, or_false] at hk
    rcases hk with rfl | rfl | rfl | rfl | rfl | rfl | rfl | rfl | rfl | rfl | rfl | rfl | rfl | rfl | rfl | rfl | rfl | rfl | rfl | rfl | rfl | rfl | rfl | rfl | rfl | rfl | rfl | rfl | rfl | rfl | rfl | rfl | rfl | rfl | rfl | rfl | rfl | rfl | rfl | rfl | rfl | rfl | rfl | rfl | rfl | rfl | rfl | rfl | rfl | rfl | rfl | rfl | rfl | rfl | rfl | rfl | rfl | rfl | rfl | rfl | rfl | rfl | rfl | rfl | rfl | rfl | rfl | rfl | rfl | rfl
    · exact allIdem_get compIdemChunk0 (by decide)
    · exact allIdem_get compIdemChunk0 (by decide)
    · exact allIdem_get compIdemChunk0 (by decide)
    · exact allIdem_get compIdemChunk0 (by decide)
    · exact allIdem_get compIdemChunk0 (by decide)
    · exact allIdem_get compIdemChunk1 (by decide)
    · exact allIdem_get compIdemChunk1 (by decide)
    · exact allIdem_get compIdemChunk1 (by decide)
    · exact allIdem_get compIdemChunk1 (by decide)
    · exact allIdem_get compIdemChunk1 (by decide)
    · exact allIdem_get compIdemChunk2 (by decide)
    · exact allIdem_get compIdemChunk2 (by decide)
    · exact allIdem_get compIdemChunk2 (by decide)
    · exact allIdem_get compIdemChunk2 (by decide)
    · exact allIdem_get compIdemChunk2 (by decide)
    · exact allIdem_get compIdemChunk3 (by decide)
    · exact allIdem_get compIdemChunk3 (by decide)
    · exact allIdem_get compIdemChunk3 (by decide)
    · exact allIdem_get compIdemChunk3 (by decide)
    · exact allIdem_get compIdemChunk3 (by decide)
    · exact allIdem_get compIdemChunk4 (by decide)
    · exact allIdem_get compIdemChunk4 (by decide)
    · exact allIdem_get compIdemChunk4 (by decide)
    · exact allIdem_get compIdemChunk4 (by decide)
    · exact allIdem_get compIdemChunk4 (by decide)
    · exact allIdem_get compIdemChunk5 (by decide)
    · exact allIdem_get compIdemChunk5 (by decide)
    · exact allIdem_get compIdemChunk5 (by decide)
    · exact allIdem_get compIdemChunk5 (by decide)
    · exact allIdem_get compIdemChunk5 (by decide)
    · exact allIdem_get compIdemChunk6 (by decide)
    · exact allIdem_get compIdemChunk6 (by decide)
    · exact allIdem_get compIdemChunk6 (by decide)
    · exact allIdem_get compIdemChunk6 (by decide)
    · exact absurd rfl hne
    · exact allIdem_get compIdemChunk6 (by decide)
    · exact allIdem_get compIdemChunk7 (by decide)
    · exact allIdem_get compIdemChunk7 (by decide)
    · exact allIdem_get compIdemChunk7 (by decide)
    · exact allIdem_get compIdemChunk7 (by decide)
    · exact allIdem_get compIdemChunk7 (by decide)
    · exact allIdem_get compIdemChunk8 (by decide)
    · exact allIdem_get compIdemChunk8 (by decide)
    · exact allIdem_get compIdemChunk8 (by decide)
    · exact allIdem_get compIdemChunk8 (by decide)
    · exact allIdem_get compIdemChunk8 (by decide)
    · exact allIdem_get compIdemChunk9 (by decide)
    · exact allIdem_get compIdemChunk9 (by decide)
    · exact allIdem_get compIdemChunk9 (by decide)
    · exact allIdem_get compIdemChunk9 (by decide)
    · exact allIdem_get compIdemChunk9 (by decide)
    · exact allIdem_get compIdemChunk10 (by decide)
    · exact allIdem_get compIdemChunk10 (by decide)
    · exact allIdem_get compIdemChunk10 (by decide)
    · exact allIdem_get compIdemChunk10 (by decide)
    · exact allIdem_get compIdemChunk10 (by decide)
    · exact allIdem_get compIdemChunk11 (by decide)
    · exact allIdem_get compIdemChunk11 (by decide)
    · exact allIdem_get compIdemChunk11 (by decide)
    · exact allIdem_get compIdemChunk11 (by decide)
    · exact allIdem_get compIdemChunk11 (by decide)
    · exact allIdem_get compIdemChunk12 (by decide)
    · exact allIdem_get compIdemChunk12 (by decide)
    · exact allIdem_get compIdemChunk12 (by decide)
    · exact allIdem_get compIdemChunk12 (by decide)
    · exact allIdem_get compIdemChunk12 (by decide)
    · exact allIdem_get compIdemChunk13 (by decide)
    · exact allIdem_get compIdemChunk13 (by decide)
    · exact allIdem_get compIdemChunk13 (by decide)
    · exact allIdem_get compIdemChunk13 (by decide)

/-- C8 counterexample: the canonical component label `'Monocytes Absolute'`
is not a fixed point of `normalize_component_name`. -/
theorem C8_counterexample :
    normalize_component_name "Monocytes Absolute" ≠ "Monocytes Absolute" := by
  decide

/-- C10: a Kaiser record's component is the component normalizer applied to
the raw captured component text with every `" TES"` substring removed; on
the raw capture `"HDL TES"` this yields `"HDL Cholesterol"`. -/
theorem C10_TES_removal (hd pm pn fn : String) (lines : List String) (i : Nat)
    (r : LabResult) (h : kpaLineResult hd pm pn fn lines i = some r) :
    (∃ c, kpaCascade hd lines i (pyStrip (lines.getD i "")) = some c ∧
      r.component = normalize_component_name
        (pyReplace (c.component.getD "") " TES" "")) ∧
    normalize_component_name (pyReplace "HDL TES" " TES" "") = "HDL Cholesterol" :=
  ⟨(kpaLineResult_fields h).2.2.2.2.2.2.2, by decide⟩

/-- Witness for C10: the row `HDL TES 39.0 77.0-99.0 01/02/2023 KAISER`
yields the component `HDL Cholesterol`. -/
theorem C10_witness :
    normalize_component_name (pyReplace "HDL TES" " TES" "") = "HDL Cholesterol" :=
  (C10_TES_removal "" "" "" "f.pdf" ["HDL TES 39.0 77.0-99.0 01/02/2023 KAISER"] 0
    wKpaHdl (by decide)).2

/-- C3 (amended): for a line matching the partial-reference pattern with
range start `s` (group 3), both line-cursor strategies always emit the row
(the cascade returns a record); with a numeric next line both set
`ref_range = s ++ "-" ++ e`; with no next line both set `s ++ "-"`; but when
the next line exists without a leading number, Monument sets `s ++ "-"`
while Kaiser sets `""` — the dangling-suffix sentence holds only for
Monument. -/
theorem C3_partial_ref_repair :
    (∀ hd lines i line e caps,
      pyMatch kpaPatFull line false = none →
      pyMatch kpaPatPartRef line false = some (e, caps) →
      ∃ c, kpaCascade hd lines i line = some c ∧
        ((i + 1 < lines.length →
          (∀ e2 caps2,
            pyMatch kpaRefEndRE (pyStrip (lines.getD (i + 1) "")) false =
              some (e2, caps2) →
            c.ref_range = capStr caps 3 ++ "-" ++ capStr caps2 1) ∧
          (pyMatch kpaRefEndRE (pyStrip (lines.getD (i + 1) "")) false = none →
            c.ref_range = "")) ∧
         (¬ i + 1 < lines.length → c.ref_range = capStr caps 3 ++ "-"))) ∧
    (∀ lines i line e caps,
      pyMatch mhbPatComplete line false = none →
      pyMatch mhbPatPartRef line false = some (e, caps) →
      ∃ c, mhbCascade lines i line = some c ∧
        ((i + 1 < lines.length →
          (∀ e2 caps2,
            pyMatch mhbRefEndRE (pyStrip (lines.getD (i + 1) "")) false =
              some (e2, caps2) →
            c.ref_range = capStr caps 3 ++ "-" ++ capStr caps2 1) ∧
          (pyMatch mhbRefEndRE (pyStrip (lines.getD (i + 1) "")) false = none →
            c.ref_range = capStr caps 3 ++ "-")) ∧
         (¬ i + 1 < lines.length → c.ref_range = capStr caps 3 ++ "-"))) := by
  constructor
  · intro hd lines i line e caps hm1 hm2
    unfold kpaCascade
    simp only [hm1, hm2]
    by_cases hlen : i + 1 < lines.length
    · rw [if_pos hlen]
      cases hre : pyMatch kpaRefEndRE (pyStrip (lines.getD (i + 1) "")) false with
      | some p2 =>
        obtain ⟨e2', caps2'⟩ := p2
        simp only [hre]
        refine ⟨_, rfl, ?_, ?_⟩
        · intro _
          constructor
          · intro e2 caps2 hre2
            obtain ⟨he, hc⟩ : e2' = e2 ∧ caps2' = caps2 := by
              have h' := Option.some.inj hre2
              exact ⟨congrArg Prod.fst h', congrArg Prod.snd h'⟩
            subst hc
            rfl
          · intro hnone
            exact absurd hnone (by simp)
        · intro hn
          exact absurd hlen hn
      | none =>
        simp only [hre]
        refine ⟨_, rfl, ?_, ?_⟩
        · intro _
          constructor
          · intro e2 caps2 hre2
            exact absurd hre2 (by simp)
          · intro _
            rfl
        · intro hn
          exact absurd hlen hn
    · rw [if_neg hlen]
      refine ⟨_, rfl, ?_, ?_⟩
      · intro hlen'
        exact absurd hlen' hlen
      · intro _
        rfl
  · intro lines i line e caps hm1 hm2
    unfold mhbCascade
    simp only [hm1, hm2]
    by_cases hlen : i + 1 < lines.length
    · rw [if_pos hlen]
      cases hre : pyMatch mhbRefEndRE (pyStrip (lines.getD (i + 1) "")) false with
      | some p2 =>
        obtain ⟨e2', caps2'⟩ := p2
        simp only [hre]
        refine ⟨_, rfl, ?_, ?_⟩
        · intro _
          constructor
          · intro e2 caps2 hre2
            obtain ⟨he, hc⟩ : e2' = e2 ∧ caps2' = caps2 := by
              have h' := Option.some.inj hre2
              exact ⟨congrArg Prod.fst h', congrArg Prod.snd h'⟩
            subst hc
            rfl
          · intro hnone
            exact absurd hnone (by simp)
        · intro hn
          exact absurd hlen hn
      | none =>
        simp only [hre]
        refine ⟨_, rfl, ?_, ?_⟩
        · intro _
          constructor
          · intro e2 caps2 hre2
            exact absurd hre2 (by simp)
          · intro _
            rfl
        · intro hn
          exact absurd hlen hn
    · rw [if_neg hlen]
      refine ⟨_, rfl, ?_, ?_⟩
      · intro hlen'
        exact absurd hlen' hlen
      · intro _
        rfl

/-- C3 counterexample: the Kaiser strategy emits `ref_range = ""`, not the
dangling `"0.35-"`, when a partial-reference row is followed by a
non-numeric line; the suffix form appears only when the row is the page's
last line. -/
theorem C3_counterexample :
    (kpaExtract "TSH 2.03 0.35 - 02/07/2022 GA\nhello world" "f.pdf").map
        (fun r => r.ref_range) = [""] ∧
    (kpaExtract "TSH 2.03 0.35 - 02/07/2022 GA" "f.pdf").map
        (fun r => r.ref_range) = ["0.35-"] :=
  ⟨by decide, by decide⟩

/-- C5: when the patterns of two different canonical entries both match (the
component normalizer matches on the whitespace-collapsed name, the panel
normalizer on the stripped name), the normalizer returns the label of the
entry listed first in the table. -/
theorem C5_table_order (raw : String) (i j : Nat) :
    (raw ≠ "" → i < j → j < COMPONENT_MAPPINGS.length →
      entryMatches COMPONENT_MAPPINGS i (normalize_test_name raw) = true →
      entryMatches COMPONENT_MAPPINGS j (normalize_test_name raw) = true →
      ((List.range i).all (fun k =>
        !(entryMatches COMPONENT_MAPPINGS k (normalize_test_name raw)))) = true →
      normalize_component_name raw = (COMPONENT_MAPPINGS.getD i ("", [])).1) ∧
    (raw ≠ "" → i < j → j < PANEL_MAPPINGS.length →
      entryMatches PANEL_MAPPINGS i (pyStrip raw) = true →
      entryMatches PANEL_MAPPINGS j (pyStrip raw) = true →
      ((List.range i).all (fun k =>
        !(entryMatches PANEL_MAPPINGS k (pyStrip raw)))) = true →
      normalize_panel_name raw = (PANEL_MAPPINGS.getD i ("", [])).1) := by
  constructor
  · intro hraw hij hj hi hjm hall
    have hfirst : ∀ k, k < i →
        entryMatches COMPONENT_MAPPINGS k (normalize_test_name raw) = false := by
      intro k hk
      have := List.all_eq_true.mp hall _ (List.mem_range.mpr hk)
      simpa using this
    have hl := tableLookup_first (Nat.lt_trans hij hj) hi hfirst
    unfold normalize_component_name
    rw [if_neg hraw]
    show (match tableLookup COMPONENT_MAPPINGS (normalize_test_name raw) with
          | some standard_name => standard_name
          | none => normalize_test_name raw) = (COMPONENT_MAPPINGS.getD i ("", [])).1
    rw [hl]
  · intro hraw hij hj hi hjm hall
    have hfirst : ∀ k, k < i →
        entryMatches PANEL_MAPPINGS k (pyStrip raw) = false := by
      intro k hk
      have := List.all_eq_true.mp hall _ (List.mem_range.mpr hk)
      simpa using this
    have hl := tableLookup_first (Nat.lt_trans hij hj) hi hfirst
    unfold normalize_panel_name
    rw [if_neg hraw]
    show (match tableLookup PANEL_MAPPINGS (pyStrip raw) with
          | some standard_name => standard_name
          | none => if pyIsUpper (pyStrip raw) then pyTitle (pyStrip raw)
                    else pyStrip raw) = (PANEL_MAPPINGS.getD i ("", [])).1
    rw [hl]

/-- Witness for C5: `"MONO #"` is matched by the patterns of both
`'Monocytes Absolute'` (index 34) and `'Monocytes %'` (index 35), and
normalizes to the first. -/
theorem C5_witness :
    normalize_component_name "MONO #" = "Monocytes Absolute" := by
  have h := (C5_table_order "MONO #" 34 35).1 (by decide) (by decide) (by decide)
    (by decide) (by decide) (by decide)
  rw [h]
  decide

/-- C9 (amended): an unmatched nonempty panel label is title-cased exactly
when its stripped form is all-uppercase and otherwise passed through
stripped; an unmatched nonempty component label is only
whitespace-collapsed — the component normalizer never title-cases; and any
input containing a non-whitespace character normalizes to a nonempty label
under both tables. -/
theorem C9_fallback (raw : String) :
    (raw ≠ "" → tableLookup PANEL_MAPPINGS (pyStrip raw) = none →
      normalize_panel_name raw =
        if pyIsUpper (pyStrip raw) then pyTitle (pyStrip raw) else pyStrip raw) ∧
    (raw ≠ "" → tableLookup COMPONENT_MAPPINGS (normalize_test_name raw) = none →
      normalize_component_name raw = normalize_test_name raw) ∧
    ((∃ c ∈ raw.data, isPySpace c = false) →
      normalize_panel_name raw ≠ "" ∧ normalize_component_name raw ≠ "") := by
  refine ⟨?_, ?_, ?_⟩
  · intro hraw hnone
    unfold normalize_panel_name
    rw [if_neg hraw]
    show (match tableLookup PANEL_MAPPINGS (pyStrip raw) with
          | some standard_name => standard_name
          | none => if pyIsUpper (pyStrip raw) then pyTitle (pyStrip raw)
                    else pyStrip raw) =
      if pyIsUpper (pyStrip raw) then pyTitle (pyStrip raw) else pyStrip raw
    rw [hnone]
  · intro hraw hnone
    unfold normalize_component_name
    rw [if_neg hraw]
    show (match tableLookup COMPONENT_MAPPINGS (normalize_test_name raw) with
          | some standard_name => standard_name
          | none => normalize_test_name raw) = normalize_test_name raw
    rw [hnone]
  · intro hex
    obtain ⟨c, hc, hw⟩ := hex
    exact ⟨normalize_panel_name_ne hc hw, normalize_component_name_ne hc hw⟩

/-- C9 counterexample: the component normalizer never title-cases — the
unmatched all-uppercase label `"ZZZ"` comes back unchanged while the panel
normalizer returns `"Zzz"`; and the nonempty whitespace-only input `" "`
normalizes to `""` under both tables, refuting "a non-empty input always
yields a non-empty result". -/
theorem C9_counterexample :
    normalize_component_name "ZZZ" = "ZZZ" ∧ pyIsUpper "ZZZ" = true ∧
    normalize_panel_name "ZZZ" = "Zzz" ∧
    normalize_panel_name " " = "" ∧ normalize_component_name " " = "" :=
  ⟨by decide, by decide, by decide, by decide, by decide⟩

end LabSpec
